import Mathlib

/-
Verification of the SystemVerilog-to-pyvsc translation assistant
(`sv_to_pyvsc.py`) against its natural-language specification.

Embedding conventions:
* Python strings are `List Char` (abbreviated `Str`); string literals are
  written `lit "..."`.
* Each Python function becomes a Lean function of the same name with the
  leading underscore dropped; a doc comment on each definition names the
  original symbol.
* Regular expressions are embedded as explicit character scanners; each
  scanner carries a comment with the original pattern.  The scanners follow
  Python `re` semantics on the inputs they are applied to (greedy `\w+`,
  `\d+`, `\s*` never need backtracking in these patterns because the
  character classes of adjacent atoms are disjoint).
* `str.strip` / `lstrip` / `rstrip` become whitespace-dropping helpers;
  Python `c.isalnum()` is `Char.isAlphanum` (the inputs of interest are
  ASCII).
* Python exceptions become `Except`; the generator's mutable instance
  state becomes an explicit `GenState` record threaded through functions.
* Unbounded recursion (Python call recursion, subject to the interpreter's
  recursion limit) is modelled with an explicit fuel parameter; running out
  of fuel corresponds to `RecursionError`, which is an `Exception` like any
  other for the `try/except` blocks of the source.
-/

set_option maxHeartbeats 1000000

namespace SvToPyvsc

/-- Python strings as lists of characters. -/
abbrev Str := List Char

/-- String literal helper. -/
def lit (s : String) : Str := s.data

/-- Single-quote character (apostrophe), used when building message text. -/
def sq : Char := Char.ofNat 39

/-! ## Character classes (Python `re` classes, ASCII fragment) -/

/-- `\w` : word character (letter, digit or underscore). -/
def isWordChar (c : Char) : Bool := c.isAlphanum || c = '_'

/-- `\d` : decimal digit. -/
def isDigitChar (c : Char) : Bool := c.isDigit

/-- `\s` / `str.strip` whitespace. -/
def isSpaceChar (c : Char) : Bool := c.isWhitespace

/-! ## Basic string operations -/

/-- Boolean prefix test (`str.startswith`). -/
def startsW : Str → Str → Bool
  | [], _ => true
  | _ :: _, [] => false
  | p :: ps, c :: cs => p = c && startsW ps cs

/-- Python `str.lstrip()`. -/
def lstrip (l : Str) : Str := l.dropWhile isSpaceChar

/-- Python `str.rstrip()`. -/
def rstrip (l : Str) : Str := (l.reverse.dropWhile isSpaceChar).reverse

/-- Python `str.strip()`. -/
def strip (l : Str) : Str := rstrip (lstrip l)

/-- Python `str.rstrip(";")` (strip trailing semicolons only). -/
def rstripSemi (l : Str) : Str := (l.reverse.dropWhile (· = ';')).reverse

/-- Substring containment, Python `needle in haystack`. -/
def containsSub (haystack needle : Str) : Bool :=
  match haystack with
  | [] => needle.isEmpty
  | _ :: rest => startsW needle haystack || containsSub rest needle

/-- Count of (possibly overlapping start positions of) occurrences of
`needle`; Python `str.count` counts non-overlapping occurrences, which
coincides with this on the texts used here. -/
def countSub (haystack needle : Str) : Nat :=
  match haystack with
  | [] => 0
  | _ :: rest => (if startsW needle haystack then 1 else 0) + countSub rest needle

/-! ## Scanner combinators for the embedded regular expressions -/

/-- `(\w+)` : longest nonempty run of word characters. -/
def matchWord (l : Str) : Option (Str × Str) :=
  let w := l.takeWhile isWordChar
  if w.isEmpty then none else some (w, l.dropWhile isWordChar)

/-- `\s*` : skip whitespace. -/
def skipWs (l : Str) : Str := l.dropWhile isSpaceChar

/-- Literal token. -/
def expectTok (pat : Str) (l : Str) : Option Str :=
  if startsW pat l then some (l.drop pat.length) else none

/-- `(-?\d+)` : optionally signed decimal literal, returned verbatim. -/
def matchInt (l : Str) : Option (Str × Str) :=
  match l with
  | '-' :: rest =>
      let d := rest.takeWhile isDigitChar
      if d.isEmpty then none else some ('-' :: d, rest.dropWhile isDigitChar)
  | _ =>
      let d := l.takeWhile isDigitChar
      if d.isEmpty then none else some (d, l.dropWhile isDigitChar)

/-- `(?:&&|&)` : double ampersand preferred, single accepted. -/
def matchAmp (l : Str) : Option Str :=
  match expectTok (lit "&&") l with
  | some rest => some rest
  | none => expectTok (lit "&") l

/-! ## Range-constraint sugar
(`PyVSCGenerator._try_range_constraint`,
 `PyVSCGenerator._extract_simple_range_constraint`) -/

lemma length_dropWhile_le (p : Char → Bool) (l : Str) :
    (l.dropWhile p).length ≤ l.length := by
  induction l with
  | nil => simp [List.dropWhile]
  | cons c rest ih =>
      by_cases h : p c
      · simp only [List.dropWhile, h]
        exact Nat.le_succ_of_le ih
      · simp [List.dropWhile, h]

lemma strip_length_le (l : Str) : (strip l).length ≤ l.length := by
  unfold strip rstrip lstrip
  calc ((l.dropWhile isSpaceChar).reverse.dropWhile isSpaceChar).reverse.length
      = ((l.dropWhile isSpaceChar).reverse.dropWhile isSpaceChar).length := by
        rw [List.length_reverse]
    _ ≤ (l.dropWhile isSpaceChar).reverse.length :=
        length_dropWhile_le _ _
    _ = (l.dropWhile isSpaceChar).length := by rw [List.length_reverse]
    _ ≤ l.length := length_dropWhile_le _ _

lemma stripTail_lt (l : Str) (h1 : l.head? = some '(') (h2 : l.getLast? = some ')') :
    (strip l.tail.dropLast).length < l.length := by
  rcases l with _ | ⟨a, t⟩
  · simp at h1
  · have ht : t ≠ [] := by
      rintro rfl
      simp [List.getLast?] at h1 h2
      simp [h1] at h2
    have h3 : (strip t.dropLast).length ≤ t.dropLast.length := strip_length_le _
    have h4 : t.dropLast.length = t.length - 1 := List.length_dropLast t
    have h5 : 1 ≤ t.length := Nat.one_le_iff_ne_zero.mpr (by simpa using ht)
    simp only [List.tail_cons, List.length_cons]
    omega

/-- The outer-parenthesis test of `_try_range_constraint` (source lines
2059-2070): scanning the whole string, the parentheses are "outer" unless
the running depth returns to zero strictly before the last character. -/
def isOuterParens (l : Str) : Bool :=
  go 0 l
where
  go (depth : Int) : Str → Bool
    | [] => true
    | [_] => true
    | c :: rest =>
        let d := depth + (if c = '(' then 1 else if c = ')' then -1 else 0)
        if d = 0 then false else go d rest

/-- The `while stripped.startswith('(') and stripped.endswith(')')` loop of
`_try_range_constraint`; each pass strips one layer and re-strips
whitespace, so `l.length` passes always suffice. -/
def stripOuterParensGo : Nat → Str → Str
  | 0, l => l
  | fuel + 1, l =>
      if l.head? = some '(' ∧ l.getLast? = some ')' then
        if isOuterParens l then stripOuterParensGo fuel (strip l.tail.dropLast)
        else l
      else l

def stripOuterParens (l : Str) : Str := stripOuterParensGo l.length l

/-- `(\w+)\s*>=\s*(-?\d+)\s*(?:&&|&)\s*(\w+)\s*<=\s*(-?\d+)` (re.match,
so anchored at the start only).  Returns (var1, min, var2, max). -/
def rangePatGe (l : Str) : Option (Str × Str × Str × Str) := do
  let (v1, l) ← matchWord l
  let l ← expectTok (lit ">=") (skipWs l)
  let (mn, l) ← matchInt (skipWs l)
  let l ← matchAmp (skipWs l)
  let (v2, l) ← matchWord (skipWs l)
  let l ← expectTok (lit "<=") (skipWs l)
  let (mx, _) ← matchInt (skipWs l)
  pure (v1, mn, v2, mx)

/-- `(\w+)\s*<=\s*(-?\d+)\s*(?:&&|&)\s*(\w+)\s*>=\s*(-?\d+)` (re.match).
Returns (var1, max, var2, min). -/
def rangePatLe (l : Str) : Option (Str × Str × Str × Str) := do
  let (v1, l) ← matchWord l
  let l ← expectTok (lit "<=") (skipWs l)
  let (mx, l) ← matchInt (skipWs l)
  let l ← matchAmp (skipWs l)
  let (v2, l) ← matchWord (skipWs l)
  let l ← expectTok (lit ">=") (skipWs l)
  let (mn, _) ← matchInt (skipWs l)
  pure (v1, mx, v2, mn)

/-- The emitted set-membership-of-range line
`self.VAR in vsc.rangelist(vsc.rng(MIN, MAX))`. -/
def rangeLine (v mn mx : Str) : Str :=
  lit "self." ++ v ++ lit " in vsc.rangelist(vsc.rng(" ++ mn ++ lit ", " ++
    mx ++ lit "))"

/-- `PyVSCGenerator._try_range_constraint` (source lines 2055-2093). -/
def tryRangeConstraint (stmt : Str) : Option (List Str) :=
  let stripped := stripOuterParens (strip stmt)
  match rangePatGe stripped with
  | some (v1, mn, v2, mx) =>
      if v1 = v2 then some [rangeLine v1 mn mx] else tryRangeLe stripped
  | none => tryRangeLe stripped
where
  tryRangeLe (stripped : Str) : Option (List Str) :=
    match rangePatLe stripped with
    | some (v1, mx, v2, mn) =>
        if v1 = v2 then some [rangeLine v1 mn mx] else none
    | none => none

/-- The parenthesis-validity scan of `_extract_simple_range_constraint`
(source lines 1033-1048): over the *interior*, the depth must never go
negative and must end at zero. -/
def innerParensValid (inner : Str) : Bool :=
  go 0 inner
where
  go (depth : Int) : Str → Bool
    | [] => depth = 0
    | c :: rest =>
        let d := depth + (if c = '(' then 1 else if c = ')' then -1 else 0)
        if d < 0 then false else go d rest

/-- The paren-stripping `while` loop of `_extract_simple_range_constraint`
(same fuel argument as `stripOuterParensGo`). -/
def stripBodyParensGo : Nat → Str → Str
  | 0, body => body
  | fuel + 1, body =>
      if body.head? = some '(' ∧ body.getLast? = some ')' then
        if innerParensValid body.tail.dropLast then
          stripBodyParensGo fuel (strip body.tail.dropLast)
        else body
      else body

def stripBodyParens (body : Str) : Str := stripBodyParensGo body.length body

/-- `^(\w+)\s*>=\s*(-?\d+)\s*(?:&&|&)\s*\1\s*<=\s*(-?\d+)$` — the anchored
first pattern of `_extract_simple_range_constraint`; `\1` is a backreference
to the exact text of the first group. -/
def simpleRangeGe (l : Str) : Option (Str × Str × Str) := do
  let (v, l) ← matchWord l
  let l ← expectTok (lit ">=") (skipWs l)
  let (mn, l) ← matchInt (skipWs l)
  let l ← matchAmp (skipWs l)
  let l ← expectTok v (skipWs l)
  let l ← expectTok (lit "<=") (skipWs l)
  let (mx, l) ← matchInt (skipWs l)
  if l.isEmpty then pure (v, mn, mx) else none

/-- `^(\w+)\s*<=\s*(-?\d+)\s*(?:&&|&)\s*\1\s*>=\s*(-?\d+)$` — the anchored
second pattern of `_extract_simple_range_constraint`. -/
def simpleRangeLe (l : Str) : Option (Str × Str × Str) := do
  let (v, l) ← matchWord l
  let l ← expectTok (lit "<=") (skipWs l)
  let (mx, l) ← matchInt (skipWs l)
  let l ← matchAmp (skipWs l)
  let l ← expectTok v (skipWs l)
  let l ← expectTok (lit ">=") (skipWs l)
  let (mn, l) ← matchInt (skipWs l)
  if l.isEmpty then pure (v, mx, mn) else none

/-- Body of `PyVSCGenerator._extract_simple_range_constraint`
(source lines 1023-1065), acting on the raw constraint body text. -/
def extractSimpleRangeBody (rawBody : Str) : Option Str :=
  let body := strip (rstripSemi (strip rawBody))
  let body := stripBodyParens body
  match simpleRangeGe body with
  | some (v, mn, mx) => some (rangeLine v mn mx)
  | none =>
      match simpleRangeLe body with
      | some (v, mx, mn) => some (rangeLine v mn mx)
      | none => none

/-! ## Claim C1: statement builders and supporting lemmas -/

/-- One digit character. -/
def digitChar (k : Nat) : Char :=
  if k = 0 then '0' else if k = 1 then '1' else if k = 2 then '2'
  else if k = 3 then '3' else if k = 4 then '4' else if k = 5 then '5'
  else if k = 6 then '6' else if k = 7 then '7' else if k = 8 then '8'
  else '9'

/-- Decimal digit string of a natural number (`n + 1` division steps
always suffice, since `n` shrinks strictly at every step). -/
def natDigitsGo : Nat → Nat → Str
  | 0, _ => []
  | fuel + 1, n =>
      if n < 10 then [digitChar n]
      else natDigitsGo fuel (n / 10) ++ [digitChar (n % 10)]

def natDigits (n : Nat) : Str := natDigitsGo (n + 1) n

/-- Decimal literal of an integer, as it appears in source text. -/
def intLit (n : Int) : Str :=
  if n < 0 then '-' :: natDigits n.natAbs else natDigits n.natAbs

/-- The conjunction token: `&&`, or `&` when `dbl` is false. -/
def ampTok (dbl : Bool) : Str := if dbl then lit "&&" else lit "&"

/-- The single statement `f >= lo && f <= hi` (low bound first). -/
def mkRangeGe (f : Str) (lo hi : Int) (dbl : Bool) : Str :=
  f ++ ' ' :: '>' :: '=' :: ' ' ::
    (intLit lo ++ ' ' :: (ampTok dbl ++ ' ' ::
      (f ++ ' ' :: '<' :: '=' :: ' ' :: intLit hi)))

/-- The mirrored statement `f <= hi && f >= lo` (high bound first). -/
def mkRangeLe (f : Str) (lo hi : Int) (dbl : Bool) : Str :=
  f ++ ' ' :: '<' :: '=' :: ' ' ::
    (intLit hi ++ ' ' :: (ampTok dbl ++ ' ' ::
      (f ++ ' ' :: '>' :: '=' :: ' ' :: intLit lo)))

/-- A `\w+` token: nonempty and made of word characters (the shape the
range regexes accept for the field name). -/
def IsWordTok (f : Str) : Prop := f ≠ [] ∧ ∀ c ∈ f, isWordChar c = true

instance (f : Str) : Decidable (IsWordTok f) :=
  inferInstanceAs (Decidable (f ≠ [] ∧ ∀ c ∈ f, isWordChar c = true))

/-- "The first character of `l`, if any, does not satisfy `p`." -/
def headNoP (p : Char → Bool) : Str → Prop
  | [] => True
  | c :: _ => p c = false

lemma space_not_word {c : Char} (h : isSpaceChar c = true) :
    isWordChar c = false := by
  unfold isSpaceChar Char.isWhitespace at h
  simp only [Bool.or_eq_true, decide_eq_true_eq] at h
  rcases h with ((h | h) | h) | h <;> subst h <;> decide

lemma word_not_space {c : Char} (h : isWordChar c = true) :
    isSpaceChar c = false := by
  by_cases hs : isSpaceChar c = true
  · rw [space_not_word hs] at h; exact absurd h (by simp)
  · simpa using hs

lemma word_ne_of {c d : Char} (h : isWordChar c = true)
    (hd : isWordChar d = false) : c ≠ d := by
  rintro rfl; rw [h] at hd; exact absurd hd (by simp)

lemma takeWhile_run (p : Char → Bool) (w rest : Str)
    (hw : ∀ c ∈ w, p c = true) (hr : headNoP p rest) :
    (w ++ rest).takeWhile p = w ∧ (w ++ rest).dropWhile p = rest := by
  induction w with
  | nil =>
      simp only [List.nil_append]
      cases rest with
      | nil => simp [List.takeWhile, List.dropWhile]
      | cons c cs =>
          simp only [headNoP] at hr
          simp [List.takeWhile, List.dropWhile, hr]
  | cons c cs ih =>
      have hc : p c = true := hw c (by simp)
      have ih2 := ih (fun d hd => hw d (by simp [hd]))
      simp [List.takeWhile, List.dropWhile, hc, ih2.1, ih2.2]

lemma matchWord_run (w rest : Str) (hw : IsWordTok w)
    (hr : headNoP isWordChar rest) :
    matchWord (w ++ rest) = some (w, rest) := by
  have h := takeWhile_run isWordChar w rest hw.2 hr
  unfold matchWord
  rw [h.1, h.2]
  simp [hw.1]

lemma startsW_append (pat rest : Str) : startsW pat (pat ++ rest) = true := by
  induction pat with
  | nil => simp [startsW]
  | cons c cs ih => simp [startsW, ih]

lemma expectTok_append (pat rest : Str) :
    expectTok pat (pat ++ rest) = some rest := by
  unfold expectTok
  rw [startsW_append]
  simp

lemma headNoP_of_all (p : Char → Bool) (l : Str)
    (h : ∀ c ∈ l, p c = false) : headNoP p l := by
  cases l with
  | nil => trivial
  | cons c cs => exact h c (by simp)

lemma digitChar_digit (k : Nat) : isDigitChar (digitChar k) = true := by
  unfold digitChar
  split_ifs <;> decide

lemma natDigits_ne_nil (n : Nat) : natDigits n ≠ [] := by
  unfold natDigits natDigitsGo
  split
  · simp
  · simp

lemma natDigitsGo_all_digit (fuel : Nat) :
    ∀ n c, c ∈ natDigitsGo fuel n → isDigitChar c = true := by
  induction fuel with
  | zero => intro n c hc; simp [natDigitsGo] at hc
  | succ fuel ih =>
      intro n c hc
      unfold natDigitsGo at hc
      split at hc
      · simp only [List.mem_singleton] at hc
        subst hc; exact digitChar_digit n
      · simp only [List.mem_append, List.mem_singleton] at hc
        rcases hc with hc | hc
        · exact ih _ c hc
        · subst hc; exact digitChar_digit (n % 10)

lemma natDigits_all_digit (n : Nat) : ∀ c ∈ natDigits n, isDigitChar c = true :=
  fun c hc => natDigitsGo_all_digit (n + 1) n c hc

lemma digit_word {c : Char} (h : isDigitChar c = true) : isWordChar c = true := by
  unfold isDigitChar Char.isDigit at h
  unfold isWordChar Char.isAlphanum
  simp only [Bool.or_eq_true]
  left; right
  exact h

lemma intLit_all_wordOrMinus (n : Int) :
    ∀ c ∈ intLit n, isDigitChar c = true ∨ c = '-' := by
  unfold intLit
  split
  · intro c hc
    simp only [List.mem_cons] at hc
    rcases hc with hc | hc
    · right; exact hc
    · left; exact natDigits_all_digit _ c hc
  · intro c hc
    left; exact natDigits_all_digit _ c hc

lemma intLit_ne_nil (n : Int) : intLit n ≠ [] := by
  unfold intLit
  split
  · simp
  · exact natDigits_ne_nil _

lemma intLit_head_not_space (n : Int) (rest : Str) :
    headNoP isSpaceChar (intLit n ++ rest) := by
  have h1 := intLit_ne_nil n
  rcases he : intLit n with _ | ⟨c, cs⟩
  · exact absurd he h1
  · have hc : isDigitChar c = true ∨ c = '-' := by
      apply intLit_all_wordOrMinus n
      rw [he]; simp
    show isSpaceChar c = false
    rcases hc with hc | hc
    · exact word_not_space (digit_word hc)
    · subst hc; decide

lemma matchInt_minus (xs : Str) :
    matchInt ('-' :: xs) =
      (if (xs.takeWhile isDigitChar).isEmpty then none
       else some ('-' :: xs.takeWhile isDigitChar, xs.dropWhile isDigitChar)) := rfl

lemma matchInt_cons_ne (c : Char) (cs : Str) (hc : c ≠ '-') :
    matchInt (c :: cs) =
      (if ((c :: cs).takeWhile isDigitChar).isEmpty then none
       else some ((c :: cs).takeWhile isDigitChar,
         (c :: cs).dropWhile isDigitChar)) := by
  unfold matchInt
  split
  · rename_i heq
    rw [List.cons.injEq] at heq
    exact absurd heq.1 hc
  · rfl

lemma matchInt_run (n : Int) (rest : Str) (hr : headNoP isDigitChar rest) :
    matchInt (intLit n ++ rest) = some (intLit n, rest) := by
  have h := takeWhile_run isDigitChar (natDigits n.natAbs) rest
    (natDigits_all_digit _) hr
  unfold intLit
  split
  · rw [List.cons_append, matchInt_minus, h.1, h.2]
    simp [natDigits_ne_nil]
  · obtain ⟨c, cs, he⟩ : ∃ c cs, natDigits n.natAbs = c :: cs := by
      rcases hx : natDigits n.natAbs with _ | ⟨c, cs⟩
      · exact absurd hx (natDigits_ne_nil _)
      · exact ⟨c, cs, rfl⟩
    have hc : isDigitChar c = true := by
      apply natDigits_all_digit n.natAbs
      rw [he]; simp
    have hcm : c ≠ '-' := by
      rintro rfl; exact absurd hc (by decide)
    rw [he] at h ⊢
    simp only [List.cons_append] at h ⊢
    rw [matchInt_cons_ne c (cs ++ rest) hcm]
    simp only [List.takeWhile] at h ⊢
    rw [hc] at h ⊢
    simp only [List.dropWhile, hc] at h ⊢
    rw [h.1, h.2]
    simp

lemma headNoP_cons {p : Char → Bool} {c : Char} {rest : Str}
    (h : p c = false) : headNoP p (c :: rest) := h

lemma skipWs_cons (c : Char) (l : Str) :
    skipWs (c :: l) = if isSpaceChar c then skipWs l else c :: l := by
  cases h : isSpaceChar c <;> simp [skipWs, List.dropWhile, h]

lemma skipWs_nonspace (l : Str) (h : headNoP isSpaceChar l) : skipWs l = l := by
  cases l with
  | nil => rfl
  | cons c cs =>
      have hc : isSpaceChar c = false := h
      simp [skipWs, List.dropWhile, hc]

lemma expectTok_ge (R : Str) : expectTok (lit ">=") ('>' :: '=' :: R) = some R :=
  expectTok_append (lit ">=") R

lemma expectTok_le (R : Str) : expectTok (lit "<=") ('<' :: '=' :: R) = some R :=
  expectTok_append (lit "<=") R

lemma expectTok_ge_lt (R : Str) : expectTok (lit ">=") ('<' :: '=' :: R) = none := by
  simp [expectTok, startsW, lit]

lemma expectTok_le_gt (R : Str) : expectTok (lit "<=") ('>' :: '=' :: R) = none := by
  simp [expectTok, startsW, lit]

lemma ampTok_head_nonspace (dbl : Bool) (rest : Str) :
    headNoP isSpaceChar (ampTok dbl ++ rest) := by
  cases dbl <;> exact headNoP_cons (by decide)

lemma matchAmp_run (dbl : Bool) (rest : Str) (hr : rest.head? ≠ some '&') :
    matchAmp (ampTok dbl ++ rest) = some rest := by
  cases dbl with
  | true =>
      show matchAmp (lit "&&" ++ rest) = some rest
      unfold matchAmp
      rw [expectTok_append]
  | false =>
      show matchAmp ('&' :: rest) = some rest
      unfold matchAmp
      have h1 : expectTok (lit "&&") ('&' :: rest) = none := by
        unfold expectTok
        have : startsW (lit "&&") ('&' :: rest) = false := by
          show startsW ('&' :: '&' :: []) ('&' :: rest) = false
          cases rest with
          | nil => rfl
          | cons c cs =>
              simp only [startsW, List.head?] at hr ⊢
              have hne : ('&' : Char) ≠ c := fun hh => hr (by rw [hh])
              simp [startsW, hne]
        simp [this]
      rw [h1]
      show expectTok (lit "&") ('&' :: rest) = some rest
      exact expectTok_append (lit "&") rest

lemma matchWord_sp (w : Str) (hw : IsWordTok w) (rest : Str) :
    matchWord (w ++ ' ' :: rest) = some (w, ' ' :: rest) :=
  matchWord_run w _ hw (headNoP_cons (by decide))

lemma matchInt_sp (n : Int) (rest : Str) :
    matchInt (intLit n ++ ' ' :: rest) = some (intLit n, ' ' :: rest) :=
  matchInt_run n _ (headNoP_cons (by decide))

lemma matchInt_last (n : Int) : matchInt (intLit n) = some (intLit n, []) := by
  have := matchInt_run n [] trivial
  simpa using this

lemma matchAmp_sp (dbl : Bool) (rest : Str) :
    matchAmp (ampTok dbl ++ ' ' :: rest) = some (' ' :: rest) :=
  matchAmp_run dbl _ (by simp)

lemma skipWs_sp_word (w : Str) (hw : IsWordTok w) (rest : Str) :
    skipWs (' ' :: (w ++ rest)) = w ++ rest := by
  rw [skipWs_cons, if_pos (by decide)]
  apply skipWs_nonspace
  rcases w with _ | ⟨c, cs⟩
  · exact absurd rfl hw.1
  · exact headNoP_cons (word_not_space (hw.2 c (by simp)))

lemma skipWs_sp_int (n : Int) (rest : Str) :
    skipWs (' ' :: (intLit n ++ rest)) = intLit n ++ rest := by
  rw [skipWs_cons, if_pos (by decide)]
  exact skipWs_nonspace _ (intLit_head_not_space n rest)

lemma skipWs_sp_amp (dbl : Bool) (rest : Str) :
    skipWs (' ' :: (ampTok dbl ++ rest)) = ampTok dbl ++ rest := by
  rw [skipWs_cons, if_pos (by decide)]
  exact skipWs_nonspace _ (ampTok_head_nonspace dbl rest)

lemma skipWs_sp_int2 (n : Int) : skipWs (' ' :: intLit n) = intLit n := by
  rw [skipWs_cons, if_pos (by decide)]
  have h := intLit_head_not_space n []
  rw [List.append_nil] at h
  exact skipWs_nonspace _ h

lemma skipWs_gt (l : Str) : skipWs (' ' :: '>' :: '=' :: l) = '>' :: '=' :: l := by
  rw [skipWs_cons, if_pos (by decide)]
  exact skipWs_nonspace _ (headNoP_cons (by decide))

lemma skipWs_lt (l : Str) : skipWs (' ' :: '<' :: '=' :: l) = '<' :: '=' :: l := by
  rw [skipWs_cons, if_pos (by decide)]
  exact skipWs_nonspace _ (headNoP_cons (by decide))

/-- Stepping the low-first pattern through the constructed statement. -/
lemma rangePatGe_mk (f : Str) (lo hi : Int) (dbl : Bool) (hf : IsWordTok f) :
    rangePatGe (mkRangeGe f lo hi dbl) = some (f, intLit lo, f, intLit hi) := by
  unfold rangePatGe mkRangeGe
  simp only [matchWord_sp f hf, Option.bind_eq_bind, Option.some_bind,
    skipWs_gt, skipWs_lt, expectTok_ge, expectTok_le, skipWs_sp_int,
    matchInt_sp, skipWs_sp_amp, matchAmp_sp, skipWs_sp_word f hf,
    matchInt_last, skipWs_sp_int2, Option.pure_def]

/-- Stepping the high-first pattern through the mirrored statement. -/
lemma rangePatLe_mk (f : Str) (lo hi : Int) (dbl : Bool) (hf : IsWordTok f) :
    rangePatLe (mkRangeLe f lo hi dbl) = some (f, intLit hi, f, intLit lo) := by
  unfold rangePatLe mkRangeLe
  simp only [matchWord_sp f hf, Option.bind_eq_bind, Option.some_bind,
    skipWs_gt, skipWs_lt, expectTok_ge, expectTok_le, skipWs_sp_int,
    matchInt_sp, skipWs_sp_amp, matchAmp_sp, skipWs_sp_word f hf,
    matchInt_last, skipWs_sp_int2, Option.pure_def]

/-- The low-first pattern rejects the mirrored statement (it sees `<=`
where it requires `>=`). -/
lemma rangePatGe_mkLe (f : Str) (lo hi : Int) (dbl : Bool) (hf : IsWordTok f) :
    rangePatGe (mkRangeLe f lo hi dbl) = none := by
  unfold rangePatGe mkRangeLe
  simp only [matchWord_sp f hf, Option.bind_eq_bind, Option.some_bind,
    skipWs_lt, expectTok_ge_lt, Option.none_bind]

/-- The high-first pattern rejects the low-first statement. -/
lemma rangePatLe_mkGe (f : Str) (lo hi : Int) (dbl : Bool) (hf : IsWordTok f) :
    rangePatLe (mkRangeGe f lo hi dbl) = none := by
  unfold rangePatLe mkRangeGe
  simp only [matchWord_sp f hf, Option.bind_eq_bind, Option.some_bind,
    skipWs_gt, expectTok_le_gt, Option.none_bind]

lemma simpleRangeGe_mk (f : Str) (lo hi : Int) (dbl : Bool) (hf : IsWordTok f) :
    simpleRangeGe (mkRangeGe f lo hi dbl) = some (f, intLit lo, intLit hi) := by
  unfold simpleRangeGe mkRangeGe
  simp only [matchWord_sp f hf, Option.bind_eq_bind, Option.some_bind,
    skipWs_gt, skipWs_lt, expectTok_ge, expectTok_le, skipWs_sp_int,
    matchInt_sp, skipWs_sp_amp, matchAmp_sp, skipWs_sp_word f hf,
    expectTok_append f, matchInt_last, skipWs_sp_int2, Option.pure_def]
  simp

lemma simpleRangeLe_mk (f : Str) (lo hi : Int) (dbl : Bool) (hf : IsWordTok f) :
    simpleRangeLe (mkRangeLe f lo hi dbl) = some (f, intLit hi, intLit lo) := by
  unfold simpleRangeLe mkRangeLe
  simp only [matchWord_sp f hf, Option.bind_eq_bind, Option.some_bind,
    skipWs_gt, skipWs_lt, expectTok_ge, expectTok_le, skipWs_sp_int,
    matchInt_sp, skipWs_sp_amp, matchAmp_sp, skipWs_sp_word f hf,
    expectTok_append f, matchInt_last, skipWs_sp_int2, Option.pure_def]
  simp

lemma simpleRangeGe_mkLe (f : Str) (lo hi : Int) (dbl : Bool) (hf : IsWordTok f) :
    simpleRangeGe (mkRangeLe f lo hi dbl) = none := by
  unfold simpleRangeGe mkRangeLe
  simp only [matchWord_sp f hf, Option.bind_eq_bind, Option.some_bind,
    skipWs_lt, expectTok_ge_lt, Option.none_bind]

lemma headNoP_append_left {p : Char → Bool} {xs : Str} (ys : Str)
    (h : headNoP p xs) (hne : xs ≠ []) : headNoP p (xs ++ ys) := by
  cases xs with
  | nil => exact absurd rfl hne
  | cons c cs => exact h

lemma intLit_all_nonspace (n : Int) : ∀ c ∈ intLit n, isSpaceChar c = false := by
  intro c hc
  rcases intLit_all_wordOrMinus n c hc with h | h
  · exact word_not_space (digit_word h)
  · subst h; decide

lemma strip_eq_self (l : Str) (h1 : headNoP isSpaceChar l)
    (h2 : headNoP isSpaceChar l.reverse) : strip l = l := by
  unfold strip lstrip rstrip
  rw [show l.dropWhile isSpaceChar = l from skipWs_nonspace l h1]
  rw [show l.reverse.dropWhile isSpaceChar = l.reverse from
    skipWs_nonspace l.reverse h2]
  exact List.reverse_reverse l

lemma rstripSemi_eq_self (l : Str) (h : headNoP (fun c => c = ';') l.reverse) :
    rstripSemi l = l := by
  unfold rstripSemi
  rw [show l.reverse.dropWhile (· = ';') = l.reverse from ?_]
  · exact List.reverse_reverse l
  · cases hr : l.reverse with
    | nil => rfl
    | cons c cs =>
        rw [hr] at h
        have hc : (c = ';' : Bool) = false := h
        simp [List.dropWhile, hc]

/-- First character of either constructed statement: the head of `f`. -/
lemma mk_head_word (f rest : Str) (hf : IsWordTok f) :
    headNoP isSpaceChar (f ++ rest) ∧ headNoP (fun c => c = '(') (f ++ rest) := by
  rcases f with _ | ⟨c, cs⟩
  · exact absurd rfl hf.1
  · have hc : isWordChar c = true := hf.2 c (by simp)
    constructor
    · exact headNoP_cons (word_not_space hc)
    · refine headNoP_cons ?_
      by_cases h : c = '('
      · subst h; exact absurd hc (by decide)
      · simp [h]

/-- Last character of either constructed statement: the last digit of the
trailing integer literal. -/
lemma mk_rev_lastInt (A : Str) (n : Int) :
    headNoP isSpaceChar (A ++ intLit n).reverse ∧
    headNoP (fun c => c = ';') (A ++ intLit n).reverse := by
  rw [List.reverse_append]
  have hne : (intLit n).reverse ≠ [] := by
    simp [intLit_ne_nil n]
  constructor
  · refine headNoP_append_left _ ?_ hne
    apply headNoP_of_all
    intro c hc
    rw [List.mem_reverse] at hc
    exact intLit_all_nonspace n c hc
  · refine headNoP_append_left _ ?_ hne
    apply headNoP_of_all
    intro c hc
    rw [List.mem_reverse] at hc
    rcases intLit_all_wordOrMinus n c hc with h | h
    · by_cases hcc : c = ';'
      · subst hcc; exact absurd h (by decide)
      · simp [hcc]
    · subst h; decide

lemma head?_ne_paren (l : Str) (h : headNoP (fun c => c = '(') l) :
    l.head? ≠ some '(' := by
  cases l with
  | nil => simp
  | cons c cs =>
      have hc : (c = '(' : Bool) = false := h
      simp only [List.head?]
      intro hcc
      injection hcc with h2
      subst h2
      exact absurd hc (by simp)

lemma stripOuterParensGo_skip (fuel : Nat) (l : Str) (h : l.head? ≠ some '(') :
    stripOuterParensGo fuel l = l := by
  cases fuel with
  | zero => rfl
  | succ fuel =>
      unfold stripOuterParensGo
      rw [if_neg]
      rintro ⟨h1, _⟩
      exact h h1

lemma stripOuterParens_skip (l : Str) (h : l.head? ≠ some '(') :
    stripOuterParens l = l := stripOuterParensGo_skip l.length l h

lemma stripBodyParensGo_skip (fuel : Nat) (l : Str) (h : l.head? ≠ some '(') :
    stripBodyParensGo fuel l = l := by
  cases fuel with
  | zero => rfl
  | succ fuel =>
      unfold stripBodyParensGo
      rw [if_neg]
      rintro ⟨h1, _⟩
      exact h h1

lemma stripBodyParens_skip (l : Str) (h : l.head? ≠ some '(') :
    stripBodyParens l = l := stripBodyParensGo_skip l.length l h

/-- Decomposition of the constructed statements as `prefix ++ intLit`. -/
lemma mkGe_decomp (f : Str) (lo hi : Int) (dbl : Bool) :
    ∃ A, mkRangeGe f lo hi dbl = A ++ intLit hi := by
  refine ⟨f ++ ' ' :: '>' :: '=' :: ' ' ::
    (intLit lo ++ ' ' :: (ampTok dbl ++ ' ' ::
      (f ++ [' ', '<', '=', ' ']))), ?_⟩
  simp [mkRangeGe]

lemma mkLe_decomp (f : Str) (lo hi : Int) (dbl : Bool) :
    ∃ A, mkRangeLe f lo hi dbl = A ++ intLit lo := by
  refine ⟨f ++ ' ' :: '<' :: '=' :: ' ' ::
    (intLit hi ++ ' ' :: (ampTok dbl ++ ' ' ::
      (f ++ [' ', '>', '=', ' ']))), ?_⟩
  simp [mkRangeLe]

/-- C1.  For every field name `f` (a `\w+` token) and integer literals
`lo <= hi`, translating the single statement `f >= lo && f <= hi` — and its
hi-first mirror `f <= hi && f >= lo`, with `&` accepted in place of `&&` —
through `_try_range_constraint`, and likewise through
`_extract_simple_range_constraint`, produces the set-membership-of-range
line `self.f in vsc.rangelist(vsc.rng(lo, hi))` with the bounds in the
order `(lo, hi)` regardless of which inequality comes first. -/
theorem c1_round_trip_range_sugar (f : Str) (lo hi : Int) (dbl : Bool)
    (hf : IsWordTok f) (hle : lo ≤ hi) :
    tryRangeConstraint (mkRangeGe f lo hi dbl) =
        some [rangeLine f (intLit lo) (intLit hi)] ∧
    tryRangeConstraint (mkRangeLe f lo hi dbl) =
        some [rangeLine f (intLit lo) (intLit hi)] ∧
    extractSimpleRangeBody (mkRangeGe f lo hi dbl) =
        some (rangeLine f (intLit lo) (intLit hi)) ∧
    extractSimpleRangeBody (mkRangeLe f lo hi dbl) =
        some (rangeLine f (intLit lo) (intLit hi)) := by
  obtain ⟨A, hA⟩ := mkGe_decomp f lo hi dbl
  obtain ⟨B, hB⟩ := mkLe_decomp f lo hi dbl
  have hGeHead : headNoP isSpaceChar (mkRangeGe f lo hi dbl) := by
    unfold mkRangeGe
    exact (mk_head_word f _ hf).1
  have hLeHead : headNoP isSpaceChar (mkRangeLe f lo hi dbl) := by
    unfold mkRangeLe
    exact (mk_head_word f _ hf).1
  have hGeParen : (mkRangeGe f lo hi dbl).head? ≠ some '(' := by
    apply head?_ne_paren
    unfold mkRangeGe
    exact (mk_head_word f _ hf).2
  have hLeParen : (mkRangeLe f lo hi dbl).head? ≠ some '(' := by
    apply head?_ne_paren
    unfold mkRangeLe
    exact (mk_head_word f _ hf).2
  have hGeStrip : strip (mkRangeGe f lo hi dbl) = mkRangeGe f lo hi dbl := by
    apply strip_eq_self _ hGeHead
    rw [hA]
    exact (mk_rev_lastInt A hi).1
  have hLeStrip : strip (mkRangeLe f lo hi dbl) = mkRangeLe f lo hi dbl := by
    apply strip_eq_self _ hLeHead
    rw [hB]
    exact (mk_rev_lastInt B lo).1
  have hGeSemi : rstripSemi (mkRangeGe f lo hi dbl) = mkRangeGe f lo hi dbl := by
    apply rstripSemi_eq_self
    rw [hA]
    exact (mk_rev_lastInt A hi).2
  have hLeSemi : rstripSemi (mkRangeLe f lo hi dbl) = mkRangeLe f lo hi dbl := by
    apply rstripSemi_eq_self
    rw [hB]
    exact (mk_rev_lastInt B lo).2
  refine ⟨?_, ?_, ?_, ?_⟩
  · simp only [tryRangeConstraint, hGeStrip, stripOuterParens_skip _ hGeParen,
      rangePatGe_mk f lo hi dbl hf]
    simp
  · simp only [tryRangeConstraint, hLeStrip, stripOuterParens_skip _ hLeParen,
      rangePatGe_mkLe f lo hi dbl hf, tryRangeConstraint.tryRangeLe,
      rangePatLe_mk f lo hi dbl hf]
    simp
  · simp only [extractSimpleRangeBody, hGeStrip, hGeSemi,
      stripBodyParens_skip _ hGeParen, simpleRangeGe_mk f lo hi dbl hf]
  · simp only [extractSimpleRangeBody, hLeStrip, hLeSemi,
      stripBodyParens_skip _ hLeParen, simpleRangeGe_mkLe f lo hi dbl hf,
      simpleRangeLe_mk f lo hi dbl hf]

/-- Witness for C1 at `f = "speed"`, `lo = 1`, `hi = 9`, using `&&`. -/
theorem c1_round_trip_range_sugar_witness :
    IsWordTok (lit "speed") ∧ (1 : Int) ≤ 9 ∧
    tryRangeConstraint (mkRangeGe (lit "speed") 1 9 true) =
      some [rangeLine (lit "speed") (intLit 1) (intLit 9)] :=
  ⟨by decide, by decide,
    (c1_round_trip_range_sugar (lit "speed") 1 9 true (by decide) (by decide)).1⟩

/-! ## The statement splitter (`PyVSCGenerator._split_statements`) -/

lemma startsW_length {p l : Str} (h : startsW p l = true) : p.length ≤ l.length := by
  induction p generalizing l with
  | nil => simp
  | cons c cs ih =>
      cases l with
      | nil => simp [startsW] at h
      | cons d ds =>
          simp only [startsW, Bool.and_eq_true] at h
          simpa using ih h.2

/-- `i == 0 or not body[i-1].isalnum()` : the character before the keyword
candidate (if any) is not alphanumeric. -/
def prevNotAlnum : Option Char → Bool
  | none => true
  | some c => !c.isAlphanum

/-- `i + k >= len(body) or not body[i+k].isalnum()` : the character after
the keyword candidate (if any) is not alphanumeric. -/
def nextNotAlnum : Str → Bool
  | [] => true
  | c :: _ => !c.isAlphanum

/-- The `begin` keyword test of `_split_statements` (source lines
1404-1405): whole-word match with non-alphanumeric neighbours. -/
def beginKw (prev : Option Char) (l : Str) : Bool :=
  startsW (lit "begin") l && prevNotAlnum prev && nextNotAlnum (l.drop 5)

/-- The `end` keyword test of `_split_statements` (source lines 1412-1413):
whole-word match with non-alphanumeric neighbours (this is what excludes
`endclass`, `endfunction`, ...). -/
def endKw (prev : Option Char) (l : Str) : Bool :=
  startsW (lit "end") l && prevNotAlnum prev && nextNotAlnum (l.drop 3)

/-- `if current.strip(): statements.append(current.strip())`. -/
def maybeStmt (cur : Str) : List Str :=
  if (strip cur).isEmpty then [] else [strip cur]

/-- The scanning loop of `_split_statements` (source lines 1400-1466).
`prev` is `body[i-1]` (or `none` at the start); `bd`, `pd`, `gd` are the
brace, parenthesis and begin/end depths.  The loop advances by at least one
character per iteration, so the fuel `body.length` supplied by
`splitStatements` is never exhausted; the fuel-out arm mirrors the normal
loop exit. -/
def splitGo : Nat → Str → Option Char → Int → Int → Int → Str → List Str → List Str
  | 0, _, _, _, _, _, cur, acc => acc ++ maybeStmt cur
  | fuel + 1, l, prev, bd, pd, gd, cur, acc =>
    match l with
    | [] => acc ++ maybeStmt cur
    | c :: rest =>
      if beginKw prev l then
        splitGo fuel (l.drop 5) (some 'n') bd pd (gd + 1) (cur ++ lit "begin") acc
      else if endKw prev l then
        let gd1 := gd - 1
        let cur1 := cur ++ lit "end"
        if gd1 = 0 ∧ bd = 0 ∧ pd = 0 then
          if startsW (lit "else") (lstrip (l.drop 3)) then
            splitGo fuel (l.drop 3) (some 'd') bd pd gd1 cur1 acc
          else
            splitGo fuel (l.drop 3) (some 'd') bd pd gd1 [] (acc ++ maybeStmt cur1)
        else
          splitGo fuel (l.drop 3) (some 'd') bd pd gd1 cur1 acc
      else if c = '{' then
        splitGo fuel rest (some c) (bd + 1) pd gd (cur ++ [c]) acc
      else if c = '}' then
        let bd1 := bd - 1
        let cur1 := cur ++ [c]
        if bd1 = 0 ∧ pd = 0 ∧ gd = 0 then
          let rem0 := lstrip rest
          let rem1 := if startsW (lit ";") rem0 then lstrip (rem0.drop 1) else rem0
          if startsW (lit "else") rem1 then
            splitGo fuel rest (some c) bd1 pd gd cur1 acc
          else
            splitGo fuel rest (some c) bd1 pd gd [] (acc ++ maybeStmt cur1)
        else
          splitGo fuel rest (some c) bd1 pd gd cur1 acc
      else if c = '(' then
        splitGo fuel rest (some c) bd (pd + 1) gd (cur ++ [c]) acc
      else if c = ')' then
        splitGo fuel rest (some c) bd (pd - 1) gd (cur ++ [c]) acc
      else if c = ';' ∧ bd = 0 ∧ pd = 0 ∧ gd = 0 then
        if startsW (lit "else") (lstrip rest) then
          splitGo fuel rest (some c) bd pd gd (cur ++ [c]) acc
        else
          splitGo fuel rest (some c) bd pd gd [] (acc ++ maybeStmt (cur ++ [c]))
      else
        splitGo fuel rest (some c) bd pd gd (cur ++ [c]) acc

/-- `PyVSCGenerator._split_statements` (source lines 1390-1472). -/
def splitStatements (body : Str) : List Str :=
  splitGo body.length body none 0 0 0 [] []

/-! ## Claim C5: begin/end depth bookkeeping in isolation -/

/-- The begin/end depth bookkeeping of `_split_statements` (source lines
1404-1414) in isolation: the net change the scanner applies to
`begin_depth` over the given text.  Uses the same keyword guards
(`beginKw`, `endKw`) and the same scan granularity as `splitGo`. -/
def beginEndDeltaGo : Nat → Option Char → Str → Int
  | 0, _, _ => 0
  | fuel + 1, prev, l =>
    match l with
    | [] => 0
    | c :: rest =>
        if beginKw prev l then 1 + beginEndDeltaGo fuel (some 'n') (l.drop 5)
        else if endKw prev l then (-1) + beginEndDeltaGo fuel (some 'd') (l.drop 3)
        else beginEndDeltaGo fuel (some c) rest

/-- Net `begin_depth` change over `l`, scanned with preceding character
`prev`. -/
def beginEndDelta (prev : Option Char) (l : Str) : Int :=
  beginEndDeltaGo l.length prev l

/-- `true` iff no position of `l` (scanned with preceding character `prev`)
passes the whole-word `begin`/`end` guards of the splitter. -/
def noKwTriggerGo : Nat → Option Char → Str → Bool
  | 0, _, _ => true
  | fuel + 1, prev, l =>
    match l with
    | [] => true
    | c :: rest =>
        !beginKw prev l && !endKw prev l && noKwTriggerGo fuel (some c) rest

/-- No whole-word `begin`/`end` occurrence anywhere in `l`. -/
def noKwTrigger (prev : Option Char) (l : Str) : Bool :=
  noKwTriggerGo l.length prev l

lemma beginEndDeltaGo_zero (fuel : Nat) : ∀ (prev : Option Char) (l : Str),
    noKwTriggerGo fuel prev l = true → beginEndDeltaGo fuel prev l = 0 := by
  induction fuel with
  | zero => intro prev l _; rfl
  | succ n ih =>
      intro prev l h
      cases l with
      | nil => rfl
      | cons c rest =>
          simp only [noKwTriggerGo, Bool.and_eq_true, Bool.not_eq_true'] at h
          obtain ⟨⟨hb, he⟩, ht⟩ := h
          simp only [beginEndDeltaGo]
          rw [if_neg (by simp [hb]), if_neg (by simp [he])]
          exact ih (some c) rest ht

/-! ## Claim C4: the reference splitters (spec-side definitions) -/

/-- The three boundary kinds of the claim: a depth-zero semicolon, a
depth-zero closing brace, and an `end` closing the outermost begin/end. -/
inductive BKind where
  | semi
  | brace
  | endkw

/-- The lookahead exactly as the claim words it, applied uniformly to all
three boundary kinds: skip whitespace, skip one permitted semicolon (and
whitespace after it), and test whether the following text begins with
`else`. -/
def claimLA : BKind → Str → Bool := fun _ rest =>
  let r0 := lstrip rest
  let r1 := if startsW (lit ";") r0 then lstrip (r0.drop 1) else r0
  startsW (lit "else") r1

/-- The lookaheads the code actually performs: only the closing-brace
boundary skips the permitted semicolon; the semicolon and `end` boundaries
skip whitespace only. -/
def codeLA : BKind → Str → Bool
  | BKind.semi, rest => startsW (lit "else") (lstrip rest)
  | BKind.endkw, rest => startsW (lit "else") (lstrip rest)
  | BKind.brace, rest =>
      let r0 := lstrip rest
      let r1 := if startsW (lit ";") r0 then lstrip (r0.drop 1) else r0
      startsW (lit "else") r1

/-- `splitGo` with the boundary lookahead abstracted out (the reference
scanner the claim describes; everything except the lookahead is as in
`splitGo`). -/
def refSplitGo (la : BKind → Str → Bool) :
    Nat → Str → Option Char → Int → Int → Int → Str → List Str → List Str
  | 0, _, _, _, _, _, cur, acc => acc ++ maybeStmt cur
  | fuel + 1, l, prev, bd, pd, gd, cur, acc =>
    match l with
    | [] => acc ++ maybeStmt cur
    | c :: rest =>
      if beginKw prev l then
        refSplitGo la fuel (l.drop 5) (some 'n') bd pd (gd + 1) (cur ++ lit "begin") acc
      else if endKw prev l then
        let gd1 := gd - 1
        let cur1 := cur ++ lit "end"
        if gd1 = 0 ∧ bd = 0 ∧ pd = 0 then
          if la BKind.endkw (l.drop 3) then
            refSplitGo la fuel (l.drop 3) (some 'd') bd pd gd1 cur1 acc
          else
            refSplitGo la fuel (l.drop 3) (some 'd') bd pd gd1 [] (acc ++ maybeStmt cur1)
        else
          refSplitGo la fuel (l.drop 3) (some 'd') bd pd gd1 cur1 acc
      else if c = '{' then
        refSplitGo la fuel rest (some c) (bd + 1) pd gd (cur ++ [c]) acc
      else if c = '}' then
        let bd1 := bd - 1
        let cur1 := cur ++ [c]
        if bd1 = 0 ∧ pd = 0 ∧ gd = 0 then
          if la BKind.brace rest then
            refSplitGo la fuel rest (some c) bd1 pd gd cur1 acc
          else
            refSplitGo la fuel rest (some c) bd1 pd gd [] (acc ++ maybeStmt cur1)
        else
          refSplitGo la fuel rest (some c) bd1 pd gd cur1 acc
      else if c = '(' then
        refSplitGo la fuel rest (some c) bd (pd + 1) gd (cur ++ [c]) acc
      else if c = ')' then
        refSplitGo la fuel rest (some c) bd (pd - 1) gd (cur ++ [c]) acc
      else if c = ';' ∧ bd = 0 ∧ pd = 0 ∧ gd = 0 then
        if la BKind.semi rest then
          refSplitGo la fuel rest (some c) bd pd gd (cur ++ [c]) acc
        else
          refSplitGo la fuel rest (some c) bd pd gd [] (acc ++ maybeStmt (cur ++ [c]))
      else
        refSplitGo la fuel rest (some c) bd pd gd (cur ++ [c]) acc

/-- The reference splitter with lookahead `la`. -/
def refSplit (la : BKind → Str → Bool) (body : Str) : List Str :=
  refSplitGo la body.length body none 0 0 0 [] []

lemma refSplitGo_code (fuel : Nat) :
    ∀ (l : Str) (prev : Option Char) (bd pd gd : Int) (cur : Str)
      (acc : List Str),
      refSplitGo codeLA fuel l prev bd pd gd cur acc =
        splitGo fuel l prev bd pd gd cur acc := by
  induction fuel with
  | zero => intros; rfl
  | succ n ih =>
      intro l prev bd pd gd cur acc
      cases l with
      | nil => rfl
      | cons c rest =>
          simp only [refSplitGo, splitGo, codeLA]
          split_ifs <;> apply ih

/-- C4, counterexample.  The claim states that *every* depth-zero boundary
(semicolon, closing brace, `end`) is deferred when a lookahead that skips
whitespace *and one permitted semicolon* shows `else` next.  The code only
performs the semicolon-skipping lookahead at the closing-brace boundary; at
a semicolon boundary it skips whitespace only.  On
`a > 1; ; else b == 1;` the claimed lookahead sees `else` after the first
semicolon (skipping the stray `;`), so the claim demands one statement, but
the splitter ends the statement at the first semicolon and produces two. -/
theorem c4_counterexample :
    splitStatements (lit "a > 1; ; else b == 1;") =
        [lit "a > 1;", lit "; else b == 1;"] ∧
    refSplit claimLA (lit "a > 1; ; else b == 1;") =
        [lit "a > 1; ; else b == 1;"] ∧
    splitStatements (lit "a > 1; ; else b == 1;") ≠
        refSplit claimLA (lit "a > 1; ; else b == 1;") :=
  ⟨by decide, by decide, by decide⟩

/-- C4, amended.  A depth-zero boundary is deferred when its lookahead
shows text beginning with `else`; the closing-brace boundary's lookahead
skips whitespace and one permitted semicolon, while the semicolon and
`end` boundaries skip whitespace only.  With those per-boundary lookaheads
(`codeLA`) the reference scanner coincides with `_split_statements` on
every input. -/
theorem c4_deferred_else_lookahead (body : Str) :
    splitStatements body = refSplit codeLA body :=
  (refSplitGo_code body.length body none 0 0 0 [] []).symm

/-- C5, counterexample.  The claim states that an identifier merely
containing `begin`/`end` as a substring never changes the begin/end depth.
But the code's word-boundary test is `isalnum` on the neighbouring
characters, and an underscore is not alphanumeric: the identifier
`end_val` (with a space before it) passes the `end` guard and decrements
the depth by one; consequently `end_val == 1; x == 2;` is not split at its
depth-zero semicolons and comes back as a single statement. -/
theorem c5_counterexample :
    IsWordTok (lit "end_val") ∧
    lit "end_val" ≠ lit "begin" ∧ lit "end_val" ≠ lit "end" ∧
    containsSub (lit "end_val") (lit "end") = true ∧
    beginEndDelta none (' ' :: (lit "end_val" ++ [' '])) = -1 ∧
    splitStatements (lit "end_val == 1; x == 2;") =
      [lit "end_val == 1; x == 2;"] :=
  ⟨by decide, by decide, by decide, by decide, by decide, by decide⟩

/-- C5, amended.  `begin`/`end` change the depth only at occurrences whose
neighbouring characters are non-alphanumeric (per the code's `isalnum`
test, under which an underscore counts as a word boundary): whenever the
whole-word guard fires nowhere in the text, the begin/end depth of the
splitter is unchanged.  In particular language terminators such as
`endclass`/`endfunction` and identifiers such as `beginning` are excluded
because the character straight after the keyword is alphanumeric. -/
theorem c5_whole_word_depth (prev : Option Char) (l : Str)
    (h : noKwTrigger prev l = true) : beginEndDelta prev l = 0 :=
  beginEndDeltaGo_zero l.length prev l h

/-- Witness for C5 (amended) on text containing `endclass`, `endfunction`
and `beginning`. -/
theorem c5_whole_word_depth_witness :
    noKwTrigger none (lit " endclass x endfunction beginning ") = true ∧
    beginEndDelta none (lit " endclass x endfunction beginning ") = 0 :=
  ⟨by decide, c5_whole_word_depth none _ (by decide)⟩

/-! ## Generator state
(the mutable instance fields of `PyVSCGenerator`, threaded explicitly) -/

/-- The `statistics` dictionary. -/
structure Stats where
  classes : Nat
  fields : Nat
  constraints : Nat
  enums : Nat
deriving Repr, DecidableEq

/-- The mutable instance state of `PyVSCGenerator` that the translation
functions read or write.  The `metrics` accumulator (which only feeds the
verbose report) is not modelled. -/
structure GenState where
  enumValueMap : List (Str × Str)
  enumClassNames : List Str
  currentLoopVars : List Str
  warnings : List Str
  warningsSet : List Str
  reviewItems : List Str
  reviewSet : List Str
  mappingNotes : List Str
  stats : Stats
  verbose : Bool
deriving Repr, DecidableEq

/-- `PyVSCGenerator._reset_state` (source lines 788-797); `verbose` is the
constructor flag. -/
def resetState (verbose : Bool) : GenState :=
  { enumValueMap := [], enumClassNames := [], currentLoopVars := [],
    warnings := [], warningsSet := [], reviewItems := [], reviewSet := [],
    mappingNotes := [],
    stats := { classes := 0, fields := 0, constraints := 0, enums := 0 },
    verbose := verbose }

/-- `PyVSCGenerator._add_warning` (source lines 903-907). -/
def addWarning (st : GenState) (w : Str) : GenState :=
  if w ∈ st.warningsSet then st
  else { st with warningsSet := st.warningsSet ++ [w],
                 warnings := st.warnings ++ [w] }

/-- `PyVSCGenerator._add_review_item` (source lines 909-913). -/
def addReviewItem (st : GenState) (w : Str) : GenState :=
  if w ∈ st.reviewSet then st
  else { st with reviewSet := st.reviewSet ++ [w],
                 reviewItems := st.reviewItems ++ [w] }

/-- First-match association-list lookup (Python `dict[key]` with the
unique-key discipline the generator maintains). -/
def lookupA (m : List (Str × Str)) (k : Str) : Option Str :=
  match m with
  | [] => none
  | (a, b) :: rest => if a = k then some b else lookupA rest k

/-- `PYTHON_KEYWORDS` (source lines 124-132). -/
def pythonKeywords : List Str :=
  [lit "if", lit "else", lit "for", lit "while", lit "in", lit "not",
   lit "and", lit "or", lit "True", lit "False", lit "None", lit "pass",
   lit "break", lit "continue", lit "return",
   lit "inside", lit "dist", lit "solve", lit "before", lit "soft",
   lit "unique", lit "foreach", lit "vsc", lit "self", lit "with", lit "as",
   lit "begin", lit "end"]

/-! ## Expression rewriting (`PyVSCGenerator._translate_expression` and
its helpers) -/

/-- Hex-literal body character: `[0-9a-fA-F_]`. -/
def isHexU (c : Char) : Bool :=
  c.isDigit || ('a' ≤ c && c ≤ 'f') || ('A' ≤ c && c ≤ 'F') || c = '_'

/-- Base designator character of an SV literal: `[hHbBdDoO]`. -/
def isBaseChar (c : Char) : Bool :=
  c = 'h' || c = 'H' || c = 'b' || c = 'B' || c = 'd' || c = 'D' ||
  c = 'o' || c = 'O'

/-- `prefix_map` of `_convert_numbers`, applied to the lowercased base
character. -/
def basePyLit (c : Char) : Str :=
  if c = 'h' || c = 'H' then lit "0x"
  else if c = 'b' || c = 'B' then lit "0b"
  else if c = 'o' || c = 'O' then lit "0o"
  else []

/-- One attempt of the `(\d+)'([hHbBdDoO])([0-9a-fA-F_]+)` pattern at the
current position; on success returns the replacement text and the
remainder. -/
def matchSvNum (l : Str) : Option (Str × Str) :=
  let d := l.takeWhile isDigitChar
  if d.isEmpty then none
  else
    match l.dropWhile isDigitChar with
    | q :: rest2 =>
        if q = sq then
          match rest2 with
          | b :: rest3 =>
              if isBaseChar b then
                let v := rest3.takeWhile isHexU
                if v.isEmpty then none
                else some (basePyLit b ++ v.filter (· ≠ '_'),
                  rest3.dropWhile isHexU)
              else none
          | [] => none
        else none
    | [] => none

def convertNumbersGo : Nat → Str → Str
  | 0, l => l
  | _ + 1, [] => []
  | fuel + 1, c :: rest =>
      match matchSvNum (c :: rest) with
      | some (repl, rem) => repl ++ convertNumbersGo fuel rem
      | none => c :: convertNumbersGo fuel rest

/-- `PyVSCGenerator._convert_numbers` (source lines 2226-2239). -/
def convertNumbers (expr : Str) : Str := convertNumbersGo expr.length expr

/-- Python `str.replace` (all occurrences, left to right). -/
def strReplaceGo : Nat → Str → Str → Str → Str
  | 0, l, _, _ => l
  | _ + 1, [], _, _ => []
  | fuel + 1, c :: rest, pat, out =>
      if startsW pat (c :: rest) then
        out ++ strReplaceGo fuel ((c :: rest).drop pat.length) pat out
      else c :: strReplaceGo fuel rest pat out

def strReplace (l pat out : Str) : Str := strReplaceGo l.length l pat out

/-- `re.sub(r"!\s*\(", "~(")`. -/
def subBangParenGo : Nat → Str → Str
  | 0, l => l
  | _ + 1, [] => []
  | fuel + 1, c :: rest =>
      if c = '!' then
        let r := rest.dropWhile isSpaceChar
        match r with
        | '(' :: r2 => '~' :: '(' :: subBangParenGo fuel r2
        | _ => c :: subBangParenGo fuel rest
      else c :: subBangParenGo fuel rest

/-- `re.sub(r"!(?!=)(\w)", "~\1")` : negation of a single character that
is not the start of `!=`. -/
def subBangWordGo : Nat → Str → Str
  | 0, l => l
  | _ + 1, [] => []
  | fuel + 1, c :: rest =>
      if c = '!' then
        match rest with
        | d :: r2 =>
            if d = '=' then c :: subBangWordGo fuel rest
            else if isWordChar d then '~' :: d :: subBangWordGo fuel r2
            else c :: subBangWordGo fuel rest
        | [] => [c]
      else c :: subBangWordGo fuel rest

/-- `PyVSCGenerator._convert_logical_operators` (source lines 2114-2136). -/
def convertLogicalOperators (expr : Str) : Str :=
  let e1 := strReplace expr (lit "&&") (lit "&")
  let e2 := strReplace e1 (lit "||") (lit "|")
  let e3 := subBangParenGo e2.length e2
  subBangWordGo e3.length e3

/-- The comma-splitting scan of `_parse_inside_items` (source lines
2256-2273): split on commas at bracket depth zero, keeping the bracket
characters. -/
def parseInsideItemsGo : Str → Int → Str → List Str → List Str
  | [], _, cur, acc =>
      acc ++ (if (strip cur).isEmpty then [] else [strip cur])
  | c :: rest, depth, cur, acc =>
      if c = '[' then parseInsideItemsGo rest (depth + 1) (cur ++ [c]) acc
      else if c = ']' then parseInsideItemsGo rest (depth - 1) (cur ++ [c]) acc
      else if c = ',' ∧ depth = 0 then
        parseInsideItemsGo rest depth [] (acc ++ [strip cur])
      else parseInsideItemsGo rest depth (cur ++ [c]) acc

def parseInsideItems (body : Str) : List Str := parseInsideItemsGo body 0 [] []

/-- `re.match(r"\[(.+?):(.+?)\]", item)` : lazy groups, so the first `:`
and the first following `]`; `.` does not cross a newline. -/
def matchBracketRange (item : Str) : Option (Str × Str) :=
  match item with
  | '[' :: rest =>
      let a := rest.takeWhile (fun c => !(c = ':') && !(c = Char.ofNat 10))
      if a.isEmpty then none
      else
        match rest.dropWhile (fun c => !(c = ':') && !(c = Char.ofNat 10)) with
        | ':' :: r2 =>
            let b := r2.takeWhile (fun c => !(c = ']') && !(c = Char.ofNat 10))
            if b.isEmpty then none
            else
              match r2.dropWhile (fun c => !(c = ']') && !(c = Char.ofNat 10)) with
              | ']' :: _ => some (a, b)
              | _ => none
        | _ => none
  | _ => none

/-- `PyVSCGenerator._translate_inside` (source lines 2241-2253). -/
def translateInside (insideBody : Str) : Str :=
  let parts := (parseInsideItems insideBody).map (fun item0 =>
    let item := strip item0
    match matchBracketRange item with
    | some (low, high) =>
        lit "vsc.rng(" ++ convertNumbers (strip low) ++ lit ", " ++
          convertNumbers (strip high) ++ lit ")"
    | none => convertNumbers item)
  joinComma parts
where
  joinComma : List Str → Str
    | [] => []
    | [x] => x
    | x :: xs => x ++ lit ", " ++ joinComma xs

/-- One attempt of `(\w+)\s+inside\s*\{([^}]+)\}` at the current
position; returns (replacement, remainder). -/
def matchInsideExpr (l : Str) : Option (Str × Str) :=
  let w := l.takeWhile isWordChar
  if w.isEmpty then none
  else
    let r1 := l.dropWhile isWordChar
    let ws := r1.takeWhile isSpaceChar
    if ws.isEmpty then none
    else
      match expectTok (lit "inside") (r1.dropWhile isSpaceChar) with
      | none => none
      | some r2 =>
          match (r2.dropWhile isSpaceChar) with
          | '\x7b' :: r3 =>
              let content := r3.takeWhile (· ≠ '\x7d')
              if content.isEmpty then none
              else
                match r3.dropWhile (· ≠ '\x7d') with
                | '\x7d' :: r4 =>
                    some (w ++ lit " in vsc.rangelist(" ++
                      translateInside content ++ lit ")", r4)
                | _ => none
          | _ => none

def convertInsideGo : Nat → Str → Str
  | 0, l => l
  | _ + 1, [] => []
  | fuel + 1, c :: rest =>
      match matchInsideExpr (c :: rest) with
      | some (repl, rem) => repl ++ convertInsideGo fuel rem
      | none => c :: convertInsideGo fuel rest

/-- `PyVSCGenerator._convert_inside_expression` (source lines 2185-2196). -/
def convertInsideExpression (expr : Str) : Str :=
  convertInsideGo expr.length expr

/-- `PyVSCGenerator._convert_bit_slicing` (source lines 2219-2223):
bit-slice syntax is preserved as-is. -/
def convertBitSlicing (expr : Str) : Str := expr

/-- `\b` : previous character (if any) is not a word character. -/
def prevNotWord : Option Char → Bool
  | none => true
  | some c => !isWordChar c

/-- `[A-Z]`. -/
def isUpperAZ (c : Char) : Bool := 'A' ≤ c && c ≤ 'Z'

/-- `[A-Z0-9_]`. -/
def isUpperNum (c : Char) : Bool := isUpperAZ c || c.isDigit || c = '_'

/-- No following word character (`\b` after the token). -/
def nextNotWord : Str → Bool
  | [] => true
  | c :: _ => !isWordChar c

/-- The scan of `re.sub(r"\b[A-Z][A-Z0-9_]*\b", replace_enum, expr)` in
`_qualify_enum_values` (source lines 2138-2152), with the callback
inlined. -/
def qualifyGo (m : List (Str × Str)) : Nat → Option Char → Str → Str
  | 0, _, l => l
  | _ + 1, _, [] => []
  | fuel + 1, prev, c :: rest =>
      if prevNotWord prev && isUpperAZ c then
        let tok := c :: rest.takeWhile isUpperNum
        let after := rest.dropWhile isUpperNum
        if nextNotWord after then
          let repl :=
            match lookupA m tok with
            | none => tok
            | some cls => if prev = some '.' then tok else cls ++ '.' :: tok
          repl ++ qualifyGo m fuel (some (tok.getLastD c)) after
        else c :: qualifyGo m fuel (some c) rest
      else c :: qualifyGo m fuel (some c) rest

/-- `PyVSCGenerator._qualify_enum_values` (source lines 2138-2152). -/
def qualifyEnumValues (st : GenState) (expr : Str) : Str :=
  if st.enumValueMap.isEmpty then expr
  else qualifyGo st.enumValueMap expr.length none expr

/-- `re.sub(r"self\.(vsc)\b", r"\1", result)`. -/
def subSelfVscGo : Nat → Str → Str
  | 0, l => l
  | _ + 1, [] => []
  | fuel + 1, c :: rest =>
      if startsW (lit "self.vsc") (c :: rest) &&
          nextNotWord ((c :: rest).drop 8) then
        lit "vsc" ++ subSelfVscGo fuel ((c :: rest).drop 8)
      else c :: subSelfVscGo fuel rest

/-- The scan of `re.sub(r"\b([a-zA-Z_][a-zA-Z0-9_]*)\b", replace_var,
expr)` in `_add_self_prefix` (source lines 2198-2217), with the callback
inlined; the trailing `\b` is automatic because the token is a maximal
word-character run. -/
def selfScopeGo (keys : List Str) (encls : List Str) :
    Nat → Option Char → Str → Str
  | 0, _, l => l
  | _ + 1, _, [] => []
  | fuel + 1, prev, c :: rest =>
      if prevNotWord prev && (c.isAlpha || c = '_') then
        let tok := c :: rest.takeWhile isWordChar
        let after := rest.dropWhile isWordChar
        let repl :=
          if tok ∈ keys then tok
          else if prev = some '.' then tok
          else if tok ∈ encls then
            (match after with
             | '.' :: _ => tok
             | _ => lit "self." ++ tok)
          else lit "self." ++ tok
        repl ++ selfScopeGo keys encls fuel (some (tok.getLastD c)) after
      else c :: selfScopeGo keys encls fuel (some c) rest

/-- `PyVSCGenerator._add_self_prefix` (source lines 2198-2217): scope every
bare identifier with `self.`, then collapse `self.self.` and strip the
`self.` wrongly added to `vsc`. -/
def addSelfScope (st : GenState) (expr : Str) : Str :=
  let r := selfScopeGo pythonKeywords st.enumClassNames expr.length none expr
  let r := strReplace r (lit "self.self.") (lit "self.")
  subSelfVscGo r.length r

/-- `PyVSCGenerator._convert_bare_conditions` (source lines 2154-2183). -/
def convertBareConditions (expr : Str) : Str :=
  if containsSub expr (lit "==") || containsSub expr (lit "!=") ||
     containsSub expr (lit "<") || containsSub expr (lit ">") ||
     containsSub expr (lit "<=") || containsSub expr (lit ">=") then expr
  else if containsSub expr (lit "vsc.") &&
      !containsSub expr (lit " in vsc.rangelist") then expr
  else if containsSub expr (lit " in vsc.rangelist") then expr
  else
    let s := strip expr
    match s with
    | '~' :: r0 =>
        (match expectTok (lit "self.") (r0.dropWhile isSpaceChar) with
         | some r1 =>
             let w := r1.takeWhile isWordChar
             if !w.isEmpty && (r1.dropWhile isWordChar).isEmpty then
               lit "(self." ++ w ++ lit " == 0)"
             else expr
         | none => expr)
    | _ =>
        (match expectTok (lit "self.") s with
         | some r1 =>
             let w := r1.takeWhile isWordChar
             if !w.isEmpty && (r1.dropWhile isWordChar).isEmpty then
               lit "(self." ++ w ++ lit " != 0)"
             else expr
         | none => expr)

/-- `PyVSCGenerator._translate_expression` (source lines 2100-2112). -/
def translateExpression (st : GenState) (expr : Str) : Str :=
  if expr.isEmpty then []
  else
    let e := convertNumbers expr
    let e := convertLogicalOperators e
    let e := convertInsideExpression e
    let e := convertBitSlicing e
    let e := qualifyEnumValues st e
    let e := addSelfScope st e
    convertBareConditions e

/-! ## Pure statement matchers
(`PyVSCGenerator._try_*`, the stateless ones) -/

/-- Four-space indent (`PyVSCGenerator.INDENT`). -/
def INDENT : Str := lit "    "

/-- Split a string at every occurrence of a character (Python
`str.split(ch)`). -/
def splitChar (ch : Char) (l : Str) : List Str :=
  go l [] []
where
  go : Str → Str → List Str → List Str
    | [], cur, acc => acc ++ [cur]
    | c :: rest, cur, acc =>
        if c = ch then go rest [] (acc ++ [cur])
        else go rest (cur ++ [c]) acc

/-- `PyVSCGenerator._try_solve_order` (source lines 1509-1514):
`re.match(r"solve\s+(\w+)\s+before\s+(\w+)", stmt)`. -/
def trySolveOrder (stmt : Str) : Option (List Str) := do
  let r ← expectTok (lit "solve") stmt
  let ws1 := r.takeWhile isSpaceChar
  if ws1.isEmpty then none
  else
    let (w1, r) ← matchWord (r.dropWhile isSpaceChar)
    let ws2 := r.takeWhile isSpaceChar
    if ws2.isEmpty then none
    else do
      let r ← expectTok (lit "before") (r.dropWhile isSpaceChar)
      let ws3 := r.takeWhile isSpaceChar
      if ws3.isEmpty then none
      else do
        let (w2, _) ← matchWord (r.dropWhile isSpaceChar)
        pure [lit "vsc.solve_order(self." ++ w1 ++ lit ", self." ++ w2 ++ lit ")"]

/-- `PyVSCGenerator._try_soft` (source lines 1516-1522):
`re.match(r"soft\s+(.+)", stmt)` (the group stops at a newline). -/
def trySoft (st : GenState) (stmt : Str) : Option (List Str) := do
  let r ← expectTok (lit "soft") stmt
  let ws1 := r.takeWhile isSpaceChar
  if ws1.isEmpty then none
  else
    let g := (r.dropWhile isSpaceChar).takeWhile (· ≠ Char.ofNat 10)
    if g.isEmpty then none
    else some [lit "vsc.soft(" ++ translateExpression st g ++ lit ")"]

/-- Comma-join of a list of pieces. -/
def joinWith (sep : Str) : List Str → Str
  | [] => []
  | [x] => x
  | x :: xs => x ++ sep ++ joinWith sep xs

/-- `PyVSCGenerator._try_unique` (source lines 1524-1533):
`re.match(r"unique\s*\{([^}]+)\}", stmt)`. -/
def tryUnique (stmt : Str) : Option (List Str) := do
  let r ← expectTok (lit "unique") stmt
  match r.dropWhile isSpaceChar with
  | '\x7b' :: r2 =>
      let content := r2.takeWhile (· ≠ '\x7d')
      if content.isEmpty then none
      else
        match r2.dropWhile (· ≠ '\x7d') with
        | '\x7d' :: _ =>
            let items := strip content
            if items.contains ',' then
              let vars := joinWith (lit ", ")
                ((splitChar ',' items).map (fun v => lit "self." ++ strip v))
              some [lit "vsc.unique(" ++ vars ++ lit ")"]
            else some [lit "vsc.unique(self." ++ strip items ++ lit ")"]
        | _ => none
  | _ => none

/-- Split at the last `}` of `l` (the greedy `(.+)\}` of a DOTALL
pattern): returns the text before the last `}` (nonempty) and the text
after it. -/
def lastBraceSplit (l : Str) : Option (Str × Str) :=
  let revIdx := l.reverse.takeWhile (· ≠ '\x7d')
  if revIdx.length = l.length then none
  else
    let idx := l.length - 1 - revIdx.length
    if idx = 0 then none
    else some (l.take idx, l.drop (idx + 1))

/-- `\s*(?::=|:/)\s*(\d+)` tail of a weighted-distribution item. -/
def weightTail (sep : Str) (l : Str) : Option Str :=
  match expectTok sep (l.dropWhile isSpaceChar) with
  | none => none
  | some r2 =>
      let d := (r2.dropWhile isSpaceChar).takeWhile isDigitChar
      if d.isEmpty then none else some d

/-- The lazy `(.+?)` left of a distribution weight separator: the shortest
nonempty newline-free value text whose remainder parses as
`\s*SEP\s*(\d+)`. -/
def lazyWeight (sep : Str) : Nat → Str → Str → Option (Str × Str)
  | 0, _, _ => none
  | fuel + 1, acc, l =>
      match l with
      | [] => none
      | c :: rest =>
          if c = Char.ofNat 10 then none
          else
            let acc2 := acc ++ [c]
            match weightTail sep rest with
            | some w => some (acc2, w)
            | none => lazyWeight sep fuel acc2 rest

/-- `PyVSCGenerator._translate_distribution` (source lines 2275-2306). -/
def translateDistribution (varName : Str) (distBody : Str) : List Str :=
  let weights := (splitChar ',' distBody).filterMap (fun item0 =>
    let item := strip item0
    if item.isEmpty then none
    else
      match lazyWeight (lit ":=") item.length [] item with
      | some (valPart, weight) => some (mkWeight valPart weight false)
      | none =>
          match lazyWeight (lit ":/") item.length [] item with
          | some (valPart, weight) => some (mkWeight valPart weight true)
          | none => none)
  [lit "vsc.dist(self." ++ varName ++ lit ", ["] ++
    weights.map (fun w => INDENT ++ w ++ lit ",") ++ [lit "])"]
where
  mkWeight (valPart weight : Str) (rangeMode : Bool) : Str :=
    match matchBracketRange (strip valPart) with
    | some (low, high) =>
        lit "vsc.weight(vsc.rng(" ++ convertNumbers (strip low) ++ lit ", " ++
          convertNumbers (strip high) ++ lit "), " ++ weight ++
          (if rangeMode then lit ", " ++ [sq] ++ lit "range" ++ [sq] else []) ++
          lit ")"
    | none =>
        lit "vsc.weight(" ++ convertNumbers (strip valPart) ++ lit ", " ++
          weight ++ lit ")"

/-- `PyVSCGenerator._try_distribution` (source lines 1576-1582):
`re.match(r"(\w+)\s+dist\s*\{(.+)\}", stmt, re.DOTALL)`. -/
def tryDistribution (stmt : Str) : Option (List Str) := do
  let (w, r) ← matchWord stmt
  let ws1 := r.takeWhile isSpaceChar
  if ws1.isEmpty then none
  else do
    let r ← expectTok (lit "dist") (r.dropWhile isSpaceChar)
    match r.dropWhile isSpaceChar with
    | '\x7b' :: r2 =>
        let (content, _) ← lastBraceSplit r2
        pure (translateDistribution w content)
    | _ => none

/-- `inside\s*\{([^}]+)\}` tail shared by the inside matchers; returns
the brace content and the remainder after `}`. -/
def insideTail (r : Str) : Option (Str × Str) := do
  let r ← expectTok (lit "inside") r
  match r.dropWhile isSpaceChar with
  | '\x7b' :: r2 =>
      let content := r2.takeWhile (· ≠ '\x7d')
      if content.isEmpty then none
      else
        match r2.dropWhile (· ≠ '\x7d') with
        | '\x7d' :: r3 => some (content, r3)
        | _ => none
  | _ => none

/-- `(\w+)\[(\d+):(\d+)\]` head of the bit-sliced inside patterns. -/
def bitSliceHead (stmt : Str) : Option (Str × Str × Str × Str) := do
  let (w, r) ← matchWord stmt
  match r with
  | '[' :: r2 =>
      let d1 := r2.takeWhile isDigitChar
      if d1.isEmpty then none
      else
        match r2.dropWhile isDigitChar with
        | ':' :: r3 =>
            let d2 := r3.takeWhile isDigitChar
            if d2.isEmpty then none
            else
              match r3.dropWhile isDigitChar with
              | ']' :: r4 => some (w, d1, d2, r4)
              | _ => none
        | _ => none
  | _ => none

/-- `PyVSCGenerator._try_inside` (source lines 1584-1601). -/
def tryInside (stmt : Str) : Option (List Str) :=
  match bitSliceInside stmt with
  | some r => some r
  | none => stdInside stmt
where
  /-- `re.match(r"(\w+)\[(\d+):(\d+)\]\s+inside\s*\{([^}]+)\}", stmt)`. -/
  bitSliceInside (stmt : Str) : Option (List Str) := do
    let (w, d1, d2, r) ← bitSliceHead stmt
    let ws1 := r.takeWhile isSpaceChar
    if ws1.isEmpty then none
    else do
      let (content, _) ← insideTail (r.dropWhile isSpaceChar)
      pure [lit "self." ++ w ++ lit "[" ++ d1 ++ lit ":" ++ d2 ++
        lit "] in vsc.rangelist(" ++ translateInside content ++ lit ")"]
  /-- `re.match(r"(\w+(?:\.\w+\(\))?)\s+inside\s*\{([^}]+)\}", stmt)`;
  the matched variable expression then has `.size()` rewritten to `.size`. -/
  stdInside (stmt : Str) : Option (List Str) := do
    let (w, r) ← matchWord stmt
    let (varExpr, r) :=
      match r with
      | '.' :: r2 =>
          (match matchWord r2 with
           | some (w2, r3) =>
               (match r3 with
                | '(' :: ')' :: r4 => (w ++ '.' :: w2 ++ lit "()", r4)
                | _ => (w, r))
           | none => (w, r))
      | _ => (w, r)
    let ws1 := r.takeWhile isSpaceChar
    if ws1.isEmpty then none
    else do
      let (content, _) ← insideTail (r.dropWhile isSpaceChar)
      let varExpr := strReplace varExpr (lit ".size()") (lit ".size")
      pure [lit "self." ++ varExpr ++ lit " in vsc.rangelist(" ++
        translateInside content ++ lit ")"]

/-- `PyVSCGenerator._try_negated_inside` (source lines 1603-1610):
`re.match(r"!\s*\(?\s*(\w+)\s+inside\s*\{([^}]+)\}\s*\)?", stmt)`. -/
def tryNegatedInside (stmt : Str) : Option (List Str) :=
  match stmt with
  | '!' :: r =>
      let r := r.dropWhile isSpaceChar
      let r := match r with
               | '(' :: r2 => r2.dropWhile isSpaceChar
               | _ => r
      (do
        let (w, r) ← matchWord r
        let ws1 := r.takeWhile isSpaceChar
        if ws1.isEmpty then none
        else do
          let (content, _) ← insideTail (r.dropWhile isSpaceChar)
          pure [lit "vsc.not_inside(self." ++ w ++ lit ", vsc.rangelist(" ++
            translateInside content ++ lit ")"++ lit ")"])
  | _ => none

/-- `\s*->\s*` between a lazy antecedent and its consequent; returns the
remainder after the arrow and its surrounding whitespace. -/
def arrowTail (l : Str) : Option Str :=
  match expectTok (lit "->") (l.dropWhile isSpaceChar) with
  | none => none
  | some r => some (r.dropWhile isSpaceChar)

/-- The lazy `(.+?)\s*->\s*` scan: the shortest nonempty newline-free
antecedent whose remainder starts with an arrow and whose post-arrow text
satisfies `tailP`. -/
def lazyArrow (tailP : Str → Option α) : Nat → Str → Str → Option (Str × α)
  | 0, _, _ => none
  | fuel + 1, acc, l =>
      match l with
      | [] => none
      | c :: rest =>
          if c = Char.ofNat 10 then none
          else
            let acc2 := acc ++ [c]
            match arrowTail rest with
            | some r2 =>
                match tailP r2 with
                | some a => some (acc2, a)
                | none => lazyArrow tailP fuel acc2 rest
            | none => lazyArrow tailP fuel acc2 rest

/-- Consequent `\(?\s*(\w+)\[(\d+):(\d+)\]\s+inside\s*\{([^}]+)\}` of
the bit-sliced implication-with-inside. -/
def implInsideSliceTail (r : Str) : Option (Str × Str × Str × Str) := do
  let r := match r with
           | '(' :: r2 => r2.dropWhile isSpaceChar
           | _ => r
  let (w, d1, d2, r) ← bitSliceHead r
  let ws1 := r.takeWhile isSpaceChar
  if ws1.isEmpty then none
  else do
    let (content, _) ← insideTail (r.dropWhile isSpaceChar)
    pure (w, d1, d2, content)

/-- Consequent `\(?\s*(\w+)\s+inside\s*\{([^}]+)\}` of the standard
implication-with-inside. -/
def implInsideStdTail (r : Str) : Option (Str × Str) := do
  let r := match r with
           | '(' :: r2 => r2.dropWhile isSpaceChar
           | _ => r
  let (w, r) ← matchWord r
  let ws1 := r.takeWhile isSpaceChar
  if ws1.isEmpty then none
  else do
    let (content, _) ← insideTail (r.dropWhile isSpaceChar)
    pure (w, content)

/-- `PyVSCGenerator._try_impl_inside` (source lines 1612-1636). -/
def tryImplInside (st : GenState) (stmt : Str) : Option (List Str) :=
  match lazyArrow implInsideSliceTail stmt.length [] stmt with
  | some (ant, (w, d1, d2, content)) =>
      some [lit "with vsc.implies(" ++ translateExpression st (strip ant) ++
              lit "):",
            INDENT ++ lit "self." ++ w ++ lit "[" ++ d1 ++ lit ":" ++ d2 ++
              lit "] in vsc.rangelist(" ++ translateInside content ++ lit ")"]
  | none =>
      match lazyArrow implInsideStdTail stmt.length [] stmt with
      | some (ant, (w, content)) =>
          some [lit "with vsc.implies(" ++ translateExpression st (strip ant) ++
                  lit "):",
                INDENT ++ lit "self." ++ w ++ lit " in vsc.rangelist(" ++
                  translateInside content ++ lit ")"]
      | none => none

/-- `PyVSCGenerator._try_implication` (source lines 1638-1648):
`re.match(r"(.+?)\s*->\s*(.+)", stmt)`. -/
def tryImplication (st : GenState) (stmt : Str) : Option (List Str) :=
  let consTail : Str → Option Str := fun r =>
    let g := r.takeWhile (· ≠ Char.ofNat 10)
    if g.isEmpty then none else some g
  match lazyArrow consTail stmt.length [] stmt with
  | some (ant, cons) =>
      some [lit "with vsc.implies(" ++ translateExpression st (strip ant) ++
              lit "):",
            INDENT ++ translateExpression st (strip cons)]
  | none => none

/-- The ordered alternation `(==|!=|<|>|<=|>=)` of `_try_array_size`;
`<=` and `>=` are unreachable because `<` and `>` are tried first. -/
def sizeOpAlt (r : Str) : Option (Str × Str) :=
  match expectTok (lit "==") r with
  | some r2 => some (lit "==", r2)
  | none =>
    match expectTok (lit "!=") r with
    | some r2 => some (lit "!=", r2)
    | none =>
      match expectTok (lit "<") r with
      | some r2 => some (lit "<", r2)
      | none =>
        match expectTok (lit ">") r with
        | some r2 => some (lit ">", r2)
        | none => none

/-- `PyVSCGenerator._try_array_size` (source lines 2014-2021):
`re.match` of `(\w+)\.size\(\)` then the ordered operator alternation
then `\s*(.+)`. -/
def tryArraySize (st : GenState) (stmt : Str) : Option (List Str) := do
  let (w, r) ← matchWord stmt
  let r ← expectTok (lit ".size()") r
  let (op, r) ← sizeOpAlt (r.dropWhile isSpaceChar)
  let g := (r.dropWhile isSpaceChar).takeWhile (· ≠ Char.ofNat 10)
  if g.isEmpty then none
  else
    pure [lit "self." ++ w ++ lit ".size " ++ op ++ lit " " ++
      translateExpression st (strip g)]

/-- `PyVSCGenerator._try_simple_expression` (source lines 2095-2098); this
never returns `None` (an empty list is still a match). -/
def trySimpleExpression (st : GenState) (stmt : Str) : List Str :=
  let expr := translateExpression st stmt
  if !expr.isEmpty && !(strip expr).isEmpty then [expr] else []

/-! ## The conditional-chain parser
(`PyVSCGenerator._parse_if_block` and friends) -/

/-- The Python exceptions that can arise in the translation call tree:
`ValueError` from `str.index`, and `RecursionError` (modelled as fuel
exhaustion). -/
inductive PyExc where
  | valueIdx
  | recursion
deriving Repr, DecidableEq

/-- `str(e)` for the modelled exceptions. -/
def pyExcMsg : PyExc → Str
  | PyExc.valueIdx => lit "substring not found"
  | PyExc.recursion => lit "maximum recursion depth exceeded"

/-- Python slice `s[a:b]`. -/
def slice (s : Str) (a b : Nat) : Str := (s.drop a).take (b - a)

def findSubGo : Str → Str → Nat → Option Nat
  | [], sub, pos => if sub.isEmpty then some pos else none
  | c :: rest, sub, pos =>
      if startsW sub (c :: rest) then some pos
      else findSubGo rest sub (pos + 1)

/-- Python `str.find(sub, start)` (≠ -1 becomes `some`). -/
def strFindIdx (s sub : Str) (start : Nat) : Option Nat :=
  (findSubGo (s.drop start) sub 0).map (start + ·)

/-- Python `str.index(sub, start)`; raises `ValueError` when absent. -/
def pyIndex (s sub : Str) (start : Nat) : Except PyExc Nat :=
  match strFindIdx s sub start with
  | some i => Except.ok i
  | none => Except.error PyExc.valueIdx

/-- `re.match(r"if\s*\(", s)` : returns the offset of the `(`. -/
def parseIfHead (s : Str) : Option Nat :=
  match expectTok (lit "if") s with
  | none => none
  | some r =>
      let w := r.takeWhile isSpaceChar
      match r.dropWhile isSpaceChar with
      | '(' :: _ => some (2 + w.length)
      | _ => none

/-- `re.match(r"\s*if\s*\(", s)` (leading whitespace allowed). -/
def parseIfHeadLead (s : Str) : Option Nat :=
  let w := s.takeWhile isSpaceChar
  (parseIfHead (s.dropWhile isSpaceChar)).map (w.length + ·)

/-- `PyVSCGenerator._find_matching_paren` (source lines 2023-2037). -/
def findParenGo : Str → Nat → Int → Option Nat
  | [], _, _ => none
  | c :: rest, pos, depth =>
      let d := if c = '(' then depth + 1 else if c = ')' then depth - 1 else depth
      if d = 0 then some pos else findParenGo rest (pos + 1) d

def findMatchingParen (text : Str) (start : Nat) : Option Nat :=
  match text.drop start with
  | '(' :: rest => findParenGo rest (start + 1) 1
  | _ => none

/-- `PyVSCGenerator._find_matching_brace` (source lines 2039-2053). -/
def findBraceGo : Str → Nat → Int → Option Nat
  | [], _, _ => none
  | c :: rest, pos, depth =>
      let d := if c = '\x7b' then depth + 1
               else if c = '\x7d' then depth - 1 else depth
      if d = 0 then some pos else findBraceGo rest (pos + 1) d

def findMatchingBrace (text : Str) (start : Nat) : Option Nat :=
  match text.drop start with
  | '\x7b' :: rest => findBraceGo rest (start + 1) 1
  | _ => none

/-- The scan of `PyVSCGenerator._find_matching_begin_end` (source lines
1717-1733): character-by-character with the whole-word keyword guards;
returns the position of the last character of the matching `end`. -/
def findBEGo : Str → Option Char → Nat → Int → Option Nat
  | [], _, _, _ => none
  | c :: rest, prev, pos, depth =>
      if beginKw prev (c :: rest) then
        findBEGo rest (some c) (pos + 1) (depth + 1)
      else if endKw prev (c :: rest) then
        let d := depth - 1
        if d = 0 then some (pos + 2)
        else findBEGo rest (some c) (pos + 1) d
      else findBEGo rest (some c) (pos + 1) depth

def findMatchingBeginEnd (text : Str) (start : Nat) : Option Nat :=
  findBEGo (text.drop (start + 5)) ((text.drop (start + 4)).head?)
    (start + 5) 1

/-- `re.match(r"else\s+if\s*\(", s)` (space between `else` and `if`
required). -/
def elseIfHeadReq (s : Str) : Bool :=
  match expectTok (lit "else") s with
  | none => false
  | some r =>
      if (r.takeWhile isSpaceChar).isEmpty then false
      else
        match expectTok (lit "if") (r.dropWhile isSpaceChar) with
        | none => false
        | some r2 =>
            match r2.dropWhile isSpaceChar with
            | '(' :: _ => true
            | _ => false

/-- `re.match(r"else\s*if\s*\(", s)` (space optional). -/
def elseIfHeadOpt (s : Str) : Bool :=
  match expectTok (lit "else") s with
  | none => false
  | some r =>
      match expectTok (lit "if") (r.dropWhile isSpaceChar) with
      | none => false
      | some r2 =>
          match r2.dropWhile isSpaceChar with
          | '(' :: _ => true
          | _ => false

/-- `re.match(r"else\s*(?!\s*if)", s)` of `_parse_else_block`: the
lookahead skips whitespace itself, so the match exists iff the text after
`else` and all whitespace does not begin with `if`; the reported end is
after the whitespace run. -/
def parseElseHead (s : Str) : Option Nat :=
  match expectTok (lit "else") s with
  | none => none
  | some r =>
      if startsW (lit "if") (r.dropWhile isSpaceChar) then none
      else some (4 + (r.takeWhile isSpaceChar).length)

/-- The backtracking `\s*` of `re.match(r"else\s*(?!if)", s)` in
`_find_conditional_end`: the largest k ≤ W such that the text after k
whitespace characters does not begin with `if`. -/
def elseKGo (r : Str) : Nat → Option Nat
  | 0 => if startsW (lit "if") r then none else some 0
  | k + 1 =>
      if startsW (lit "if") (r.drop (k + 1)) then elseKGo r k
      else some (k + 1)

/-- `re.match(r"else\s*(?!if)", s)` : `match.end()` when it matches. -/
def elseMatchEnd (s : Str) : Option Nat :=
  match expectTok (lit "else") s with
  | none => none
  | some r => (elseKGo r (r.takeWhile isSpaceChar).length).map (4 + ·)

mutual

/-- `PyVSCGenerator._find_conditional_end` (source lines 1863-1945),
one `while` iteration per unit of fuel. -/
def findCondEndGo : Nat → Str → Nat → Except PyExc Nat
  | 0, _, _ => Except.error PyExc.recursion
  | fuel + 1, stmt, pos0 =>
      let pos := pos0 + ((stmt.drop pos0).takeWhile isSpaceChar).length
      if pos ≥ stmt.length then Except.ok pos0
      else
        match parseIfHead (stmt.drop pos) with
        | some off =>
            (match findMatchingParen stmt (pos + off) with
             | none => Except.ok stmt.length
             | some condEnd => do
                 let p1 := condEnd + 1
                 let p2 := p1 + ((stmt.drop p1).takeWhile isSpaceChar).length
                 if p2 < stmt.length ∧ (stmt.drop p2).head? = some '\x7b' then
                   match findMatchingBrace stmt p2 with
                   | none => Except.ok stmt.length
                   | some bodyEnd => findCondEndGo fuel stmt (bodyEnd + 1)
                 else do
                   let innerEnd ← findStatementEnd fuel (stmt.drop p2)
                   findCondEndGo fuel stmt (p2 + innerEnd))
        | none =>
            if elseIfHeadReq (stmt.drop pos) then
              (match strFindIdx stmt (lit "(") pos with
               | none => Except.ok stmt.length
               | some condStart =>
                 match findMatchingParen stmt condStart with
                 | none => Except.ok stmt.length
                 | some condEnd => do
                     let p1 := condEnd + 1
                     let p2 := p1 + ((stmt.drop p1).takeWhile isSpaceChar).length
                     if p2 < stmt.length ∧ (stmt.drop p2).head? = some '\x7b' then
                       match findMatchingBrace stmt p2 with
                       | none => Except.ok stmt.length
                       | some bodyEnd => findCondEndGo fuel stmt (bodyEnd + 1)
                     else do
                       let innerEnd ← findStatementEnd fuel (stmt.drop p2)
                       findCondEndGo fuel stmt (p2 + innerEnd))
            else
              match elseMatchEnd (stmt.drop pos) with
              | some mEnd => do
                  let p1 := pos + mEnd
                  let p2 := p1 + ((stmt.drop p1).takeWhile isSpaceChar).length
                  if p2 < stmt.length ∧ (stmt.drop p2).head? = some '\x7b' then
                    match findMatchingBrace stmt p2 with
                    | none => Except.ok stmt.length
                    | some bodyEnd => Except.ok (bodyEnd + 1)
                  else do
                    let innerEnd ← findStatementEnd fuel (stmt.drop p2)
                    Except.ok (p2 + innerEnd)
              | none => Except.ok pos

/-- `PyVSCGenerator._find_statement_end` (source lines 1947-1953). -/
def findStatementEnd : Nat → Str → Except PyExc Nat
  | 0, _ => Except.error PyExc.recursion
  | fuel + 1, stmt =>
      if (parseIfHeadLead stmt).isSome then findCondEndGo fuel stmt 0
      else
        match strFindIdx stmt (lit ";") 0 with
        | some semiPos => Except.ok (semiPos + 1)
        | none => Except.ok stmt.length

end

/-- `PyVSCGenerator._find_conditional_end` entry point. -/
def findConditionalEnd (fuel : Nat) (stmt : Str) : Except PyExc Nat :=
  findCondEndGo fuel stmt 0

/-- `PyVSCGenerator._extract_inline_statement` (source lines 1843-1861). -/
def extractInlineStatement (fuel : Nat) (stmt0 : Str) :
    Except PyExc (Str × Str) := do
  let stmt := strip stmt0
  if (parseIfHead stmt).isSome then do
    let endPos ← findConditionalEnd fuel stmt
    pure (strip (stmt.take endPos), strip (stmt.drop endPos))
  else
    match strFindIdx stmt (lit ";") 0 with
    | some semiPos =>
        pure (strip (stmt.take semiPos), strip (stmt.drop (semiPos + 1)))
    | none => pure (stmt, [])

/-- `PyVSCGenerator._parse_if_block` (source lines 1735-1772). -/
def parseIfBlock (fuel : Nat) (stmt0 : Str) :
    Except PyExc (Option (Str × Str × Str)) := do
  let stmt := strip stmt0
  match parseIfHead stmt with
  | none => pure none
  | some condStart =>
    match findMatchingParen stmt condStart with
    | none => pure none
    | some condEnd =>
      let condition := strip (slice stmt (condStart + 1) condEnd)
      let afterCond := strip (stmt.drop (condEnd + 1))
      if startsW (lit "\x7b") afterCond then
        let bracePos0 := condEnd + 1 +
          ((stmt.drop (condEnd + 1)).length - afterCond.length)
        match findMatchingBrace stmt bracePos0 with
        | none => pure none
        | some bodyEnd => do
            let bracePos ← pyIndex stmt (lit "\x7b") condEnd
            pure (some (condition, strip (slice stmt (bracePos + 1) bodyEnd),
              strip (stmt.drop (bodyEnd + 1))))
      else if startsW (lit "begin") afterCond then do
        let beginPos ← pyIndex stmt (lit "begin") condEnd
        match findMatchingBeginEnd stmt beginPos with
        | none => pure none
        | some endPos =>
            pure (some (condition, strip (slice stmt (beginPos + 5) (endPos - 2)),
              strip (stmt.drop (endPos + 1))))
      else do
        let (body, remainder) ← extractInlineStatement fuel afterCond
        pure (some (condition, body, remainder))

/-- `PyVSCGenerator._parse_else_if_block` (source lines 1774-1812). -/
def parseElseIfBlock (fuel : Nat) (stmt0 : Str) :
    Except PyExc (Option (Str × Str × Str)) := do
  let stmt := strip stmt0
  if !elseIfHeadReq stmt && !elseIfHeadOpt stmt then pure none
  else do
    let condStart ← pyIndex stmt (lit "(") 0
    match findMatchingParen stmt condStart with
    | none => pure none
    | some condEnd =>
      let condition := strip (slice stmt (condStart + 1) condEnd)
      let afterCond := strip (stmt.drop (condEnd + 1))
      if startsW (lit "\x7b") afterCond then do
        let bracePos ← pyIndex stmt (lit "\x7b") condEnd
        match findMatchingBrace stmt bracePos with
        | none => pure none
        | some bodyEnd =>
            pure (some (condition, strip (slice stmt (bracePos + 1) bodyEnd),
              strip (stmt.drop (bodyEnd + 1))))
      else if startsW (lit "begin") afterCond then do
        let beginPos ← pyIndex stmt (lit "begin") condEnd
        match findMatchingBeginEnd stmt beginPos with
        | none => pure none
        | some endPos =>
            pure (some (condition, strip (slice stmt (beginPos + 5) (endPos - 2)),
              strip (stmt.drop (endPos + 1))))
      else do
        let (body, remainder) ← extractInlineStatement fuel afterCond
        pure (some (condition, body, remainder))

/-- `PyVSCGenerator._parse_else_block` (source lines 1814-1841). -/
def parseElseBlock (fuel : Nat) (stmt0 : Str) :
    Except PyExc (Option (Str × Str)) := do
  let stmt := strip stmt0
  match parseElseHead stmt with
  | none => pure none
  | some mEnd =>
    let afterElse := strip (stmt.drop mEnd)
    if startsW (lit "\x7b") afterElse then do
      let bracePos ← pyIndex stmt (lit "\x7b") 0
      match findMatchingBrace stmt bracePos with
      | none => pure none
      | some bodyEnd =>
          pure (some (strip (slice stmt (bracePos + 1) bodyEnd),
            strip (stmt.drop (bodyEnd + 1))))
    else if startsW (lit "begin") afterElse then do
      let beginPos ← pyIndex stmt (lit "begin") 0
      match findMatchingBeginEnd stmt beginPos with
      | none => pure none
      | some endPos =>
          pure (some (strip (slice stmt (beginPos + 5) (endPos - 2)),
            strip (stmt.drop (endPos + 1))))
    else do
      let (body, remainder) ← extractInlineStatement fuel afterElse
      pure (some (body, remainder))

/-! ## Statement translation
(`PyVSCGenerator._translate_statement`, `_try_foreach`, `_try_conditional`,
`_parse_full_conditional`, `_parse_block_body`): one mutual block, with an
explicit fuel parameter standing in for the Python call stack.  Fuel is
decremented on every recursive step, so exhaustion (`RecursionError`)
simply needs a large enough initial budget; errors carry the generator
state at the raise point, because Python instance-state mutations survive
an exception. -/

/-- The statement-translation monad: generator state plus Python
exceptions; on a raise the state at the raise point is kept, exactly as
Python instance attributes survive an exception. -/
abbrev TM (α : Type) := EStateM PyExc GenState α

/-- Run a stateless `Except` computation inside `TM`. -/
def liftEx : Except PyExc α → TM α
  | Except.ok a => pure a
  | Except.error e => throw e

/-- Cleanup applied by `_translate_statement` to a matcher result
(source line 1505). -/
def cleanLines (ls : List Str) : List Str :=
  (ls.filter (fun l => !(strip l).isEmpty && strip l ≠ lit ";")).map
    (fun l => rstrip (rstripSemi l))

/-- `"    " * n`. -/
def indentOf : Nat → Str
  | 0 => []
  | n + 1 => lit "    " ++ indentOf n

/-- The commented-verbatim fallback of `_try_conditional` (source lines
1664-1668). -/
def condFallback (stmt : Str) : List Str :=
  [lit "# TODO: Complex conditional - manual translation needed"] ++
    (splitChar (Char.ofNat 10) stmt).filterMap (fun line =>
      if (strip line).isEmpty then none else some (lit "# " ++ strip line)) ++
    [lit "pass"]

/-- Python `set.add` on the modelled set. -/
def setAdd (s : List Str) (x : Str) : List Str :=
  if x ∈ s then s else s ++ [x]

/-- Python `set.discard` on the modelled set. -/
def setDiscard (s : List Str) (x : Str) : List Str := s.filter (· ≠ x)

/-- `re.sub(rf"\bself\.{idx}\b", idx, line)` of `_try_foreach` (source
line 1563). -/
def subSelfIdxGo (idx : Str) : Nat → Option Char → Str → Str
  | 0, _, l => l
  | _ + 1, _, [] => []
  | fuel + 1, prev, c :: rest =>
      if prevNotWord prev && startsW (lit "self." ++ idx) (c :: rest) &&
          nextNotWord ((c :: rest).drop (5 + idx.length)) then
        idx ++ subSelfIdxGo idx fuel (some (idx.getLastD c))
          ((c :: rest).drop (5 + idx.length))
      else c :: subSelfIdxGo idx fuel (some c) rest

def subSelfIdx (idx line : Str) : Str := subSelfIdxGo idx line.length none line

/-- Head pattern of `_try_foreach`:
`re.match(r"foreach\s*\((\w+)\s*\[(\w+)\]\)\s*\{(.+)\}", stmt,
re.DOTALL)` — the greedy body runs to the last `}`. -/
def foreachHead (stmt : Str) : Option (Str × Str × Str) := do
  let r ← expectTok (lit "foreach") stmt
  match r.dropWhile isSpaceChar with
  | '(' :: r2 => do
      let (arr, r3) ← matchWord r2
      match r3.dropWhile isSpaceChar with
      | '[' :: r4 => do
          let (idx, r5) ← matchWord r4
          match r5 with
          | ']' :: ')' :: r6 =>
              (match r6.dropWhile isSpaceChar with
               | '\x7b' :: r7 => do
                   let (content, _) ← lastBraceSplit r7
                   pure (arr, idx, content)
               | _ => none)
          | _ => none
      | _ => none
  | _ => none

/-- `rf"(\w+)\[{idx_name}\]\s+inside\s*\{{([^}}]+)\}}"` inside the
foreach body (source line 1554). -/
def arrInsideMatch (idx inner : Str) : Option (Str × Str) := do
  let (w, r) ← matchWord inner
  match r with
  | '[' :: r2 => do
      let r3 ← expectTok idx r2
      match r3 with
      | ']' :: r4 =>
          let ws1 := r4.takeWhile isSpaceChar
          if ws1.isEmpty then none
          else do
            let (content, _) ← insideTail (r4.dropWhile isSpaceChar)
            pure (w, content)
      | _ => none
  | _ => none

mutual

/-- `PyVSCGenerator._translate_statement` (source lines 1474-1507): the
prioritized matcher chain. -/
def translateStatement : Nat → Str → TM (List Str)
  | 0, _ => throw PyExc.recursion
  | fuel + 1, stmt0 => do
      if stmt0.isEmpty then pure [] else
      let stmt := strip (rstripSemi stmt0)
      if stmt.isEmpty then pure [] else
      let st ← get
      match trySolveOrder stmt with
      | some r => pure (cleanLines r)
      | none =>
      match trySoft st stmt with
      | some r => pure (cleanLines r)
      | none =>
      match tryUnique stmt with
      | some r => pure (cleanLines r)
      | none => do
      let fr ← tryForeach fuel stmt
      match fr with
      | some r => pure (cleanLines r)
      | none =>
      match tryDistribution stmt with
      | some r => pure (cleanLines r)
      | none =>
      match tryInside stmt with
      | some r => pure (cleanLines r)
      | none =>
      match tryNegatedInside stmt with
      | some r => pure (cleanLines r)
      | none =>
      match tryImplInside st stmt with
      | some r => pure (cleanLines r)
      | none =>
      match tryImplication st stmt with
      | some r => pure (cleanLines r)
      | none => do
      let cr ← tryConditional fuel stmt
      match cr with
      | some r => pure (cleanLines r)
      | none => do
      let st2 ← get
      match tryArraySize st2 stmt with
      | some r => pure (cleanLines r)
      | none =>
      match tryRangeConstraint stmt with
      | some r => pure (cleanLines r)
      | none => pure (cleanLines (trySimpleExpression st2 stmt))
termination_by structural fuel stmt => fuel

/-- `PyVSCGenerator._try_foreach` (source lines 1535-1574). -/
def tryForeach : Nat → Str → TM (Option (List Str))
  | 0, _ => throw PyExc.recursion
  | fuel + 1, stmt =>
      match foreachHead stmt with
      | none => pure none
      | some (arr, idx, content) => do
          let lines0 := [lit "with vsc.foreach(self." ++ arr ++
            lit ", idx=True) as " ++ idx ++ lit ":"]
          modify (fun st => { st with
            currentLoopVars := setAdd st.currentLoopVars idx })
          let (innerLines, hasContent) ←
            forEachInner fuel (splitStatements content) idx
          let lines := lines0 ++ innerLines ++
            (if hasContent then [] else [INDENT ++ lit "pass"])
          modify (fun st => { st with
            currentLoopVars := setDiscard st.currentLoopVars idx })
          pure (some lines)
termination_by structural fuel stmt => fuel

/-- The `for inner in inner_stmts` loop of `_try_foreach` (source lines
1549-1565). -/
def forEachInner : Nat → List Str → Str → TM (List Str × Bool)
  | 0, _, _ => throw PyExc.recursion
  | _ + 1, [], _ => pure ([], false)
  | fuel + 1, inner0 :: rest, idx =>
      let inner := strip (rstripSemi (strip inner0))
      if inner.isEmpty then forEachInner fuel rest idx
      else
        match arrInsideMatch idx inner with
        | some (arr2, insideBody) => do
            let line := INDENT ++ lit "self." ++ arr2 ++ lit "[" ++ idx ++
              lit "] in vsc.rangelist(" ++ translateInside insideBody ++ lit ")"
            let (ls, _) ← forEachInner fuel rest idx
            pure (line :: ls, true)
        | none => do
            let tls ← translateStatement fuel inner
            let fixed := tls.map (fun line => INDENT ++ subSelfIdx idx line)
            let hasC := !tls.isEmpty
            let (ls, hc) ← forEachInner fuel rest idx
            pure (fixed ++ ls, hasC || hc)
termination_by structural fuel stmts idx => fuel

/-- `PyVSCGenerator._try_conditional` (source lines 1650-1669): the
`try/except Exception` makes every failure inside the conditional parse
degrade to the commented fallback; at fuel zero the recursive call itself
is the exception. -/
def tryConditional : Nat → Str → TM (Option (List Str))
  | 0, stmt =>
      (match parseIfHeadLead stmt with
       | none => pure none
       | some _ => do
           modify (fun st => addReviewItem st
             (lit "Conditional constraint detected - verify if/else_if/else_then structure"))
           modify (fun st => addReviewItem st
             (lit "Conditional parsing error: " ++
               (pyExcMsg PyExc.recursion).take 50))
           pure (some (condFallback stmt)))
  | fuel + 1, stmt =>
      match parseIfHeadLead stmt with
      | none => pure none
      | some _ => do
          modify (fun st => addReviewItem st
            (lit "Conditional constraint detected - verify if/else_if/else_then structure"))
          tryCatch
            (do
              let lines ← parseFullConditional fuel stmt 0
              pure (some lines))
            (fun e => do
              modify (fun st => addReviewItem st
                (lit "Conditional parsing error: " ++ (pyExcMsg e).take 50))
              pure (some (condFallback stmt)))
termination_by structural fuel stmt => fuel

/-- `PyVSCGenerator._parse_full_conditional` (source lines 1671-1715),
first part: the `if` block. -/
def parseFullConditional : Nat → Str → Nat → TM (List Str)
  | 0, _, _ => throw PyExc.recursion
  | fuel + 1, stmt, baseIndent => do
      let remaining := strip stmt
      let ifRes ← liftEx (parseIfBlock fuel remaining)
      match ifRes with
      | none => pure []
      | some (cond, body, rem) => do
          let indent := indentOf baseIndent
          let st ← get
          let condExpr := translateExpression st cond
          let lines := [indent ++ lit "with vsc.if_then(" ++ condExpr ++ lit "):"]
          let bodyLines ← parseBlockBody fuel body (baseIndent + 1)
          let lines := lines ++
            (if bodyLines.isEmpty then [indent ++ lit "    pass"] else bodyLines)
          parseCondLoop fuel (strip rem) baseIndent lines
termination_by structural fuel stmt bi => fuel

/-- The `while remaining` loop of `_parse_full_conditional` (source lines
1691-1713). -/
def parseCondLoop : Nat → Str → Nat → List Str → TM (List Str)
  | 0, _, _, _ => throw PyExc.recursion
  | fuel + 1, remaining, baseIndent, lines =>
      if remaining.isEmpty then pure lines
      else do
        let indent := indentOf baseIndent
        let elifRes ← liftEx (parseElseIfBlock fuel remaining)
        match elifRes with
        | some (cond, body, rem) => do
            let st ← get
            let condExpr := translateExpression st cond
            let lines := lines ++
              [indent ++ lit "with vsc.else_if(" ++ condExpr ++ lit "):"]
            let bodyLines ← parseBlockBody fuel body (baseIndent + 1)
            let lines := lines ++
              (if bodyLines.isEmpty then [indent ++ lit "    pass"] else bodyLines)
            parseCondLoop fuel (strip rem) baseIndent lines
        | none => do
            let elseRes ← liftEx (parseElseBlock fuel remaining)
            match elseRes with
            | some (body, rem) => do
                let lines := lines ++ [indent ++ lit "with vsc.else_then:"]
                let bodyLines ← parseBlockBody fuel body (baseIndent + 1)
                let lines := lines ++
                  (if bodyLines.isEmpty then [indent ++ lit "    pass"]
                   else bodyLines)
                parseCondLoop fuel (strip rem) baseIndent lines
            | none => pure lines
termination_by structural fuel rem bi lines => fuel

/-- `PyVSCGenerator._parse_block_body` (source lines 1955-2012). -/
def parseBlockBody : Nat → Str → Nat → TM (List Str)
  | 0, _, _ => throw PyExc.recursion
  | fuel + 1, body0, indentLevel => do
      let body := strip body0
      if body.isEmpty then pure []
      else if (parseIfHead body).isSome then do
        let condEnd ← liftEx (findConditionalEnd fuel body)
        let condPart := strip (body.take condEnd)
        let remainingPart := strip (body.drop condEnd)
        let nested ← parseFullConditional fuel condPart indentLevel
        if remainingPart.isEmpty then pure nested
        else do
          let more ←
            blockStmtsFold fuel (splitStatements remainingPart) indentLevel
          pure (nested ++ more)
      else
        blockStmtsFold fuel (splitStatements body) indentLevel
termination_by structural fuel body il => fuel

/-- The per-statement loops of `_parse_block_body` (source lines 1977-1989
and 1994-2010, which have identical bodies). -/
def blockStmtsFold : Nat → List Str → Nat → TM (List Str)
  | 0, _, _ => throw PyExc.recursion
  | _ + 1, [], _ => pure []
  | fuel + 1, stmt0 :: rest, indentLevel =>
      let s := strip (rstripSemi (strip stmt0))
      if s.isEmpty then blockStmtsFold fuel rest indentLevel
      else if (parseIfHead s).isSome then do
        let nested ← parseFullConditional fuel s indentLevel
        let more ← blockStmtsFold fuel rest indentLevel
        pure (nested ++ more)
      else do
        let tls ← translateStatement fuel s
        let indent := indentOf indentLevel
        let cleaned := tls.filterMap (fun line =>
          let c := strip (rstripSemi line)
          if c.isEmpty then none else some (indent ++ c))
        let more ← blockStmtsFold fuel rest indentLevel
        pure (cleaned ++ more)
termination_by structural fuel stmts il => fuel

end

/-! ## Constraint-body translation
(`PyVSCGenerator._translate_constraint_body`) and per-constraint
generation -/

/-- Newline character. -/
def nl : Char := Char.ofNat 10

/-- Is this emitted line a solve-order hint (`"vsc.solve_order(" in line`)? -/
def isSolveLine (l : Str) : Bool := containsSub l (lit "vsc.solve_order(")

/-- The statement loop of `_translate_constraint_body` (source lines
1378-1385): translate each statement and partition the emitted lines into
solve-order lines and other lines. -/
def tcbFold (fuel : Nat) : List Str → List Str → List Str →
    TM (List Str × List Str)
  | [], sAcc, oAcc => pure (sAcc, oAcc)
  | stmt :: rest, sAcc, oAcc =>
      if (strip stmt).isEmpty then tcbFold fuel rest sAcc oAcc
      else do
        let tls ← translateStatement fuel (strip stmt)
        tcbFold fuel rest (sAcc ++ tls.filter (fun l => isSolveLine l))
          (oAcc ++ tls.filter (fun l => !isSolveLine l))

/-- `PyVSCGenerator._translate_constraint_body` (source lines 1373-1388):
solve-order lines come first. -/
def translateConstraintBody (fuel : Nat) (body : Str) : TM (List Str) := do
  let (s, o) ← tcbFold fuel (splitStatements body) [] []
  pure (s ++ o)

/-! ## Data model (`SVField`, `SVConstraint`, `SVEnum`, `SVClass`,
`TranslationResult`) -/

/-- `FieldType` (source lines 28-32). -/
inductive FieldType where
  | RAND
  | RANDC
  | NON_RAND
deriving Repr, DecidableEq

/-- `ConstraintType` (source lines 35-50). -/
inductive ConstraintType where
  | EQUALITY | INEQUALITY | RELATIONAL | INSIDE | IMPLICATION
  | CONDITIONAL | DISTRIBUTION | SOLVE_ORDER | UNIQUE | FOREACH
  | SOFT | ARITHMETIC | LOGICAL | UNKNOWN
deriving Repr, DecidableEq

/-- `SVField` (source lines 53-66). -/
structure SVField where
  name : Str
  width : Nat
  fieldType : FieldType
  isArray : Bool := false
  arraySize : Option Nat := none
  isDynamic : Bool := false
  isEnum : Bool := false
  enumType : Option Str := none
  originalLine : Str := []
  dataType : Str := lit "bit"
  isSigned : Bool := false
deriving Repr, DecidableEq

/-- `SVConstraint` (source lines 69-76). -/
structure SVConstraint where
  name : Str
  body : Str
  originalLines : List Str := []
  constructs : List (ConstraintType × Str) := []
  warnings : List Str := []
deriving Repr, DecidableEq

/-- `SVEnum` (source lines 79-85). -/
structure SVEnum where
  name : Str
  values : List (Str × Option Int)
  width : Nat := 32
  originalLines : List Str := []
deriving Repr, DecidableEq

/-- `SVClass` (source lines 88-98). -/
structure SVClass where
  name : Str
  parentClass : Option Str
  fields : List SVField
  constraints : List SVConstraint
  enums : List SVEnum
  originalCode : Str
  preRandomize : Option Str := none
  postRandomize : Option Str := none
deriving Repr, DecidableEq

/-- `TranslationResult` (source lines 101-108). -/
structure TranslationResult where
  pyvscCode : Str
  warnings : List Str
  manualReviewItems : List Str
  mappingNotes : List Str
  statistics : Stats
deriving Repr, DecidableEq

/-! ## Per-constraint metrics
(the behaviour-relevant parts of `_calculate_constraint_metrics` and
`_calculate_output_metrics`; the pure counters that only feed the verbose
docstring are not modelled) -/

/-- The identifier scan
`set(re.findall(r"\b([a-zA-Z_][a-zA-Z0-9_]*)\b", body))`, as a
duplicate-free list in first-occurrence order. -/
def findIdentsGo : Nat → Option Char → Str → List Str
  | 0, _, _ => []
  | _ + 1, _, [] => []
  | fuel + 1, prev, c :: rest =>
      if prevNotWord prev && (c.isAlpha || c = '_') then
        let tok := c :: rest.takeWhile isWordChar
        let after := rest.dropWhile isWordChar
        tok :: findIdentsGo fuel (some (tok.getLastD c)) after
      else findIdentsGo fuel (some c) rest

/-- Deduplicate, keeping the first occurrence. -/
def dedup : List Str → List Str
  | [] => []
  | x :: rest => x :: (dedup rest).filter (· ≠ x)

def findIdents (body : Str) : List Str :=
  dedup (findIdentsGo body.length none body)

/-- `sv_keywords` of `_calculate_constraint_metrics` (source lines
1363-1365). -/
def svKeywordsMetrics : List Str :=
  [lit "if", lit "else", lit "inside", lit "dist", lit "solve",
   lit "before", lit "foreach", lit "unique", lit "soft", lit "constraint",
   lit "rand", lit "randc", lit "bit", lit "logic", lit "int", lit "byte",
   lit "size", lit "this"]

/-- `variable_names` of `_calculate_constraint_metrics` (source lines
1362-1369). -/
def constraintVariableNames (body : Str) : List Str :=
  (findIdents body).filter (· ∉ svKeywordsMetrics)

/-- `re.findall(r"self\.([a-zA-Z_][a-zA-Z0-9_]*)", code)` as a set. -/
def findSelfVarsGo : Nat → Str → List Str
  | 0, _ => []
  | _ + 1, [] => []
  | fuel + 1, c :: rest =>
      if startsW (lit "self.") (c :: rest) then
        match (c :: rest).drop 5 with
        | d :: r2 =>
            if d.isAlpha || d = '_' then
              let tok := d :: r2.takeWhile isWordChar
              tok :: findSelfVarsGo fuel (r2.dropWhile isWordChar)
            else findSelfVarsGo fuel rest
        | [] => []
      else findSelfVarsGo fuel rest

def findSelfVars (code : Str) : List Str := dedup (findSelfVarsGo code.length code)

/-- `re.findall(r"as\s+(\w+):", code)` as a set (the loop-index names). -/
def findLoopVarsGo : Nat → Str → List Str
  | 0, _ => []
  | _ + 1, [] => []
  | fuel + 1, c :: rest =>
      match (do
        let r ← expectTok (lit "as") (c :: rest)
        let ws1 := r.takeWhile isSpaceChar
        if ws1.isEmpty then none
        else do
          let (w, r2) ← matchWord (r.dropWhile isSpaceChar)
          match r2 with
          | ':' :: r3 => some (w, r3)
          | _ => none : Option (Str × Str)) with
      | some (w, r3) => w :: findLoopVarsGo fuel r3
      | none => findLoopVarsGo fuel rest

def findLoopVars (code : Str) : List Str := dedup (findLoopVarsGo code.length code)

/-- `re.sub(r"_(\d)", r"\1", s)` : drop underscores that precede a
digit. -/
def subUnderscoreDigit : Str → Str
  | [] => []
  | '_' :: d :: rest =>
      if isDigitChar d then d :: subUnderscoreDigit rest
      else '_' :: subUnderscoreDigit (d :: rest)
  | c :: rest => c :: subUnderscoreDigit rest

/-- Python `str.isupper`: at least one cased character and every cased
character is uppercase (ASCII fragment). -/
def pyIsUpper (s : Str) : Bool :=
  s.any (fun c => c.isAlpha) && s.all (fun c => !c.isAlpha || c.isUpper)

/-- `re.match(r"^[hbdHBD][0-9a-fA-F]+$", v)`. -/
def isBaseLitToken (v : Str) : Bool :=
  match v with
  | c :: rest =>
      (c = 'h' || c = 'b' || c = 'd' || c = 'H' || c = 'B' || c = 'D') &&
      !rest.isEmpty && rest.all (fun d =>
        d.isDigit || ('a' ≤ d && d ≤ 'f') || ('A' ≤ d && d ≤ 'F'))
  | [] => false

/-- Lexicographic comparison of strings by character code (Python `<`). -/
def strLt : Str → Str → Bool
  | [], [] => false
  | [], _ :: _ => true
  | _ :: _, [] => false
  | a :: as_, b :: bs =>
      if a.val < b.val then true
      else if b.val < a.val then false
      else strLt as_ bs

def insertSorted (x : Str) : List Str → List Str
  | [] => [x]
  | y :: rest => if strLt x y then x :: y :: rest else y :: insertSorted x rest

/-- Python `sorted` on strings. -/
def sortStrs : List Str → List Str
  | [] => []
  | x :: rest => insertSorted x (sortStrs rest)

/-- The missing-variable / renamed-variable analysis of
`_calculate_output_metrics` (source lines 1262-1305): returns the
`missing_vars` set and whether `name_mismatches` is nonempty. -/
def calcMissingVars (svVars outputVars loopVars : List Str) :
    List Str × Bool :=
  go svVars [] false
where
  go : List Str → List Str → Bool → List Str × Bool
    | [], missing, mm => (missing, mm)
    | v :: rest, missing, mm =>
        if isBaseLitToken v then go rest missing mm
        else if v = lit "i" || v = lit "j" || v = lit "k" ||
            v = lit "idx" || v = lit "index" then go rest missing mm
        else if v ∈ loopVars then go rest missing mm
        else if pyIsUpper v then go rest missing mm
        else if v ∈ outputVars then go rest missing mm
        else if outputVars.any (fun ov =>
            subUnderscoreDigit v = subUnderscoreDigit ov && v ≠ ov) then
          go rest missing true
        else go rest (setAdd missing v) mm

/-- `PyVSCGenerator._generate_constraint` (source lines 1146-1240); the
verbose docstring block (lines 1163-1224), which only formats the metric
counters into a comment, is not modelled — the emitted code lines and the
recorded warnings/review items correspond to `verbose=False`, the CLI
default. -/
def generateConstraint (fuel : Nat) (c : SVConstraint) : TM (List Str) := do
  let varNames := constraintVariableNames c.body
  let bodyLines ← translateConstraintBody fuel c.body
  let bodyCode := joinWith [nl] bodyLines
  let mvnm :=
    calcMissingVars varNames (findSelfVars bodyCode) (findLoopVars bodyCode)
  let missingVars := mvnm.1
  let nameMismatch := mvnm.2
  let lines := [INDENT ++ lit "@vsc.constraint",
                INDENT ++ lit "def " ++ c.name ++ lit "(self):"]
  let _ ← (if !missingVars.isEmpty then
    modify (fun st => addWarning st
      (lit "Constraint " ++ [sq] ++ c.name ++ [sq] ++
        lit ": Variables missing in output: " ++
        joinWith (lit ", ") (sortStrs missingVars)))
    else pure ())
  let _ ← (if nameMismatch then
    modify (fun st => addWarning st
      (lit "Constraint " ++ [sq] ++ c.name ++ [sq] ++
        lit ": Variable names may have changed"))
    else pure ())
  if !bodyLines.isEmpty then
    pure (lines ++ bodyLines.map (fun l => INDENT ++ INDENT ++ l))
  else do
    modify (fun st => addReviewItem st
      (lit "Constraint " ++ [sq] ++ c.name ++ [sq] ++
        lit " requires manual translation"))
    pure (lines ++ [INDENT ++ INDENT ++ lit "pass  # TODO: Manual translation required"])

/-! ## Field, enum and class generation -/

/-- Python `str.capitalize()` (ASCII fragment): first character upper,
rest lower. -/
def pyCapitalize : Str → Str
  | [] => []
  | c :: rest => c.toUpper :: rest.map Char.toLower

/-- `PyVSCGenerator._to_python_class_name` (source lines 2361-2365):
strip a trailing `_t`/`_e`, split on underscores, capitalize each part. -/
def toPythonClassName (svName : Str) : Str :=
  let name :=
    if startsW (lit "t_") svName.reverse || startsW (lit "e_") svName.reverse
    then svName.take (svName.length - 2) else svName
  ((splitChar '_' name).map pyCapitalize).join

/-- `PyVSCGenerator._get_pyvsc_type` (source lines 1085-1120). -/
def getPyvscType (fld : SVField) : Str :=
  if fld.fieldType = FieldType.RANDC then
    lit "vsc.randc_bit_t(" ++ natDigits fld.width ++ lit ")"
  else
    let pre := if fld.fieldType = FieldType.RAND then lit "vsc.rand_" else lit "vsc."
    if (fld.dataType = lit "bit" || fld.dataType = lit "logic") && fld.isSigned then
      pre ++ lit "int_t(" ++ natDigits fld.width ++ lit ")"
    else if fld.dataType = lit "bit" || fld.dataType = lit "logic" then
      pre ++ lit "bit_t(" ++ natDigits fld.width ++ lit ")"
    else if fld.dataType = lit "byte" then
      pre ++ (if fld.isSigned then lit "int8_t()" else lit "uint8_t()")
    else if fld.dataType = lit "shortint" then
      pre ++ (if fld.isSigned then lit "int16_t()" else lit "uint16_t()")
    else if fld.dataType = lit "int" then
      pre ++ (if fld.isSigned then lit "int32_t()" else lit "uint32_t()")
    else if fld.dataType = lit "longint" then
      pre ++ (if fld.isSigned then lit "int64_t()" else lit "uint64_t()")
    else pre ++ lit "bit_t(" ++ natDigits fld.width ++ lit ")"

/-- `PyVSCGenerator._get_inner_type` (source lines 1122-1144). -/
def getInnerType (fld : SVField) : Str :=
  if (fld.dataType = lit "bit" || fld.dataType = lit "logic") && fld.isSigned then
    lit "vsc.int_t(" ++ natDigits fld.width ++ lit ")"
  else if fld.dataType = lit "bit" || fld.dataType = lit "logic" then
    lit "vsc.bit_t(" ++ natDigits fld.width ++ lit ")"
  else if fld.dataType = lit "byte" then
    if fld.isSigned then lit "vsc.int8_t()" else lit "vsc.uint8_t()"
  else if fld.dataType = lit "shortint" then
    if fld.isSigned then lit "vsc.int16_t()" else lit "vsc.uint16_t()"
  else if fld.dataType = lit "int" then
    if fld.isSigned then lit "vsc.int32_t()" else lit "vsc.uint32_t()"
  else if fld.dataType = lit "longint" then
    if fld.isSigned then lit "vsc.int64_t()" else lit "vsc.uint64_t()"
  else lit "vsc.bit_t(" ++ natDigits fld.width ++ lit ")"

/-- `PyVSCGenerator._generate_field` (source lines 1067-1083). -/
def generateField (verbose : Bool) (fld : SVField) : Str :=
  let comment :=
    if verbose && !fld.originalLine.isEmpty then
      lit "  # " ++ strip fld.originalLine
    else []
  if fld.isEnum then
    let enumClass := toPythonClassName (fld.enumType.getD (lit "UnknownEnum"))
    let pre := if fld.fieldType = FieldType.RAND then lit "vsc.rand_enum_t"
               else lit "vsc.enum_t"
    lit "self." ++ fld.name ++ lit " = " ++ pre ++ lit "(" ++ enumClass ++
      lit ")" ++ comment
  else if fld.isArray then
    let inner := getInnerType fld
    let pre := if fld.fieldType = FieldType.RAND then lit "vsc.rand_list_t"
               else lit "vsc.list_t"
    let sizeArg := match fld.arraySize with
                   | some n => lit ", sz=" ++ natDigits n
                   | none => []
    lit "self." ++ fld.name ++ lit " = " ++ pre ++ lit "(" ++ inner ++
      sizeArg ++ lit ")" ++ comment
  else
    lit "self." ++ fld.name ++ lit " = " ++ getPyvscType fld ++ comment

/-- The value-assignment loop of `_generate_enum` (source lines 948-953):
`current_val` starts at 0, an explicit value resets it, and it increments
by one after every member. -/
def enumAssignedValues (values : List (Str × Option Int)) :
    List (Str × Int) :=
  go 0 values
where
  go (currentVal : Int) : List (Str × Option Int) → List (Str × Int)
    | [] => []
    | (name, val) :: rest =>
        let v := match val with
                 | some x => x
                 | none => currentVal
        (name, v) :: go (v + 1) rest

/-- `PyVSCGenerator._generate_enum` (source lines 940-956). -/
def generateEnum (enum : SVEnum) : TM Str := do
  let className := toPythonClassName enum.name
  let header := [lit "class " ++ className ++ lit "(IntEnum):",
    INDENT ++ lit "\"\"\"Translated from SV enum: " ++ enum.name ++ lit "\"\"\""]
  let valueLines := (enumAssignedValues enum.values).map (fun p =>
    INDENT ++ p.1 ++ lit " = " ++ intLit p.2)
  modify (fun st => { st with mappingNotes := st.mappingNotes ++
    [lit "Enum " ++ [sq] ++ enum.name ++ [sq] ++ lit " -> IntEnum " ++ [sq] ++
      className ++ [sq]] })
  pure (joinWith [nl] (header ++ valueLines))

/-- `PyVSCGenerator._generate_hook` (source lines 2308-2317). -/
def generateHook (name body : Str) : TM (List Str) := do
  modify (fun st => addReviewItem st
    (name ++ lit " function requires manual translation"))
  let desc := if name = lit "pre_randomize" then lit "before"
              else lit "after successful"
  pure [INDENT ++ lit "def " ++ name ++ lit "(self):",
    INDENT ++ INDENT ++ lit "\"\"\"Called " ++ desc ++
      lit " randomization\"\"\"",
    (if body.length > 80 then
      INDENT ++ INDENT ++ lit "# Original SV: " ++ body.take 80 ++ lit "..."
     else INDENT ++ INDENT ++ lit "# Original SV: " ++ body),
    INDENT ++ INDENT ++ lit "pass  # TODO: Translate " ++ name ++ lit " logic"]

/-- `PyVSCGenerator._extract_simple_range_constraint` on an extracted
constraint record (source lines 1023-1065). -/
def extractSimpleRangeConstraint (c : SVConstraint) : Option Str :=
  extractSimpleRangeBody c.body

/-- The per-constraint loop of `_generate_class` over the non-range
constraints (source lines 1005-1010). -/
def genClassConstraints (fuel : Nat) : List SVConstraint → TM (List Str)
  | [] => pure []
  | c :: rest => do
      let cls ← generateConstraint fuel c
      modify (fun st => { st with stats := { st.stats with
        constraints := st.stats.constraints + 1 } })
      let _ ← warnFold c.warnings
      let more ← genClassConstraints fuel rest
      pure (([] : Str) :: (cls ++ more))
where
  warnFold : List Str → TM Unit
    | [] => pure ()
    | w :: ws => do
        modify (fun st => addWarning st w)
        warnFold ws

/-- `PyVSCGenerator._generate_class` (source lines 958-1021); returns the
joined class text. -/
def generateClass (fuel : Nat) (cls : SVClass) : TM Str := do
  let className := toPythonClassName cls.name
  let parent := match cls.parentClass with
                | some p => lit "(" ++ toPythonClassName p ++ lit ")"
                | none => []
  let _ ← (if cls.parentClass.isSome then
    modify (fun st => { st with mappingNotes := st.mappingNotes ++
      [lit "Class " ++ [sq] ++ cls.name ++ [sq] ++ lit " extends " ++ [sq] ++
        (cls.parentClass.getD []) ++ [sq]] })
    else pure ())
  let lines := [lit "@vsc.randobj",
    lit "class " ++ className ++ parent ++ lit ":",
    INDENT ++ lit "\"\"\"Translated from SV class: " ++ cls.name ++
      lit "\"\"\"",
    ([] : Str),
    INDENT ++ lit "def __init__(self):"]
  let lines := lines ++
    (if cls.parentClass.isSome then [INDENT ++ INDENT ++ lit "super().__init__()"]
     else [])
  let st ← get
  let lines := lines ++
    (if cls.fields.isEmpty then
      [INDENT ++ INDENT ++ lit "pass  # No fields found"]
     else cls.fields.map (fun f =>
      INDENT ++ INDENT ++ generateField st.verbose f))
  modify (fun s => { s with stats := { s.stats with
    fields := s.stats.fields + cls.fields.length } })
  let rangePairs := cls.constraints.map (fun c =>
    (c, extractSimpleRangeConstraint c))
  let rangeLines := rangePairs.filterMap (fun p => p.2)
  let others := (rangePairs.filter (fun p => p.2.isNone)).map (fun p => p.1)
  let lines := lines ++
    (if !rangeLines.isEmpty then
      [([] : Str), INDENT ++ lit "@vsc.constraint",
       INDENT ++ lit "def parameter_range(self):"] ++
      rangeLines.map (fun rl => INDENT ++ INDENT ++ rl)
     else [])
  let _ ← (if !rangeLines.isEmpty then
    modify (fun s => { s with stats := { s.stats with
      constraints := s.stats.constraints + 1 } })
    else pure ())
  let constraintLines ← genClassConstraints fuel others
  let lines := lines ++ constraintLines
  let lines ← (match cls.preRandomize with
    | some b => do
        let hl ← generateHook (lit "pre_randomize") b
        pure (lines ++ [([] : Str)] ++ hl)
    | none => pure lines)
  let lines ← (match cls.postRandomize with
    | some b => do
        let hl ← generateHook (lit "post_randomize") b
        pure (lines ++ [([] : Str)] ++ hl)
    | none => pure lines)
  pure (joinWith [nl] lines)

/-! ## Constraint extraction (`SVParser._extract_constraints`) -/

/-- Generic `re.search`: try a position matcher (which sees the previous
character for `\b`) at every position, left to right. -/
def reSearchGo (matchAt : Option Char → Str → Option Str) :
    Nat → Option Char → Str → Option Str
  | 0, _, _ => none
  | _ + 1, prev, [] => matchAt prev []
  | fuel + 1, prev, c :: rest =>
      match matchAt prev (c :: rest) with
      | some m => some m
      | none => reSearchGo matchAt fuel (some c) rest

def reSearch (matchAt : Option Char → Str → Option Str) (s : Str) :
    Option Str :=
  reSearchGo matchAt (s.length + 1) none s

/-- `solve\s+\w+\s+before\s+\w+` at one position. -/
def solveOrderAt (_ : Option Char) (l : Str) : Option Str := do
  let r ← expectTok (lit "solve") l
  let ws1 := r.takeWhile isSpaceChar
  if ws1.isEmpty then none
  else do
    let (w1, r2) ← matchWord (r.dropWhile isSpaceChar)
    let ws2 := r2.takeWhile isSpaceChar
    if ws2.isEmpty then none
    else do
      let r3 ← expectTok (lit "before") (r2.dropWhile isSpaceChar)
      let ws3 := r3.takeWhile isSpaceChar
      if ws3.isEmpty then none
      else do
        let (w2, _) ← matchWord (r3.dropWhile isSpaceChar)
        pure (lit "solve" ++ ws1 ++ w1 ++ ws2 ++ lit "before" ++ ws3 ++ w2)

/-- `soft\s+` at one position. -/
def softAt (_ : Option Char) (l : Str) : Option Str := do
  let r ← expectTok (lit "soft") l
  let ws1 := r.takeWhile isSpaceChar
  if ws1.isEmpty then none else pure (lit "soft" ++ ws1)

/-- `KEYWORD\s*OPEN` at one position, with an optional `\b` guard. -/
def kwOpenAt (kw : Str) (opener : Char) (needB : Bool)
    (prev : Option Char) (l : Str) : Option Str := do
  if needB && !prevNotWord prev then none
  else do
    let r ← expectTok kw l
    let ws1 := r.takeWhile isSpaceChar
    match r.dropWhile isSpaceChar with
    | c :: _ => if c = opener then pure (kw ++ ws1 ++ [opener]) else none
    | [] => none

/-- `[^!<>=]==[^=]` at one position. -/
def equalityAt (_ : Option Char) (l : Str) : Option Str :=
  match l with
  | a :: '=' :: '=' :: b :: _ =>
      if a = '!' || a = '<' || a = '>' || a = '=' then none
      else if b = '=' then none
      else some [a, '=', '=', b]
  | _ => none

/-- `!=` at one position. -/
def notEqAt (_ : Option Char) (l : Str) : Option Str :=
  if startsW (lit "!=") l then some (lit "!=") else none

/-- `[<>]=?` at one position (greedy optional `=`). -/
def relationalAt (_ : Option Char) (l : Str) : Option Str :=
  match l with
  | c :: rest =>
      if c = '<' || c = '>' then
        match rest with
        | '=' :: _ => some [c, '=']
        | _ => some [c]
      else none
  | [] => none

/-- `->` at one position. -/
def arrowAt (_ : Option Char) (l : Str) : Option Str :=
  if startsW (lit "->") l then some (lit "->") else none

/-- `SVParser._analyze_constraint_body` (source lines 472-480) over
`CONSTRAINT_PATTERNS` (source lines 135-147). -/
def analyzeConstraintBody (body : Str) : List (ConstraintType × Str) :=
  ([(ConstraintType.SOLVE_ORDER, reSearch solveOrderAt body),
    (ConstraintType.SOFT, reSearch softAt body),
    (ConstraintType.UNIQUE, reSearch (kwOpenAt (lit "unique") '\x7b' false) body),
    (ConstraintType.FOREACH, reSearch (kwOpenAt (lit "foreach") '(' false) body),
    (ConstraintType.DISTRIBUTION, reSearch (kwOpenAt (lit "dist") '\x7b' true) body),
    (ConstraintType.INSIDE, reSearch (kwOpenAt (lit "inside") '\x7b' true) body),
    (ConstraintType.IMPLICATION, reSearch arrowAt body),
    (ConstraintType.CONDITIONAL, reSearch (kwOpenAt (lit "if") '(' true) body),
    (ConstraintType.EQUALITY, reSearch equalityAt body),
    (ConstraintType.INEQUALITY, reSearch notEqAt body),
    (ConstraintType.RELATIONAL, reSearch relationalAt body)]).filterMap
    (fun p => match p.2 with
              | some m => some (p.1, m)
              | none => none)

/-- `\w+\[\d+:\d+\]` existence (bit slicing). -/
def bitSliceAt (_ : Option Char) (l : Str) : Option Str := do
  let (w, d1, d2, _) ← bitSliceHead l
  pure (w ++ lit "[" ++ d1 ++ lit ":" ++ d2 ++ lit "]")

/-- `<->` at one position. -/
def biImplAt (_ : Option Char) (l : Str) : Option Str :=
  if startsW (lit "<->") l then some (lit "<->") else none

/-- `\$urandom` at one position. -/
def urandomAt (_ : Option Char) (l : Str) : Option Str :=
  if startsW (lit "$urandom") l then some (lit "$urandom") else none

/-- `\$\w+` at one position. -/
def dollarAt (_ : Option Char) (l : Str) : Option Str :=
  match l with
  | '$' :: rest =>
      let w := rest.takeWhile isWordChar
      if w.isEmpty then none else some ('$' :: w)
  | _ => none

/-- `SVParser._check_constraint_warnings` (source lines 482-495). -/
def checkConstraintWarnings (body : Str) : List Str :=
  ([(reSearch bitSliceAt body,
     lit "Bit slicing detected - requires manual conversion to shifts/masks"),
    (reSearch biImplAt body,
     lit "Bidirectional implication detected - needs two vsc.implies() calls"),
    (reSearch urandomAt body,
     lit "$urandom detected - use Python random module in post_randomize"),
    (reSearch dollarAt body,
     lit "System function detected - may need manual handling")]).filterMap
    (fun p => match p.1 with
              | some _ => some p.2
              | none => none)

/-- `re.search(r"constraint\s+(\w+)\s*\{", s)` : returns
(match start, name, brace position). -/
def constraintHeadAt (l : Str) : Option (Str × Nat) := do
  let r ← expectTok (lit "constraint") l
  let ws1 := r.takeWhile isSpaceChar
  if ws1.isEmpty then none
  else do
    let (name, r2) ← matchWord (r.dropWhile isSpaceChar)
    let ws2 := r2.takeWhile isSpaceChar
    match r2.dropWhile isSpaceChar with
    | '\x7b' :: _ =>
        pure (name, 10 + ws1.length + name.length + ws2.length)
    | _ => none

def searchConstraintHead : Nat → Str → Nat → Option (Nat × Str × Nat)
  | 0, _, _ => none
  | _ + 1, [], _ => none
  | fuel + 1, c :: rest, pos =>
      match constraintHeadAt (c :: rest) with
      | some (name, braceOff) => some (pos, name, pos + braceOff)
      | none => searchConstraintHead fuel rest (pos + 1)

/-- `SVParser._extract_constraints` (source lines 432-470): scan for
`constraint NAME {`, take the brace-matched body, and keep every block in
a list (duplicate names are simply appended). -/
def extractConstraintsGo : Nat → Str → Nat → List SVConstraint →
    List SVConstraint
  | 0, _, _, acc => acc
  | fuel + 1, classBody, pos, acc =>
      match searchConstraintHead (classBody.length + 1) (classBody.drop pos) pos with
      | none => acc
      | some (startPos, name, braceStart) =>
          let bodyStart := braceStart + 1
          match findMatchingBrace classBody braceStart with
          | some closerPos =>
              let i := closerPos + 1
              let body := strip (slice classBody bodyStart (i - 1))
              extractConstraintsGo fuel classBody i (acc ++
                [{ name := name, body := body,
                   originalLines := [slice classBody startPos i],
                   constructs := analyzeConstraintBody body,
                   warnings := checkConstraintWarnings body }])
          | none => extractConstraintsGo fuel classBody (braceStart + 1) acc

def extractConstraints (classBody : Str) : List SVConstraint :=
  extractConstraintsGo (classBody.length + 1) classBody 0 []

/-! ## Enum extraction (`SVParser._parse_number`, `_parse_enum_values`,
`_extract_enums`) -/

/-- Digit value of a character for `int(s, base)` (0-9, then letters in
either case). -/
def digitVal (c : Char) : Option Nat :=
  if '0' ≤ c ∧ c ≤ '9' then some (c.toNat - 48)
  else if 'a' ≤ c ∧ c ≤ 'z' then some (c.toNat - 87)
  else if 'A' ≤ c ∧ c ≤ 'Z' then some (c.toNat - 55)
  else none

/-- Python `int(s, base)` (the fragment the translator relies on: optional
sign, digits valid for the base, underscores between digits ignored);
`none` models the `ValueError` raise. -/
def pyIntBase (base : Nat) (s0 : Str) : Option Int :=
  let s := strip s0
  let (sign, s1) : Int × Str :=
    match s with
    | '-' :: r => (-1, r)
    | '+' :: r => (1, r)
    | r => (1, r)
  let s2 := s1.filter (fun c => c ≠ '_')
  if s2.isEmpty then none
  else if s2.all (fun c => match digitVal c with
      | some d => d < base
      | none => false) then
    some (sign * (s2.foldl (fun acc c => acc * base + ((digitVal c).getD 0)) 0 : Nat))
  else none

/-- `SVParser._parse_number` (source lines 505-519): drop a leading
`N'` size prefix, then dispatch on an optional base character. -/
def parseNumber (numStr : Str) : Option Int :=
  let s := strip numStr
  let ds := s.takeWhile isDigitChar
  let s := if !ds.isEmpty ∧ (s.drop ds.length).head? = some sq
           then s.drop (ds.length + 1) else s
  match s with
  | c :: rest =>
      if c = 'h' ∨ c = 'H' then pyIntBase 16 rest
      else if c = 'b' ∨ c = 'B' then pyIntBase 2 rest
      else if c = 'o' ∨ c = 'O' then pyIntBase 8 rest
      else if c = 'd' ∨ c = 'D' then pyIntBase 10 rest
      else pyIntBase 10 s
  | [] => pyIntBase 10 s

/-- `SVParser._parse_enum_values` (source lines 194-206): split on commas,
skip empties, split each entry on the first `=`; `none` models a
`ValueError` escaping from `_parse_number`. -/
def parseEnumValues (valuesStr : Str) : Option (List (Str × Option Int)) :=
  go (splitChar ',' valuesStr)
where
  go : List Str → Option (List (Str × Option Int))
    | [] => some []
    | val :: rest =>
        let v := strip val
        if v.isEmpty then go rest
        else if containsSub v (lit "=") then do
          let name := strip (v.takeWhile (fun c => c ≠ '='))
          let numS := strip ((v.dropWhile (fun c => c ≠ '=')).drop 1)
          let n ← parseNumber numS
          let r ← go rest
          pure ((name, some n) :: r)
        else do
          let r ← go rest
          pure ((v, none) :: r)

/-- Decimal value of a digit string captured by `(\d+)`. -/
def natOfDigits (ds : Str) : Nat :=
  ds.foldl (fun acc c => acc * 10 + (c.toNat - 48)) 0

/-- One attempt of the `_extract_enums` pattern
`typedef\s+enum(?:\s+\w+\s*(?:\[(\d+):0\])?)?\s*\{([^}]+)\}\s*(\w+)\s*;`
anchored at the start of `s`: returns (width digits, raw values text,
enum name, match length).  The optional base-type group commits to a
whole word, so if its bracket part is present but malformed the whole
match fails (backtracking cannot recover, since dropping the group leaves
`\s*\{` facing a word character). -/
def matchEnumAt (s : Str) : Option (Option Str × Str × Str × Nat) := do
  let r1 ← startsW (lit "typedef") s |> fun b => if b then some (s.drop 7) else none
  let ws1 := r1.takeWhile isSpaceChar
  if ws1.isEmpty then none else
  let r2 := r1.drop ws1.length
  let r3 ← if startsW (lit "enum") r2 then some (r2.drop 4) else none
  let tryBase : Option (Option Str × Str) :=
    let wsB := r3.takeWhile isSpaceChar
    if wsB.isEmpty then none else
    let rB := r3.drop wsB.length
    match matchWord rB with
    | none => none
    | some (_, rW) =>
        let wsB2 := rW.takeWhile isSpaceChar
        let rW2 := rW.drop wsB2.length
        match rW2 with
        | '[' :: rBr =>
            let dsB := rBr.takeWhile isDigitChar
            if dsB.isEmpty then none
            else match rBr.drop dsB.length with
              | ':' :: '0' :: ']' :: rEnd => some (some dsB, rEnd)
              | _ => none
        | _ => some (none, rW2)
  let (wd, r4) := match tryBase with
                  | some p => p
                  | none => (none, r3)
  let ws2 := r4.takeWhile isSpaceChar
  let r5 := r4.drop ws2.length
  match r5 with
  | '\x7b' :: r6 =>
      let vals := r6.takeWhile (fun c => c ≠ '\x7d')
      if vals.isEmpty then none else
      match r6.drop vals.length with
      | '\x7d' :: r7 =>
          let ws3 := r7.takeWhile isSpaceChar
          let r8 := r7.drop ws3.length
          match matchWord r8 with
          | none => none
          | some (name, r9) =>
              let ws4 := r9.takeWhile isSpaceChar
              match r9.drop ws4.length with
              | ';' :: r10 => some (wd, vals, name, s.length - r10.length)
              | _ => none
      | _ => none
  | _ => none

/-- The `re.finditer` loop of `_extract_enums` (source lines 175-192):
left-to-right, non-overlapping. -/
def extractEnumsGo : Nat → Str → Option (List SVEnum)
  | 0, _ => some []
  | fuel + 1, s =>
      if s.isEmpty then some []
      else
        match matchEnumAt s with
        | some (wd, valuesStr, name, len) => do
            let values ← parseEnumValues valuesStr
            let width := match wd with
                         | some ds => natOfDigits ds + 1
                         | none => 32
            let rest ← extractEnumsGo fuel (s.drop len)
            pure (({ name := name, values := values, width := width,
                     originalLines := [s.take len] } : SVEnum) :: rest)
        | none => extractEnumsGo fuel (s.drop 1)

/-- `SVParser._extract_enums` (source lines 175-192). -/
def extractEnums (code : Str) : Option (List SVEnum) :=
  extractEnumsGo (code.length + 1) code

/-! ## Comment removal and field extraction (`SVParser._remove_comments`,
`_remove_blocks_for_field_extraction`, `_is_valid_field_name`,
`_extract_fields`) -/

/-- `re.sub(r"/\*.*?\*/", "", code, flags=re.DOTALL)`: drop each lazy
block comment; a `/*` with no later `*/` cannot match and stays. -/
def removeBlockCommentsGo : Nat → Str → Str
  | 0, s => s
  | _ + 1, [] => []
  | fuel + 1, c :: rest =>
      if c = '/' ∧ rest.head? = some '*' then
        match strFindIdx (rest.drop 1) (lit "*/") 0 with
        | some i => removeBlockCommentsGo fuel ((rest.drop 1).drop (i + 2))
        | none => c :: removeBlockCommentsGo fuel rest
      else c :: removeBlockCommentsGo fuel rest

/-- `re.sub(r"//.*$", "", code, flags=re.MULTILINE)`: in each line, drop
from the first `//` on. -/
def removeLineComments (s : Str) : Str :=
  joinWith [nl] ((splitChar nl s).map (fun line =>
    match strFindIdx line (lit "//") 0 with
    | some i => line.take i
    | none => line))

/-- `SVParser._remove_comments` (source lines 169-173): block comments
first, then line comments. -/
def removeComments (code : Str) : Str :=
  removeLineComments (removeBlockCommentsGo code.length code)

/-- Count of a character in a string (`str.count` for a single char). -/
def countChar (s : Str) (c : Char) : Nat := (s.filter (fun x => x = c)).length

/-- `re.match(rf"\s*\x7bkw\x7d\s+\w+", stripped)` on an already stripped
line: the keyword, at least one space, then a word character. -/
def blockKwHead (kw s : Str) : Bool :=
  startsW kw s &&
    (let r := s.drop kw.length
     !(r.takeWhile isSpaceChar).isEmpty &&
       (match (r.dropWhile isSpaceChar).head? with
        | some c => isWordChar c
        | none => false))

/-- The line loop of `_remove_blocks_for_field_extraction` (source lines
310-336). -/
def removeBlocksGo : Bool → Int → List Str → List Str
  | _, _, [] => []
  | inBlock, bd, line :: rest =>
      let stripped := strip line
      let inBlock1 :=
        if !inBlock then
          blockKwHead (lit "constraint") stripped ||
            blockKwHead (lit "function") stripped ||
            blockKwHead (lit "task") stripped
        else inBlock
      if inBlock1 then
        let bd1 := (if inBlock then bd else 0) +
          (countChar stripped '\x7b' : Int) - (countChar stripped '\x7d' : Int)
        if bd1 ≤ 0 ∧ (containsSub stripped (lit "\x7d") ∨
            containsSub stripped (lit "endfunction") ∨
            containsSub stripped (lit "endtask")) then
          removeBlocksGo false 0 rest
        else
          removeBlocksGo true bd1 rest
      else
        line :: removeBlocksGo false bd rest

def removeBlocksForFieldExtraction (classBody : Str) : Str :=
  joinWith [nl] (removeBlocksGo false 0 (splitChar nl classBody))

/-- `SVParser._is_valid_field_name` (source lines 338-354). -/
def isValidFieldName (name : Str) : Bool :=
  !name.isEmpty &&
  (match name with
   | c :: rest => (c.isAlpha || c = '_') && rest.all isWordChar
   | [] => false) &&
  !(name ∈ [lit "format", lit "before", lit "inside", lit "solve",
    lit "if", lit "else", lit "constraint", lit "function",
    lit "endfunction", lit "return", lit "this", lit "begin", lit "end"]) &&
  name.head? ≠ some '_'

/-- `WIDTH_MAP` (source lines 116-121). -/
def widthMap (dt : Str) : Option Nat :=
  if dt = lit "byte" then some 8
  else if dt = lit "shortint" then some 16
  else if dt = lit "int" then some 32
  else if dt = lit "longint" then some 64
  else none

/-- The `(rand|randc)?` prefix: the regex engine tries `rand`, then
`randc`, then the empty alternative, each followed by the continuation;
because the continuation always starts `\s*TYPE`, this is equivalent to
committing to `randc` when present, else `rand`, else nothing. -/
def matchRandPrefix (s : Str) : Option Str × Str :=
  if startsW (lit "randc") s then (some (lit "randc"), s.drop 5)
  else if startsW (lit "rand") s then (some (lit "rand"), s.drop 4)
  else (none, s)

/-- `(bit|logic)\b`. -/
def matchBitLogic (s : Str) : Option (Str × Str) :=
  if startsW (lit "bit") s ∧ nextNotWord (s.drop 3) then
    some (lit "bit", s.drop 3)
  else if startsW (lit "logic") s ∧ nextNotWord (s.drop 5) then
    some (lit "logic", s.drop 5)
  else none

/-- `(int|byte|shortint|longint)\b` (alternation order as written). -/
def matchIntType (s : Str) : Option (Str × Str) :=
  if startsW (lit "int") s ∧ nextNotWord (s.drop 3) then
    some (lit "int", s.drop 3)
  else if startsW (lit "byte") s ∧ nextNotWord (s.drop 4) then
    some (lit "byte", s.drop 4)
  else if startsW (lit "shortint") s ∧ nextNotWord (s.drop 8) then
    some (lit "shortint", s.drop 8)
  else if startsW (lit "longint") s ∧ nextNotWord (s.drop 7) then
    some (lit "longint", s.drop 7)
  else none

/-- `(?:\[(\d+):0\])?` — on failure of the bracket body the group is
skipped without consuming. -/
def matchWidthBracket (s : Str) : Option Str × Str :=
  match s with
  | '[' :: r =>
      let ds := r.takeWhile isDigitChar
      if ds.isEmpty then (none, s)
      else match r.drop ds.length with
        | ':' :: '0' :: ']' :: rest => (some ds, rest)
        | _ => (none, s)
  | _ => (none, s)

/-- The `(?:\s*,\s*\w+)+\s*$` tail of the comma-list patterns, collecting
the names (the callers only use `names_str.split(",")` with each entry
stripped, which is exactly this word list). -/
def commaNamesGo : Nat → Str → List Str → Option (List Str)
  | 0, _, _ => none
  | fuel + 1, r, acc =>
      let r1 := r.dropWhile isSpaceChar
      match r1 with
      | ',' :: r2 =>
          let r3 := r2.dropWhile isSpaceChar
          match matchWord r3 with
          | some (w, r4) => commaNamesGo fuel r4 (acc ++ [w])
          | none => none
      | _ => if r1.isEmpty then some acc else none

/-- `(\w+(?:\s*,\s*\w+)+)\s*$`: at least two comma-separated words ending
the line. -/
def matchCommaNameList (s : Str) : Option (List Str) := do
  let (w, r) ← matchWord s
  let names ← commaNamesGo r.length r [w]
  if names.length ≥ 2 then some names else none

/-- `(signed)?` before a continuation requiring parse of the remainder:
the greedy group is taken when the continuation succeeds after it. -/
def matchOptSigned (s : Str) : List (Bool × Str) :=
  if startsW (lit "signed") s then [(true, s.drop 6), (false, s)]
  else [(false, s)]

/-- `(?:\s+(signed|unsigned))?` (pattern 2 and the int comma pattern):
alternatives in regex order, each later filtered by its continuation. -/
def matchOptSignSpec (s : Str) : List (Option Str × Str) :=
  let ws := s.takeWhile isSpaceChar
  if ws.isEmpty then [(none, s)]
  else
    let r := s.drop ws.length
    (if startsW (lit "signed") r then [(some (lit "signed"), r.drop 6)] else []) ++
    (if startsW (lit "unsigned") r then [(some (lit "unsigned"), r.drop 8)] else []) ++
    [(none, s)]

/-- First alternative that satisfies the continuation (regex backtracking
over an ordered list of candidate states). -/
def firstSome {α β : Type} (f : α → Option β) : List α → Option β
  | [] => none
  | a :: rest =>
      match f a with
      | some b => some b
      | none => firstSome f rest

/-- The comma bit pattern of `_extract_fields` (source line 279):
`^\s*(rand|randc)?\s*(bit|logic)\b\s*(signed)?\s*(?:\[(\d+):0\])?\s+(\w+(?:\s*,\s*\w+)+)\s*$`;
returns (rand group, data type, signed?, width digits?, names). -/
def commaBitMatch (line : Str) :
    Option (Option Str × Str × Bool × Option Str × List Str) := do
  let s := line.dropWhile isSpaceChar
  let (rt, s1) := matchRandPrefix s
  let s2 := s1.dropWhile isSpaceChar
  let (dt, s3) ← matchBitLogic s2
  let s4 := s3.dropWhile isSpaceChar
  firstSome (fun (sgn, sA) => do
    let sB := sA.dropWhile isSpaceChar
    let (wd, sC) := matchWidthBracket sB
    let wsN := sC.takeWhile isSpaceChar
    if wsN.isEmpty then none
    else do
      let names ← matchCommaNameList (sC.drop wsN.length)
      pure (rt, dt, sgn, wd, names)) (matchOptSigned s4)

/-- The comma int pattern (source line 296):
`^\s*(rand|randc)?\s*(int|byte|shortint|longint)\b\s*(signed|unsigned)?\s+(\w+(?:\s*,\s*\w+)+)\s*$`. -/
def commaIntMatch (line : Str) :
    Option (Option Str × Str × Option Str × List Str) := do
  let s := line.dropWhile isSpaceChar
  let (rt, s1) := matchRandPrefix s
  let s2 := s1.dropWhile isSpaceChar
  let (dt, s3) ← matchIntType s2
  let s4 := s3.dropWhile isSpaceChar
  firstSome (fun (sgn, sA) => do
    let wsN := sA.takeWhile isSpaceChar
    if wsN.isEmpty then none
    else do
      let names ← matchCommaNameList (sA.drop wsN.length)
      pure (rt, dt, sgn, names))
    ((if startsW (lit "signed") s4 then [(some (lit "signed"), s4.drop 6)]
      else []) ++
     (if startsW (lit "unsigned") s4 then [(some (lit "unsigned"), s4.drop 8)]
      else []) ++
     [(none, s4)])

/-- Field pattern 1 (source line 232):
`^\s*(rand|randc)?\s*(bit|logic)\b\s*(signed)?\s*(?:\[(\d+):0\])?\s*(\w+)\s*(?:\[(\d+)\]|\[\])?\s*$`;
returns (rand, type, signed?, width digits?, name, array digits?). -/
def fieldPat1 (line : Str) :
    Option (Option Str × Str × Bool × Option Str × Str × Option Str) := do
  let s := line.dropWhile isSpaceChar
  let (rt, s1) := matchRandPrefix s
  let s2 := s1.dropWhile isSpaceChar
  let (dt, s3) ← matchBitLogic s2
  let s4 := s3.dropWhile isSpaceChar
  firstSome (fun (sgn, sA) => do
    let sB := sA.dropWhile isSpaceChar
    let (wd, sC) := matchWidthBracket sB
    let sD := sC.dropWhile isSpaceChar
    let (name, sE) ← matchWord sD
    let sF := sE.dropWhile isSpaceChar
    let arrSG : Option Str × Str :=
      match sF with
      | '[' :: r =>
          let ds := r.takeWhile isDigitChar
          if !ds.isEmpty ∧ (r.drop ds.length).head? = some ']' then
            (some ds, (r.drop ds.length).drop 1)
          else if r.head? = some ']' then (none, r.drop 1)
          else (none, sF)
      | _ => (none, sF)
    if (arrSG.2.dropWhile isSpaceChar).isEmpty then
      pure (rt, dt, sgn, wd, name, arrSG.1)
    else none) (matchOptSigned s4)

/-- Field pattern 2 (source line 234):
`^\s*(rand|randc)?\s*(int|byte|shortint|longint)\b(?:\s+(signed|unsigned))?\s+(\w+)\s*$`. -/
def fieldPat2 (line : Str) :
    Option (Option Str × Str × Option Str × Str) := do
  let s := line.dropWhile isSpaceChar
  let (rt, s1) := matchRandPrefix s
  let s2 := s1.dropWhile isSpaceChar
  let (dt, s3) ← matchIntType s2
  firstSome (fun (sgn, sA) => do
    let wsN := sA.takeWhile isSpaceChar
    if wsN.isEmpty then none
    else do
      let (name, sB) ← matchWord (sA.drop wsN.length)
      if (sB.dropWhile isSpaceChar).isEmpty then pure (rt, dt, sgn, name)
      else none) (matchOptSignSpec s3)

/-- Field pattern 3 (source line 236):
`^\s*(rand|randc)?\s*(\w+_[et])\s+(\w+)\s*$` — the type group must cover a
whole word ending in `_e` or `_t` (otherwise the following `\s+` fails on
the word character left behind). -/
def fieldPat3 (line : Str) : Option (Option Str × Str × Str) := do
  let s := line.dropWhile isSpaceChar
  let (rt, s1) := matchRandPrefix s
  let s2 := s1.dropWhile isSpaceChar
  let (dt, s3) ← matchWord s2
  match dt.reverse with
  | e :: '_' :: _ :: _ =>
      if e = 'e' ∨ e = 't' then do
        let wsN := s3.takeWhile isSpaceChar
        if wsN.isEmpty then none
        else do
          let (name, s4) ← matchWord (s3.drop wsN.length)
          if (s4.dropWhile isSpaceChar).isEmpty then pure (rt, dt, name)
          else none
      else none
  | _ => none

/-- `{"rand": RAND, "randc": RANDC}.get(rand_type, NON_RAND)`. -/
def fieldTypeOf : Option Str → FieldType
  | some rt =>
      if rt = lit "rand" then FieldType.RAND
      else if rt = lit "randc" then FieldType.RANDC
      else FieldType.NON_RAND
  | none => FieldType.NON_RAND

/-- `SVParser._parse_bit_field` (source lines 382-400) on pattern-1
groups, with `original = line + ";"`. -/
def parseBitField (rt : Option Str) (dt : Str) (sgn : Bool)
    (wd : Option Str) (name : Str) (arr : Option Str) (original : Str) :
    SVField :=
  let width := match wd with
               | some ds => natOfDigits ds + 1
               | none => 1
  let arraySize := arr.map natOfDigits
  let isDynamic := arraySize.isNone ∧ containsSub original (lit "[]")
  { name := name, width := width, fieldType := fieldTypeOf rt,
    isArray := arraySize.isSome || isDynamic, arraySize := arraySize,
    isDynamic := isDynamic, originalLine := original, dataType := dt,
    isSigned := sgn }

/-- `SVParser._parse_int_field` (source lines 402-423). -/
def parseIntField (rt : Option Str) (dt : Str) (sgn : Option Str)
    (name : Str) (original : Str) : SVField :=
  { name := name, width := (widthMap dt).getD 32,
    fieldType := fieldTypeOf rt,
    isSigned := sgn ≠ some (lit "unsigned"),
    originalLine := original, dataType := dt }

/-- `SVParser._parse_enum_field` (source lines 425-433). -/
def parseEnumField (rt : Option Str) (dt : Str) (name : Str)
    (original : Str) : SVField :=
  { name := name, width := 32, fieldType := fieldTypeOf rt,
    isEnum := true, enumType := some dt, originalLine := original,
    dataType := dt }

/-- The skip-keyword list of `_extract_fields` (source lines 252-254). -/
def fieldSkipKeywords : List Str :=
  [lit "solve ", lit "inside ", lit "dist ", lit " before ", lit "foreach",
   lit "unique", lit "constraint ", lit "function ", lit "endfunction",
   lit "if ", lit "else", lit "return", lit "==", lit "!=", lit "<=",
   lit ">=", lit "->"]

/-- `re.sub(r"//.*", "", line)` (no MULTILINE: within each
newline-segment of the piece, drop from `//` on). -/
def stripLineComments (line : Str) : Str := removeLineComments line

/-- The comma-list emission loops of `_extract_fields` (source lines
262-297): strip each name, keep the valid ones. -/
def commaBitFields (rt : Option Str) (dt : Str) (sgn : Bool)
    (wd : Option Str) (names : List Str) : List SVField :=
  let width := match wd with
               | some ds => natOfDigits ds + 1
               | none => 1
  (names.map strip).filterMap (fun name =>
    if !name.isEmpty ∧ isValidFieldName name then
      some { name := name, width := width, fieldType := fieldTypeOf rt,
             originalLine := strip ((rt.getD []) ++ lit " " ++ dt ++
               lit " " ++ (if sgn then lit "signed " else []) ++ lit "[" ++
               natDigits (width - 1) ++ lit ":0] " ++ name ++ lit ";"),
             dataType := dt, isSigned := sgn }
    else none)

def commaIntFields (rt : Option Str) (dt : Str) (sgn : Option Str)
    (names : List Str) : List SVField :=
  (names.map strip).filterMap (fun name =>
    if !name.isEmpty ∧ isValidFieldName name then
      some { name := name, width := (widthMap dt).getD 32,
             fieldType := fieldTypeOf rt,
             originalLine := strip ((rt.getD []) ++ lit " " ++ dt ++
               lit " " ++ (sgn.getD (lit "signed")) ++ lit " " ++ name ++
               lit ";"),
             dataType := dt, isSigned := sgn ≠ some (lit "unsigned") }
    else none)

/-- `SVParser._parse_field_match` dispatch over the three standard
patterns, first match wins (source lines 300-306 and 356-380). -/
def parseFieldLine (line : Str) : Option SVField :=
  match fieldPat1 line with
  | some (rt, dt, sgn, wd, name, arr) =>
      some (parseBitField rt dt sgn wd name arr (line ++ lit ";"))
  | none =>
      match fieldPat2 line with
      | some (rt, dt, sgn, name) =>
          some (parseIntField rt dt sgn name (line ++ lit ";"))
      | none =>
          match fieldPat3 line with
          | some (rt, dt, name) =>
              some (parseEnumField rt dt name (line ++ lit ";"))
          | none => none

/-- `SVParser._extract_fields` (source lines 229-308). -/
def extractFields (classBody : Str) : List SVField :=
  let cleaned := removeBlocksForFieldExtraction classBody
  ((splitChar ';' cleaned).map (fun piece =>
    strip (stripLineComments piece))).foldr (fun line acc =>
      (fieldsOfLine line) ++ acc) []
where
  fieldsOfLine (line : Str) : List SVField :=
    if line.isEmpty then []
    else if fieldSkipKeywords.any (fun kw => containsSub line kw) then []
    else if line = lit "\x7d" ∨ line = lit "\x7b" ∨
        line = lit "\x7d else \x7b" ∨ startsW (lit "//") line then []
    else
      match commaBitMatch line with
      | some (rt, dt, sgn, wd, names) => commaBitFields rt dt sgn wd names
      | none =>
          match commaIntMatch line with
          | some (rt, dt, sgn, names) => commaIntFields rt dt sgn names
          | none =>
              match parseFieldLine line with
              | some fld => if isValidFieldName fld.name then [fld] else []
              | none => []

/-! ## Function and class extraction (`SVParser._extract_function`,
`_extract_classes`, `parse`) -/

/-- Head of the `_extract_function` pattern
`function\s+(?:void\s+)?NAME\s*\(\s*\)\s*;` anchored at the start of `s`:
returns the remainder after the `;`. -/
def functionHeadAt (fname s : Str) : Option Str := do
  let r0 ← if startsW (lit "function") s then some (s.drop 8) else none
  let ws1 := r0.takeWhile isSpaceChar
  if ws1.isEmpty then none
  else
    let r1 := r0.drop ws1.length
    let tryVoid : Option Str :=
      if startsW (lit "void") r1 then
        let rv := r1.drop 4
        let wsv := rv.takeWhile isSpaceChar
        if wsv.isEmpty then none
        else if startsW fname (rv.drop wsv.length) then
          some ((rv.drop wsv.length).drop fname.length)
        else none
      else none
    let r2 ← match tryVoid with
             | some r => some r
             | none =>
                 if startsW fname r1 then some (r1.drop fname.length)
                 else none
    match r2.dropWhile isSpaceChar with
    | '(' :: r3 =>
        match r3.dropWhile isSpaceChar with
        | ')' :: r4 =>
            match r4.dropWhile isSpaceChar with
            | ';' :: r5 => some r5
            | _ => none
        | _ => none
    | _ => none

/-- The `re.search` scan of `_extract_function` (source lines 498-503):
first position whose head matches and is followed by an `endfunction`;
the lazy `(.*?)` body runs to the first `endfunction`. -/
def extractFunctionGo (fname : Str) : Nat → Str → Option Str
  | 0, _ => none
  | _ + 1, [] => none
  | fuel + 1, s =>
      match functionHeadAt fname s with
      | some rest =>
          (match strFindIdx rest (lit "endfunction") 0 with
           | some i => some (strip (rest.take i))
           | none => extractFunctionGo fname fuel (s.drop 1))
      | none => extractFunctionGo fname fuel (s.drop 1)

def extractFunction (classBody fname : Str) : Option Str :=
  extractFunctionGo fname (classBody.length + 1) classBody

/-- Head of the `_extract_classes` pattern
`class\s+(\w+)(?:\s+extends\s+(\w+))?\s*;` anchored at the start of `s`:
returns (class name, parent name, remainder after the `;`). -/
def classHeadAt (s : Str) : Option (Str × Option Str × Str) := do
  let r0 ← if startsW (lit "class") s then some (s.drop 5) else none
  let ws1 := r0.takeWhile isSpaceChar
  if ws1.isEmpty then none
  else do
    let (name, r1) ← matchWord (r0.drop ws1.length)
    let tryExt : Option (Str × Str) :=
      let wsE := r1.takeWhile isSpaceChar
      if wsE.isEmpty then none
      else
        let rE := r1.drop wsE.length
        if startsW (lit "extends") rE then
          let rE2 := rE.drop 7
          let wsE2 := rE2.takeWhile isSpaceChar
          if wsE2.isEmpty then none
          else match matchWord (rE2.drop wsE2.length) with
            | some (p, rE3) => some (p, rE3)
            | none => none
        else none
    let (parent, r2) : Option Str × Str :=
      match tryExt with
      | some (p, r) => (some p, r)
      | none => (none, r1)
    match r2.dropWhile isSpaceChar with
    | ';' :: r3 => some (name, parent, r3)
    | _ => none

/-- The `re.finditer` loop of `_extract_classes` (source lines 208-227):
the lazy `(.*?)endclass` body runs to the first `endclass`; every class
record carries the parser's full enum list. -/
def extractClassesGo (enums : List SVEnum) : Nat → Str → List SVClass
  | 0, _ => []
  | _ + 1, [] => []
  | fuel + 1, s =>
      match classHeadAt s with
      | some (name, parent, rest) =>
          (match strFindIdx rest (lit "endclass") 0 with
           | some i =>
               let body := rest.take i
               let matchLen := (s.length - rest.length) + i + 8
               { name := name, parentClass := parent,
                 fields := extractFields body,
                 constraints := extractConstraints body,
                 enums := enums,
                 originalCode := s.take matchLen,
                 preRandomize := extractFunction body (lit "pre_randomize"),
                 postRandomize := extractFunction body (lit "post_randomize") } ::
               extractClassesGo enums fuel (s.drop matchLen)
           | none => extractClassesGo enums fuel (s.drop 1))
      | none => extractClassesGo enums fuel (s.drop 1)

def extractClasses (code : Str) (enums : List SVEnum) : List SVClass :=
  extractClassesGo enums (code.length + 1) code

/-- `SVParser.parse` (source lines 161-166); `none` models a `ValueError`
escaping from enum value parsing. -/
def svParse (svCode : Str) : Option (List SVClass) := do
  let code := removeComments svCode
  let enums ← extractEnums code
  pure (extractClasses code enums)

/-! ## Whole-file generation (`PyVSCGenerator.generate` and helpers) -/

/-- Python dict assignment `m[k] = v`. -/
def dictInsert (m : List (Str × Str)) (k v : Str) : List (Str × Str) :=
  if (lookupA m k).isSome then
    m.map (fun p => if p.1 = k then (k, v) else p)
  else m ++ [(k, v)]

/-- Python `str.lower()` (ASCII fragment). -/
def pyLower (s : Str) : Str := s.map Char.toLower

/-- `PyVSCGenerator._generate_header` (source lines 916-931). -/
def generateHeader : Str :=
  lit "#!/usr/bin/env python3\n\"\"\"\nAuto-generated pyvsc translation from SystemVerilog\n\nIMPORTANT: This is a SUGGESTED translation that requires manual review.\nPlease verify:\n1. All constraint semantics are preserved\n2. Data type mappings are correct\n3. Distribution weights match original intent\n4. Solve order effects are equivalent\n\nGenerated by: SV-to-pyvsc Translation Assistant\n\"\"\""

/-- `PyVSCGenerator._generate_imports` (source lines 933-938). -/
def generateImports : Str :=
  lit "import vsc\nfrom enum import IntEnum\nimport random\nfrom typing import Optional"

/-- The inner value loop of the enum-map build in `generate` (source
lines 548-554). -/
def enumMapFold (className : Str) : List (Str × Option Int) → TM Unit
  | [] => pure ()
  | (vn, _) :: rest => do
      let st ← get
      match lookupA st.enumValueMap vn with
      | some existing =>
          if existing ≠ className then do
            modify (fun s => addWarning s
              (lit "Enum value " ++ [sq] ++ vn ++ [sq] ++
                lit " appears in multiple enums; using " ++ [sq] ++
                existing ++ [sq]))
            enumMapFold className rest
          else do
            modify (fun s => { s with
              enumValueMap := dictInsert s.enumValueMap vn className })
            enumMapFold className rest
      | none => do
          modify (fun s => { s with
            enumValueMap := dictInsert s.enumValueMap vn className })
          enumMapFold className rest

def enumMapClassFold : List SVEnum → TM Unit
  | [] => pure ()
  | enum :: rest => do
      let className := toPythonClassName enum.name
      modify (fun s => { s with
        enumClassNames := setAdd s.enumClassNames className })
      enumMapFold className enum.values
      enumMapClassFold rest

/-- The enum value → enum class map build of `generate` (source lines
545-554). -/
def enumMapBuild : List SVClass → TM Unit
  | [] => pure ()
  | cls :: rest => do
      enumMapClassFold cls.enums
      enumMapBuild rest

/-- The `seen_enums` generation loop of `generate` (source lines 562-568):
returns the emitted code parts and the updated seen set. -/
def genEnumsInner : List SVEnum → List Str → TM (List Str × List Str)
  | [], seen => pure ([], seen)
  | enum :: rest, seen =>
      if enum.name ∈ seen then genEnumsInner rest seen
      else do
        let code ← generateEnum enum
        modify (fun s => { s with stats := { s.stats with
          enums := s.stats.enums + 1 } })
        let (parts, seen2) ← genEnumsInner rest (setAdd seen enum.name)
        pure (code :: parts, seen2)

def genEnums : List SVClass → List Str → TM (List Str × List Str)
  | [], seen => pure ([], seen)
  | cls :: rest, seen => do
      let (parts1, seen1) ← genEnumsInner cls.enums seen
      let (parts2, seen2) ← genEnums rest seen1
      pure (parts1 ++ parts2, seen2)

/-- The undefined-parent collection of `generate` (source lines 570-576),
as an insertion-ordered set. -/
def parentClassSet (classes : List SVClass) : List Str :=
  classes.foldl (fun acc cls =>
    match cls.parentClass with
    | some p =>
        if p ∈ classes.map (fun c => c.name) then acc else setAdd acc p
    | none => acc) []

/-- The per-parent loop of `_generate_base_class_stubs` (source lines
625-639); the caller passes the parents sorted. -/
def stubsFold : List Str → TM (List Str)
  | [] => pure []
  | parent :: rest => do
      let pyName := toPythonClassName parent
      modify (fun s => addReviewItem s
        (lit "Base class " ++ [sq] ++ parent ++ [sq] ++
          lit " stub generated - replace with actual implementation"))
      modify (fun s => { s with mappingNotes := s.mappingNotes ++
        [lit "Generated stub for base class " ++ [sq] ++ parent ++ [sq] ++
          lit " -> " ++ [sq] ++ pyName ++ [sq]] })
      let more ← stubsFold rest
      pure ([lit "@vsc.randobj",
        lit "class " ++ pyName ++ lit ":",
        INDENT ++ lit "\"\"\"",
        INDENT ++ lit "Stub for " ++ parent ++ lit " base class.",
        INDENT ++ lit "Replace with actual implementation or import from your UVM library.",
        INDENT ++ lit "\"\"\"",
        INDENT ++ lit "def __init__(self):",
        INDENT ++ INDENT ++ lit "pass  # TODO: Add base class fields if needed",
        ([] : Str)] ++ more)

/-- `PyVSCGenerator._generate_base_class_stubs` (source lines 616-641). -/
def generateBaseClassStubs (parents : List Str) : TM Str := do
  let pl ← stubsFold (sortStrs parents)
  pure (joinWith [nl]
    ([lit "# " ++ List.replicate 77 '=',
      lit "# BASE CLASS STUBS (from UVM or other libraries)",
      lit "# Replace these with actual implementations or imports as needed",
      lit "# " ++ List.replicate 77 '=',
      ([] : Str)] ++ pl))

/-- Run `_add_warning` over a list of messages. -/
def addWarnings : List Str → TM Unit
  | [] => pure ()
  | w :: ws => do
      modify (fun s => addWarning s w)
      addWarnings ws

/-- `re.findall(r"solve\s+(\w+)\s+before\s+(\w+)", body)` (source line
682), non-overlapping left-to-right scan. -/
def findSolvePairsGo : Nat → Str → List (Str × Str)
  | 0, _ => []
  | _ + 1, [] => []
  | fuel + 1, s =>
      match (do
        let r0 ← if startsW (lit "solve") s then some (s.drop 5) else none
        let ws1 := r0.takeWhile isSpaceChar
        if ws1.isEmpty then none else do
          let (w1, r1) ← matchWord (r0.drop ws1.length)
          let ws2 := r1.takeWhile isSpaceChar
          if ws2.isEmpty then none else do
            let r2 ← if startsW (lit "before") (r1.drop ws2.length)
                     then some ((r1.drop ws2.length).drop 6) else none
            let ws3 := r2.takeWhile isSpaceChar
            if ws3.isEmpty then none else do
              let (w2, r3) ← matchWord (r2.drop ws3.length)
              pure (w1, w2, r3)) with
      | some (w1, w2, r3) => (w1, w2) :: findSolvePairsGo fuel r3
      | none => findSolvePairsGo fuel (s.drop 1)

def findSolvePairs (body : Str) : List (Str × Str) :=
  findSolvePairsGo (body.length + 1) body

/-- `re.findall(r"(\w+)\s+inside\s*\{([^}]+)\}", body)` (source line
694). -/
def findInsidePairsGo : Nat → Str → List (Str × Str)
  | 0, _ => []
  | _ + 1, [] => []
  | fuel + 1, s =>
      match (do
        let (w, r0) ← matchWord s
        let ws1 := r0.takeWhile isSpaceChar
        if ws1.isEmpty then none else do
          let r1 ← if startsW (lit "inside") (r0.drop ws1.length)
                   then some ((r0.drop ws1.length).drop 6) else none
          match r1.dropWhile isSpaceChar with
          | '\x7b' :: r2 =>
              let vals := r2.takeWhile (fun c => c ≠ '\x7d')
              if vals.isEmpty then none
              else match r2.drop vals.length with
                | '\x7d' :: r3 => some (w, vals, r3)
                | _ => none
          | _ => none) with
      | some (w, vals, r3) => (w, vals) :: findInsidePairsGo fuel r3
      | none => findInsidePairsGo fuel (s.drop 1)

def findInsidePairs (body : Str) : List (Str × Str) :=
  findInsidePairsGo (body.length + 1) body

/-- `re.search(rf"self\.VAR\s+in\s+vsc\.rangelist", code)` (source lines
699-701). -/
def selfRangelistFound (var code : Str) : Bool :=
  go (code.length + 1) code
where
  go : Nat → Str → Bool
    | 0, _ => false
    | _ + 1, [] => false
    | fuel + 1, s =>
        (match (do
          let r0 ← if startsW (lit "self." ++ var) s
                   then some (s.drop (5 + var.length)) else none
          let ws1 := r0.takeWhile isSpaceChar
          if ws1.isEmpty then none else do
            let r1 ← if startsW (lit "in") (r0.drop ws1.length)
                     then some ((r0.drop ws1.length).drop 2) else none
            let ws2 := r1.takeWhile isSpaceChar
            if ws2.isEmpty then none
            else if startsW (lit "vsc.rangelist") (r1.drop ws2.length)
            then some () else none) with
        | some _ => true
        | none => go fuel (s.drop 1))

/-- The keyword set of `_validate_constraint_translation` (source lines
706-708) — unlike the metrics set, it does NOT contain `this`. -/
def svKeywordsValidate : List Str :=
  [lit "if", lit "else", lit "inside", lit "dist", lit "solve",
   lit "before", lit "foreach", lit "unique", lit "soft", lit "constraint",
   lit "rand", lit "randc", lit "bit", lit "logic", lit "int", lit "byte",
   lit "size"]

/-- `PyVSCGenerator._validate_constraint_translation` (source lines
672-744); the informational implication counters (lines 710-712), which
produce no issues, are not modelled.  Sets are modelled as
insertion-ordered duplicate-free lists (Python set iteration order is
unspecified). -/
def validateConstraintTranslation (c : SVConstraint) (code : Str)
    (fieldNames : List Str) : List Str :=
  let solveMatches := findSolvePairs c.body
  let expected := solveMatches.length
  let actual := countSub code (lit "vsc.solve_order(")
  let issues1 :=
    if actual < expected then
      (lit "Constraint " ++ [sq] ++ c.name ++ [sq] ++ lit ": " ++
        natDigits (expected - actual) ++
        lit " solve_order statement(s) may be missing") ::
      solveMatches.filterMap (fun p =>
        if !containsSub code (lit "vsc.solve_order(self." ++ p.1) then
          some (lit "  - Missing: solve " ++ p.1 ++ lit " before " ++ p.2)
        else none)
    else []
  let issues2 := (findInsidePairs c.body).filterMap (fun p =>
    if !containsSub code (lit "self." ++ p.1 ++ lit " in vsc.rangelist(")
    then
      if !selfRangelistFound p.1 code then
        some (lit "Constraint " ++ [sq] ++ c.name ++ [sq] ++ lit ": " ++
          [sq] ++ lit "inside" ++ [sq] ++ lit " for " ++ [sq] ++ p.1 ++
          [sq] ++ lit " may be missing")
      else none
    else none)
  let issues3 := (findIdents c.body).filterMap (fun ident =>
    if ident ∈ svKeywordsValidate then none
    else if ident ∈ fieldNames then
      match strFindIdx code (lit "def " ++ c.name ++ lit "(self):") 0 with
      | none => none
      | some start =>
          let nd1 := strFindIdx code (lit "\n    def ") (start + 1)
          let nd2 := match nd1 with
                     | some i => some i
                     | none => strFindIdx code (lit "\n# ===") (start + 1)
          let nextDef := match nd2 with
                         | some i => i
                         | none => code.length
          let sec := slice code start nextDef
          let base := match strFindIdx sec (lit "\"\"\"") 0 with
                      | some i => i + 3
                      | none => 2
          match strFindIdx sec (lit "\"\"\"") base with
          | none => none
          | some d =>
              let codeSection := sec.drop (d + 3)
              if !containsSub codeSection (lit "self." ++ ident) ∧
                  !containsSub codeSection ident then
                some (lit "Constraint " ++ [sq] ++ c.name ++ [sq] ++
                  lit ": variable " ++ [sq] ++ ident ++ [sq] ++
                  lit " may be missing from translated code")
              else none
    else none)
  issues1 ++ issues2 ++ issues3

/-- `PyVSCGenerator._validate_generated_code` (source lines 643-670). -/
def validateGeneratedCode (cls : SVClass) (code : Str) : List Str :=
  let fieldNames := dedup (cls.fields.map (fun f => f.name))
  let fieldIssues := fieldNames.filterMap (fun v =>
    if !containsSub code (lit "self." ++ v ++ lit " = vsc.") then
      some (lit "Field " ++ [sq] ++ v ++ [sq] ++
        lit " may be missing from __init__")
    else none)
  let consIssues := cls.constraints.map (fun c =>
    (if !containsSub code (lit "def " ++ c.name ++ lit "(self):") then
      [lit "Constraint " ++ [sq] ++ c.name ++ [sq] ++
        lit " missing from generated code"]
     else []) ++
    validateConstraintTranslation c code fieldNames)
  fieldIssues ++ consIssues.join

/-- `re.search(r"\d+'[hHbBdD]", code_part)` of the leak check. -/
def svNumFormatFound : Str → Bool
  | d :: q :: b :: rest =>
      if isDigitChar d ∧ q = sq ∧ (b = 'h' ∨ b = 'H' ∨ b = 'b' ∨
          b = 'B' ∨ b = 'd' ∨ b = 'D') then true
      else svNumFormatFound (q :: b :: rest)
  | _ => false

/-- The line loop of `_check_sv_syntax_leaks` (source lines 746-786),
with the docstring-state machine. -/
def leaksGo : List Str → Nat → Bool → Str → List Str
  | [], _, _, _ => []
  | line :: rest, n, true, delim =>
      let stripped := strip line
      if containsSub stripped delim then leaksGo rest (n + 1) false []
      else leaksGo rest (n + 1) true delim
  | line :: rest, n, false, _ =>
      let stripped := strip line
      if startsW (lit "\"\"\"") stripped ∨ startsW [sq, sq, sq] stripped then
        let delim := stripped.take 3
        if countSub stripped delim = 1 then leaksGo rest (n + 1) true delim
        else leaksGo rest (n + 1) false []
      else if startsW (lit "#") stripped then leaksGo rest (n + 1) false []
      else
        let codePart := strip (if containsSub line (lit "#") then
          line.takeWhile (fun c => c ≠ '#') else line)
        if codePart.isEmpty then leaksGo rest (n + 1) false []
        else
          let issue :=
            if containsSub codePart (lit "inside \x7b") ∧
                !containsSub codePart (lit "vsc.rangelist") then
              some (lit "Line " ++ natDigits n ++ lit ": SV " ++ [sq] ++
                lit "inside" ++ [sq] ++ lit " syntax found in code")
            else if containsSub codePart (lit "dist \x7b") ∧
                !containsSub codePart (lit "vsc.dist") then
              some (lit "Line " ++ natDigits n ++ lit ": SV " ++ [sq] ++
                lit "dist" ++ [sq] ++ lit " syntax found in code")
            else if svNumFormatFound codePart then
              some (lit "Line " ++ natDigits n ++
                lit ": SV number format found in code")
            else if containsSub codePart (lit " && ") then
              some (lit "Line " ++ natDigits n ++ lit ": SV " ++ [sq] ++
                lit "&&" ++ [sq] ++ lit " operator - should be " ++ [sq] ++
                lit "and" ++ [sq])
            else if containsSub codePart (lit " || ") then
              some (lit "Line " ++ natDigits n ++ lit ": SV " ++ [sq] ++
                lit "||" ++ [sq] ++ lit " operator - should be " ++ [sq] ++
                lit "or" ++ [sq])
            else none
          match issue with
          | some i => i :: leaksGo rest (n + 1) false []
          | none => leaksGo rest (n + 1) false []

/-- `PyVSCGenerator._check_sv_syntax_leaks` (source lines 746-786). -/
def checkSvSyntaxLeaks (code : Str) : List Str :=
  leaksGo (splitChar nl code) 1 false []

/-- `PyVSCGenerator._generate_usage_example` (source lines 2319-2359). -/
def generateUsageExample (classes : List SVClass) : Str :=
  if classes.isEmpty then []
  else
    joinWith [nl]
      ([lit "# " ++ List.replicate 77 '=',
        lit "# USAGE EXAMPLE",
        lit "# " ++ List.replicate 77 '=',
        ([] : Str),
        lit "if __name__ == " ++ [sq] ++ lit "__main__" ++ [sq] ++ lit ":",
        lit "    # Set seed for reproducibility (optional)",
        lit "    # vsc.set_randstate(12345)",
        ([] : Str)] ++
      (classes.map (fun cls =>
        let className := toPythonClassName cls.name
        let varName := pyLower cls.name
        [lit "    # Create and randomize " ++ className,
         lit "    " ++ varName ++ lit " = " ++ className ++ lit "()",
         lit "    " ++ varName ++ lit "_randomized = False",
         lit "    try:",
         lit "        " ++ varName ++ lit ".randomize()",
         lit "        " ++ varName ++ lit "_randomized = True",
         lit "        print(f" ++ [sq] ++ className ++
           lit " randomized successfully" ++ [sq] ++ lit ")",
         lit "    except Exception as e:",
         lit "        print(f" ++ [sq] ++ className ++
           lit " randomize failed: \x7be\x7d" ++ [sq] ++ lit ")",
         ([] : Str)] ++
        (if !cls.fields.isEmpty then
          [lit "    if " ++ varName ++ lit "_randomized:",
           lit "        # Print field values"] ++
          (cls.fields.take 5).map (fun fld =>
            lit "        print(f" ++ [sq] ++ lit "  " ++ fld.name ++
              lit " = \x7b" ++ varName ++ lit "." ++ fld.name ++
              lit "\x7d" ++ [sq] ++ lit ")") ++
          [([] : Str)]
         else []))).join)

/-- The per-class loop of `generate` (source lines 585-595). -/
def genClassesFold (fuel : Nat) : List SVClass → TM (List Str)
  | [] => pure []
  | cls :: rest => do
      let classCode ← generateClass fuel cls
      addWarnings (validateGeneratedCode cls classCode)
      modify (fun s => { s with stats := { s.stats with
        classes := s.stats.classes + 1 } })
      let more ← genClassesFold fuel rest
      pure (classCode :: more)

/-- `PyVSCGenerator.generate` (source lines 537-614).  The two
metrics-only passes `_analyze_sv_source` and `_analyze_py_output`, which
feed nothing but the verbose report, are not modelled. -/
def generate (fuel : Nat) (classes : List SVClass) : TM TranslationResult := do
  modify (fun st => resetState st.verbose)
  enumMapBuild classes
  let (enumParts, _) ← genEnums classes []
  let parents := parentClassSet classes
  let stubParts ←
    (if parents.isEmpty then pure ([] : List Str)
     else do
       let sc ← generateBaseClassStubs parents
       pure (if sc.isEmpty then [] else [sc]))
  let classParts ← genClassesFold fuel classes
  let usage := generateUsageExample classes
  let codeParts := [generateHeader, generateImports] ++ enumParts ++
    stubParts ++ classParts ++ [usage]
  let finalCode := joinWith (lit "\n\n")
    (codeParts.filter (fun p => !p.isEmpty))
  addWarnings (checkSvSyntaxLeaks finalCode)
  let st ← get
  pure { pyvscCode := finalCode, warnings := st.warnings,
         manualReviewItems := st.reviewItems,
         mappingNotes := st.mappingNotes, statistics := st.stats }

/-! ## CLI layer (`SVtoPyVSCTranslator.translate_code`, `translate_file`,
`main`) -/

/-- The placeholder result `translate_code` returns when the parser finds
no classes (source lines 2398-2404). -/
def zeroClassResult : TranslationResult :=
  { pyvscCode := lit "# No classes found in input",
    warnings := [lit "No SystemVerilog classes found in input"],
    manualReviewItems := [], mappingNotes := [],
    statistics := { classes := 0, fields := 0, constraints := 0, enums := 0 } }

/-- `SVtoPyVSCTranslator.translate_code` (source lines 2393-2406);
`Except.error` carries the message of an escaping exception (a
`ValueError` out of parsing, or an exception out of generation). -/
def translateCode (fuel : Nat) (verbose : Bool) (svCode : Str) :
    Except Str TranslationResult :=
  match svParse svCode with
  | none => Except.error (lit "invalid literal for int()")
  | some [] => Except.ok zeroClassResult
  | some classes =>
      match generate fuel classes (resetState verbose) with
      | EStateM.Result.ok r _ => Except.ok r
      | EStateM.Result.error e _ => Except.error (pyExcMsg e)

/-- Outcome of `translate_file`: the input file may be missing
(`FileNotFoundError`), translation may raise, or it succeeds and writes
the generated code to the output path. -/
inductive TransOutcome where
  | fileNotFound
  | raised (msg : Str)
  | done (r : TranslationResult) (writes : List (Str × Str))
deriving Repr, DecidableEq

/-- `SVtoPyVSCTranslator.translate_file` (source lines 2379-2391), over a
read-only file system `fs` (path ↦ contents); the `print` to stdout is
not modelled. -/
def translateFile (fuel : Nat) (verbose : Bool) (fs : Str → Option Str)
    (inputPath : Str) (outputPath : Option Str) : TransOutcome :=
  match fs inputPath with
  | none => TransOutcome.fileNotFound
  | some svCode =>
      match translateCode fuel verbose svCode with
      | Except.error msg => TransOutcome.raised msg
      | Except.ok r =>
          match outputPath with
          | some p => TransOutcome.done r [(p, r.pyvscCode)]
          | none => TransOutcome.done r []

/-- What `main` leaves behind: the exit code, the lines printed to
standard error, the files written, and the translation result (if any). -/
structure CliResult where
  exitCode : Nat
  errLines : List Str
  writes : List (Str × Str)
  result : Option TranslationResult
deriving Repr, DecidableEq

/-- `main` (source lines 2514-2561): `args.input` defaults to
`example_sv_classes.sv`, `args.output` to `example_sv_classes.py` (so an
output path is always passed), `verbose = args.report`; a
`FileNotFoundError` and any other exception print to stderr and exit 1;
the report printing is not modelled. -/
def mainRun (fuel : Nat) (fs : Str → Option Str) (input output : Str)
    (report : Bool) : CliResult :=
  match translateFile fuel report fs input (some output) with
  | TransOutcome.fileNotFound =>
      { exitCode := 1,
        errLines := [lit "Error: File not found: " ++ input],
        writes := [], result := none }
  | TransOutcome.raised msg =>
      { exitCode := 1,
        errLines := [lit "Error during translation: " ++ msg],
        writes := [], result := none }
  | TransOutcome.done r writes =>
      { exitCode := 0, errLines := [], writes := writes, result := some r }

/-! ## Claim C7 -/

/-- C7.  At the CLI entry point: (1) when the input file does not exist,
`main` prints a descriptive error to standard error and exits 1 without
writing any output file; (2) when the input parses to zero classes, the
placeholder output is still written to the output path, the returned
result carries the zero-class warning, and the process exits 0 (not
fatal). -/
theorem c7_cli_entry :
    (∀ fuel (fs : Str → Option Str) input output report,
      fs input = none →
      mainRun fuel fs input output report =
        { exitCode := 1,
          errLines := [lit "Error: File not found: " ++ input],
          writes := [], result := none }) ∧
    (∀ fuel (fs : Str → Option Str) input output report content,
      fs input = some content →
      svParse content = some [] →
      mainRun fuel fs input output report =
        { exitCode := 0, errLines := [],
          writes := [(output, zeroClassResult.pyvscCode)],
          result := some zeroClassResult } ∧
      zeroClassResult.warnings =
        [lit "No SystemVerilog classes found in input"] ∧
      zeroClassResult.pyvscCode = lit "# No classes found in input") := by
  constructor
  · intro fuel fs input output report h
    unfold mainRun translateFile
    rw [h]
  · intro fuel fs input output report content hfs hparse
    refine ⟨?_, rfl, rfl⟩
    unfold mainRun translateFile translateCode
    rw [hfs]
    simp only [hparse]

/-- The one-file file system for the witness: `in.sv` holds the empty
string. -/
def c7Fs : Str → Option Str :=
  fun p => if p = lit "in.sv" then some [] else none

/-- C7 witness: the theorem at a missing path and at the empty input
file (which parses to zero classes). -/
theorem c7_cli_entry_witness :
    mainRun 50 c7Fs (lit "missing.sv") (lit "out.py") false =
      { exitCode := 1,
        errLines := [lit "Error: File not found: missing.sv"],
        writes := [], result := none } ∧
    mainRun 50 c7Fs (lit "in.sv") (lit "out.py") false =
      { exitCode := 0, errLines := [],
        writes := [(lit "out.py", lit "# No classes found in input")],
        result := some zeroClassResult } := by
  constructor
  · exact (c7_cli_entry.1 50 c7Fs (lit "missing.sv") (lit "out.py") false
      (by decide)).trans (by decide)
  · exact ((c7_cli_entry.2 50 c7Fs (lit "in.sv") (lit "out.py") false []
      (by decide) (by decide)).1).trans (by decide)

/-! ## Claim C8 -/

/-- The generator state produced by `_reset_state` with `verbose=False`
(the CLI default). -/
def stInit : GenState := resetState false

/-- The member-value rule as the SPEC states it (for comparison against
the source-derived `enumAssignedValues`): values start at 0, a member
without an explicit value receives the previous member's value plus one,
and auto-increment resumes after any explicit value. -/
def specEnumValuesClaim (values : List (Str × Option Int)) : List (Str × Int) :=
  go none values
where
  go (prev : Option Int) : List (Str × Option Int) → List (Str × Int)
    | [] => []
    | (name, some v) :: rest => (name, v) :: go (some v) rest
    | (name, none) :: rest =>
        let v := match prev with
                 | none => 0
                 | some p => p + 1
        (name, v) :: go (some v) rest

lemma enumAssignedValues_go_spec (values : List (Str × Option Int)) :
    ∀ (prev : Option Int) (cur : Int),
      cur = (match prev with | none => 0 | some p => p + 1) →
      enumAssignedValues.go cur values = specEnumValuesClaim.go prev values := by
  induction values with
  | nil => intro prev cur _; rfl
  | cons hd rest ih =>
      intro prev cur hcur
      obtain ⟨name, val⟩ := hd
      cases val with
      | some v =>
          show (name, v) :: enumAssignedValues.go (v + 1) rest = _
          rw [ih (some v) (v + 1) rfl]
          rfl
      | none =>
          show (name, cur) :: enumAssignedValues.go (cur + 1) rest = _
          rw [ih (some cur) (cur + 1) rfl]
          subst hcur
          rfl

/-- The enum of scenario D, as `_extract_enums` parses it. -/
def c8Enum : SVEnum :=
  { name := lit "my_e"
    values := [(lit "A", none), (lit "B", some 5), (lit "C", none)]
    width := 32
    originalLines := [lit "typedef enum \x7bA, B=5, C\x7d my_e;"] }

/-- The class text `_generate_enum` emits for `c8Enum`. -/
def c8EnumOut : Str :=
  match generateEnum c8Enum stInit with
  | EStateM.Result.ok s _ => s
  | EStateM.Result.error _ _ => []

/-- C8.  The value-assignment loop of `_generate_enum` satisfies the
spec's auto-increment rule on every member list (first conjunct: it equals
the rule as literally stated, values starting at 0, implicit members
taking previous + 1, resuming after explicit values); and scenario D
concretely: `typedef enum {A, B=5, C} my_e;` parses to three members
`A`, `B=5`, `C` which generate `A = 0`, `B = 5`, `C = 6`. -/
theorem c8_enum_auto_increment :
    (∀ values, enumAssignedValues values = specEnumValuesClaim values) ∧
    extractEnums (lit "typedef enum \x7bA, B=5, C\x7d my_e;") = some [c8Enum] ∧
    enumAssignedValues c8Enum.values =
      [(lit "A", 0), (lit "B", 5), (lit "C", 6)] ∧
    c8EnumOut = lit "class My(IntEnum):\n    \"\"\"Translated from SV enum: my_e\"\"\"\n    A = 0\n    B = 5\n    C = 6" :=
  ⟨fun values => enumAssignedValues_go_spec values none 0 rfl,
   by decide, by decide, by decide⟩

/-! ## Claims C6 and C9 -/

/-- A class body declaring two constraint blocks with the same name `c`. -/
def c6Body : Str :=
  lit "constraint c \x7b a == 1; \x7d constraint c \x7b a == 2; \x7d"

/-- The class record the parser builds from `c6Body` (no fields, no
enums). -/
def c6Class : SVClass :=
  { name := lit "pkt", parentClass := none, fields := []
    constraints := extractConstraints c6Body, enums := []
    originalCode := [] }

/-- The text `_generate_class` emits for `c6Class`. -/
def c6Out : Str :=
  match generateClass 100 c6Class stInit with
  | EStateM.Result.ok s _ => s
  | EStateM.Result.error _ _ => []

set_option maxRecDepth 100000 in
/-- C6, counterexample: two same-named constraint blocks are NOT merged by
a name-keyed mapping — `_extract_constraints` keeps both records in its
list, and `_generate_class` emits a `def c(self):` method for each, so the
generated class contains two constraints of the same name, not at most
one. -/
theorem c6_counterexample :
    (extractConstraints c6Body).map (fun c => c.name) = [lit "c", lit "c"] ∧
    countSub c6Out (lit "def c(self):") = 2 ∧
    c6Out ≠ [] := by decide

/-- C6, amended: `_extract_constraints` accumulates the constraint blocks
it finds into a list, only ever appending — a block already collected is
never removed or overwritten by a later block (same-named or not), so
duplicates survive to generation. -/
theorem c6_constraints_accumulate (fuel : Nat) (body : Str) (pos : Nat)
    (acc : List SVConstraint) :
    ∃ suffix, extractConstraintsGo fuel body pos acc = acc ++ suffix := by
  induction fuel generalizing pos acc with
  | zero => exact ⟨[], (List.append_nil acc).symm⟩
  | succ fuel ih =>
      have key : ∀ (x : SVConstraint) (p : Nat), ∃ suffix,
          extractConstraintsGo fuel body p (acc ++ [x]) = acc ++ suffix := by
        intro x p
        obtain ⟨s, hs⟩ := ih p (acc ++ [x])
        exact ⟨[x] ++ s, by rw [hs, List.append_assoc]⟩
      unfold extractConstraintsGo
      match h : searchConstraintHead (body.length + 1) (body.drop pos) pos with
      | none => exact ⟨[], by simp⟩
      | some (startPos, name, braceStart) =>
          simp only
          match hb : findMatchingBrace body braceStart with
          | some closerPos => exact key _ _
          | none => exact ih (braceStart + 1) acc

/-! ## Claim C3 -/

/-- Inversion of a successful `EStateM` bind. -/
lemma tm_bind_ok {α β : Type} {m : TM α} {k : α → TM β} {st st' : GenState}
    {b : β} (h : (m >>= k) st = EStateM.Result.ok b st') :
    ∃ a st1, m st = EStateM.Result.ok a st1 ∧
      k a st1 = EStateM.Result.ok b st' := by
  change EStateM.bind m k st = _ at h
  unfold EStateM.bind at h
  cases hm : m st with
  | ok a st1 => rw [hm] at h; exact ⟨a, st1, rfl, h⟩
  | error e st1 => rw [hm] at h; cases h

/-- A successful first component fixes the value of an `EStateM` bind. -/
lemma tm_bind_eq_ok {α β : Type} {m : TM α} {k : α → TM β} {st st1 : GenState}
    {a : α} (hm : m st = EStateM.Result.ok a st1) :
    (m >>= k) st = k a st1 := by
  change EStateM.bind m k st = _
  unfold EStateM.bind
  rw [hm]

/-- A failing first component short-circuits an `EStateM` bind. -/
lemma tm_bind_eq_error {α β : Type} {m : TM α} {k : α → TM β} {st st1 : GenState}
    {e : PyExc} (hm : m st = EStateM.Result.error e st1) :
    (m >>= k) st = EStateM.Result.error e st1 := by
  change EStateM.bind m k st = _
  unfold EStateM.bind
  rw [hm]

/-- `tryCatch` is invisible on success. -/
lemma tm_tryCatch_ok {α : Type} {x : TM α} {hnd : PyExc → TM α}
    {st st2 : GenState} {a : α} (hx : x st = EStateM.Result.ok a st2) :
    tryCatch x hnd st = EStateM.Result.ok a st2 := by
  change EStateM.tryCatch x hnd st = _
  unfold EStateM.tryCatch
  rw [hx]

/-- `tryCatch` hands the handler the exception together with the state at
the raise point (`EStateM`'s state is not backtracked, which matches
Python instance attributes surviving a raise). -/
lemma tm_tryCatch_error {α : Type} {x : TM α} {hnd : PyExc → TM α}
    {st st2 : GenState} {e : PyExc} (hx : x st = EStateM.Result.error e st2) :
    tryCatch x hnd st = hnd e st2 := by
  change EStateM.tryCatch x hnd st = _
  unfold EStateM.tryCatch
  rw [hx]
  rfl

/-- The statement loop of `_translate_constraint_body` keeps its two
accumulators pure: the first collects only solve-order lines, the second
only non-solve-order lines. -/
lemma tcbFold_partition (fuel : Nat) (stmts : List Str) :
    ∀ sAcc oAcc st, (∀ l ∈ sAcc, isSolveLine l = true) →
      (∀ l ∈ oAcc, isSolveLine l = false) →
      ∀ s o st', tcbFold fuel stmts sAcc oAcc st = EStateM.Result.ok (s, o) st' →
        (∀ l ∈ s, isSolveLine l = true) ∧ (∀ l ∈ o, isSolveLine l = false) := by
  induction stmts with
  | nil =>
      intro sAcc oAcc st hs ho s o st' h
      have h' : EStateM.Result.ok (ε := PyExc) (sAcc, oAcc) st =
          EStateM.Result.ok (s, o) st' := h
      injection h' with h1 _
      injection h1 with h1a h1b
      subst h1a; subst h1b
      exact ⟨hs, ho⟩
  | cons stmt rest ih =>
      intro sAcc oAcc st hs ho s o st' h
      unfold tcbFold at h
      by_cases he : (strip stmt).isEmpty
      · rw [if_pos he] at h
        exact ih _ _ _ hs ho _ _ _ h
      · rw [if_neg he] at h
        obtain ⟨tls, st1, _, hk⟩ := tm_bind_ok h
        refine ih _ _ _ ?_ ?_ _ _ _ hk
        · intro l hl
          rcases List.mem_append.mp hl with hl | hl
          · exact hs l hl
          · exact (List.mem_filter.mp hl).2
        · intro l hl
          rcases List.mem_append.mp hl with hl | hl
          · exact ho l hl
          · have := (List.mem_filter.mp hl).2
            simpa using this

/-- C3.  In the ordered list of lines `_translate_constraint_body` emits
for a constraint body, every solve-order-hint line (a `vsc.solve_order`
call) comes before every line that is not a solve-order hint, regardless
of where the `solve ... before ...` statements sit in the source body: the
emitted list literally equals its solve-order lines followed by its other
lines. -/
theorem c3_solve_order_first (fuel : Nat) (body : Str) (st : GenState)
    (lines : List Str) (st' : GenState)
    (h : translateConstraintBody fuel body st = EStateM.Result.ok lines st') :
    lines = lines.filter (fun l => isSolveLine l) ++
      lines.filter (fun l => !isSolveLine l) := by
  unfold translateConstraintBody at h
  obtain ⟨⟨s, o⟩, st1, hm, hk⟩ := tm_bind_ok h
  obtain ⟨hsolve, hother⟩ := tcbFold_partition fuel (splitStatements body)
    [] [] st (by simp) (by simp) s o st1 hm
  have hk' : EStateM.Result.ok (ε := PyExc) (s ++ o) st1 =
      EStateM.Result.ok lines st' := hk
  injection hk' with h1 _
  subst h1
  rw [List.filter_append, List.filter_append]
  have hs1 : s.filter (fun l => isSolveLine l) = s :=
    List.filter_eq_self.mpr (fun a ha => hsolve a ha)
  have ho1 : o.filter (fun l => isSolveLine l) = [] :=
    List.filter_eq_nil_iff.mpr (fun a ha => by simp [hother a ha])
  have hs2 : s.filter (fun l => !isSolveLine l) = [] :=
    List.filter_eq_nil_iff.mpr (fun a ha => by simp [hsolve a ha])
  have ho2 : o.filter (fun l => !isSolveLine l) = o :=
    List.filter_eq_self.mpr (fun a ha => by simp [hother a ha])
  rw [hs1, ho1, hs2, ho2]
  simp

/-- The constraint body `x == 1; solve a before b;`: the solve-order hint
comes second in the source. -/
def c3Body : Str := lit "x == 1; solve a before b;"

/-- The lines emitted for `c3Body` (solve-order hint hoisted to the
front). -/
def c3Lines : List Str :=
  [lit "vsc.solve_order(self.a, self.b)", lit "self.x == 1"]

/-- C3 witness: the theorem at the concrete body `c3Body`. -/
theorem c3_solve_order_first_witness :
    c3Lines = c3Lines.filter (fun l => isSolveLine l) ++
      c3Lines.filter (fun l => !isSolveLine l) :=
  c3_solve_order_first 50 c3Body stInit c3Lines stInit rfl

/-! ## Claim C2 -/

/-- The review item `_try_conditional` records as soon as the head matches
`if (`. -/
def c2DetectMsg : Str :=
  lit "Conditional constraint detected - verify if/else_if/else_then structure"

/-- A conditional whose opening parenthesis is never closed: the
decomposition fails (unmatched delimiter). -/
def c2BadStmt : Str := lit "if (a > 1 \x7b b == 2; \x7d"

set_option maxRecDepth 100000 in
/-- C2, counterexample: on an unmatched delimiter the decomposition does
NOT raise — `_parse_if_block` returns `None`, `_parse_full_conditional`
returns the empty list, and `_translate_statement` emits NOTHING for the
statement: no verbatim commented lines, no `pass` placeholder, and only
the generic detection review item.  The claimed comment-block fallback
fires only for raised exceptions. -/
theorem c2_counterexample :
    (parseIfHeadLead c2BadStmt).isSome = true ∧
    translateStatement 50 c2BadStmt stInit =
      EStateM.Result.ok [] (addReviewItem stInit c2DetectMsg) ∧
    condFallback c2BadStmt ≠ [] :=
  ⟨by decide, rfl, by decide⟩

/-- Reduction of `_try_conditional` at positive fuel once the head matches:
the whole body runs under `try/except`. -/
lemma tryConditional_succ_some (fuel : Nat) (stmt : Str) (st : GenState)
    (k : Nat) (hp : parseIfHeadLead stmt = some k) :
    tryConditional (fuel + 1) stmt st =
      match parseFullConditional fuel stmt 0 (addReviewItem st c2DetectMsg) with
      | EStateM.Result.ok lines st2 => EStateM.Result.ok (some lines) st2
      | EStateM.Result.error e st2 =>
          EStateM.Result.ok (some (condFallback stmt))
            (addReviewItem st2
              (lit "Conditional parsing error: " ++ (pyExcMsg e).take 50)) := by
  have h1 : tryConditional (fuel + 1) stmt st =
      (tryCatch
        (do
          let lines ← parseFullConditional fuel stmt 0
          pure (some lines))
        (fun e => do
          modify (fun s => addReviewItem s
            (lit "Conditional parsing error: " ++ (pyExcMsg e).take 50))
          pure (some (condFallback stmt))) : TM (Option (List Str)))
        (addReviewItem st c2DetectMsg) := by
    unfold tryConditional
    rw [hp]
    try rfl
  rw [h1]
  cases hres : parseFullConditional fuel stmt 0 (addReviewItem st c2DetectMsg) with
  | ok lines st2 =>
      exact tm_tryCatch_ok ((tm_bind_eq_ok hres).trans rfl)
  | error e st2 =>
      exact (tm_tryCatch_error (tm_bind_eq_error hres)).trans rfl

/-- C2, amended: (1) `_try_conditional` never lets an exception escape —
it always returns normally; (2) when the conditional parse RAISES, the
handler returns the entire original statement as commented lines plus the
`pass` placeholder and records a parsing-error review item, on top of the
state at the raise point; (3) whenever `_generate_constraint` completes,
it emits a non-empty list of lines (at worst the decorator/def header plus
a `pass` placeholder). -/
theorem c2_exception_boundary :
    (∀ fuel stmt st, ∃ r st',
      tryConditional fuel stmt st = EStateM.Result.ok r st') ∧
    (∀ fuel stmt st (k : Nat) e st1, parseIfHeadLead stmt = some k →
      parseFullConditional fuel stmt 0 (addReviewItem st c2DetectMsg) =
        EStateM.Result.error e st1 →
      tryConditional (fuel + 1) stmt st = EStateM.Result.ok
        (some (condFallback stmt))
        (addReviewItem st1
          (lit "Conditional parsing error: " ++ (pyExcMsg e).take 50))) ∧
    (∀ fuel c st lines st',
      generateConstraint fuel c st = EStateM.Result.ok lines st' →
      lines ≠ []) := by
  refine ⟨?_, ?_, ?_⟩
  · intro fuel stmt st
    cases fuel with
    | zero =>
        cases hp : parseIfHeadLead stmt with
        | none => exact ⟨none, st, by unfold tryConditional; rw [hp]; try rfl⟩
        | some k =>
            refine ⟨some (condFallback stmt),
              addReviewItem (addReviewItem st c2DetectMsg)
                (lit "Conditional parsing error: " ++
                  (pyExcMsg PyExc.recursion).take 50), ?_⟩
            unfold tryConditional; rw [hp]
            try rfl
    | succ fuel =>
        cases hp : parseIfHeadLead stmt with
        | none => exact ⟨none, st, by unfold tryConditional; rw [hp]; try rfl⟩
        | some k =>
            rw [tryConditional_succ_some fuel stmt st k hp]
            cases parseFullConditional fuel stmt 0 (addReviewItem st c2DetectMsg) with
            | ok lines st2 => exact ⟨some lines, st2, rfl⟩
            | error e st2 => exact ⟨some (condFallback stmt), _, rfl⟩
  · intro fuel stmt st k e st1 hp herr
    rw [tryConditional_succ_some fuel stmt st k hp, herr]
  · intro fuel c st lines st' h
    unfold generateConstraint at h
    obtain ⟨bodyLines, st1, _, h⟩ := tm_bind_ok h
    obtain ⟨u1, st2, _, h⟩ := tm_bind_ok h
    obtain ⟨u2, st3, _, h⟩ := tm_bind_ok h
    have h' : (if (!bodyLines.isEmpty) = true then
          (pure ([INDENT ++ lit "@vsc.constraint",
            INDENT ++ lit "def " ++ c.name ++ lit "(self):"] ++
            bodyLines.map (fun l => INDENT ++ INDENT ++ l)) : TM (List Str))
        else do
          modify (fun s => addReviewItem s
            (lit "Constraint " ++ [sq] ++ c.name ++ [sq] ++
              lit " requires manual translation"))
          pure ([INDENT ++ lit "@vsc.constraint",
            INDENT ++ lit "def " ++ c.name ++ lit "(self):"] ++
            [INDENT ++ INDENT ++
              lit "pass  # TODO: Manual translation required"])) st3 =
        EStateM.Result.ok lines st' := h
    by_cases hb : (!bodyLines.isEmpty) = true
    · rw [if_pos hb] at h'
      have h'' : EStateM.Result.ok (ε := PyExc)
          ([INDENT ++ lit "@vsc.constraint",
            INDENT ++ lit "def " ++ c.name ++ lit "(self):"] ++
            bodyLines.map (fun l => INDENT ++ INDENT ++ l)) st3 =
          EStateM.Result.ok lines st' := h'
      injection h'' with h1 _
      subst h1
      simp
    · rw [if_neg hb] at h'
      have h'' : EStateM.Result.ok (ε := PyExc)
          ([INDENT ++ lit "@vsc.constraint",
            INDENT ++ lit "def " ++ c.name ++ lit "(self):"] ++
            [INDENT ++ INDENT ++ lit "pass  # TODO: Manual translation required"])
          (addReviewItem st3
            (lit "Constraint " ++ [sq] ++ c.name ++ [sq] ++
              lit " requires manual translation")) =
          EStateM.Result.ok lines st' := h'
      injection h'' with h1 _
      subst h1
      simp

/-- A plain constraint record used to instantiate part (3). -/
def c2Constraint : SVConstraint := { name := lit "c", body := lit "x == 1;" }

/-- The lines `_generate_constraint` emits for `c2Constraint`. -/
def c2GenLines : List Str :=
  [lit "    @vsc.constraint", lit "    def c(self):", lit "        self.x == 1"]

/-- C2 witness: part (2) at a concrete raise (`parse_full_conditional` out
of recursion budget on `if (a > 1) b == 1;`) and part (3) at the concrete
constraint `c2Constraint`. -/
theorem c2_exception_boundary_witness :
    tryConditional 1 (lit "if (a > 1) b == 1;") stInit =
      EStateM.Result.ok (some (condFallback (lit "if (a > 1) b == 1;")))
        (addReviewItem (addReviewItem stInit c2DetectMsg)
          (lit "Conditional parsing error: " ++
            (pyExcMsg PyExc.recursion).take 50)) ∧
    c2GenLines ≠ [] := by
  constructor
  · exact c2_exception_boundary.2.1 0 (lit "if (a > 1) b == 1;") stInit 3
      PyExc.recursion (addReviewItem stInit c2DetectMsg) (by decide) rfl
  · exact c2_exception_boundary.2.2 50 c2Constraint stInit c2GenLines stInit rfl

/-- A `randc my_e mode;` field record: cyclic-random qualifier on an
enum-shaped data type. -/
def c9EnumFld : SVField :=
  { name := lit "mode", width := 32, fieldType := FieldType.RANDC
    isEnum := true, enumType := some (lit "my_e"), dataType := lit "my_e" }

/-- A `randc int cnt;` field record (int is signed by default). -/
def c9IntFld : SVField :=
  { name := lit "cnt", width := 32, fieldType := FieldType.RANDC
    dataType := lit "int", isSigned := true }

/-- C9, counterexample: a `randc` field with an enum-shaped data type is
NOT emitted as `vsc.randc_bit_t(width)` — `_generate_field` takes the
`is_enum` branch before the field type is ever consulted for randc, so the
emitted line is `vsc.enum_t(...)` and the cyclic-random qualifier is
silently dropped. -/
theorem c9_counterexample :
    c9EnumFld.fieldType = FieldType.RANDC ∧
    generateField false c9EnumFld = lit "self.mode = vsc.enum_t(My)" ∧
    containsSub (generateField false c9EnumFld) (lit "randc") = false := by
  decide

/-- C9, amended: for a non-enum, non-array field with the `randc`
qualifier, `_get_pyvsc_type` short-circuits to `vsc.randc_bit_t(width)`
before any data-type or signedness dispatch, and `_generate_field` emits
exactly that type — so `randc int` becomes `vsc.randc_bit_t(32)`, never a
signed integer type; but enum-shaped fields are excluded. -/
theorem c9_randc_nonenum_type (fld : SVField) (he : fld.isEnum = false)
    (ha : fld.isArray = false) (hr : fld.fieldType = FieldType.RANDC) :
    generateField false fld =
      lit "self." ++ fld.name ++ lit " = " ++ getPyvscType fld ∧
    getPyvscType fld = lit "vsc.randc_bit_t(" ++ natDigits fld.width ++ lit ")" := by
  constructor
  · simp [generateField, he, ha]
  · simp [getPyvscType, hr]

/-- C9 witness: the amended theorem at the concrete `randc int cnt;`
field. -/
theorem c9_randc_nonenum_type_witness :
    generateField false c9IntFld = lit "self.cnt = vsc.randc_bit_t(32)" := by
  have h := c9_randc_nonenum_type c9IntFld rfl rfl rfl
  rw [h.1, h.2]; decide

/-! ## Claim C10: the duplicate-freedom invariant -/

/-- The de-duplication invariant: the warnings and review-items lists are
duplicate-free, and every entry is registered in its companion set (so a
later `_add_warning`/`_add_review_item` of the same message is a
no-op). -/
def Inv (st : GenState) : Prop :=
  st.warnings.Nodup ∧ st.reviewItems.Nodup ∧
  (∀ w ∈ st.warnings, w ∈ st.warningsSet) ∧
  (∀ w ∈ st.reviewItems, w ∈ st.reviewSet)

/-- The invariant on a computation result (the state at a raise point
included). -/
def InvR {α : Type} : EStateM.Result PyExc GenState α → Prop
  | EStateM.Result.ok _ st => Inv st
  | EStateM.Result.error _ st => Inv st

/-- A `TM` computation preserves the invariant. -/
def PresInv {α : Type} (m : TM α) : Prop := ∀ st, Inv st → InvR (m st)

lemma inv_resetState (v : Bool) : Inv (resetState v) := by
  refine ⟨List.nodup_nil, List.nodup_nil, ?_, ?_⟩ <;> intro w hw <;>
    simp [resetState] at hw

lemma inv_addWarning {st : GenState} (w : Str) (h : Inv st) :
    Inv (addWarning st w) := by
  obtain ⟨h1, h2, h3, h4⟩ := h
  unfold addWarning
  by_cases hw : w ∈ st.warningsSet
  · rw [if_pos hw]; exact ⟨h1, h2, h3, h4⟩
  · rw [if_neg hw]
    refine ⟨?_, h2, ?_, h4⟩
    · rw [List.nodup_append]
      refine ⟨h1, List.nodup_singleton w, ?_⟩
      intro a ha hb
      simp only [List.mem_singleton] at hb
      subst hb
      exact hw (h3 a ha)
    · intro x hx
      simp only [List.mem_append, List.mem_singleton] at hx ⊢
      rcases hx with hx | hx
      · exact Or.inl (h3 x hx)
      · exact Or.inr hx

lemma inv_addReviewItem {st : GenState} (w : Str) (h : Inv st) :
    Inv (addReviewItem st w) := by
  obtain ⟨h1, h2, h3, h4⟩ := h
  unfold addReviewItem
  by_cases hw : w ∈ st.reviewSet
  · rw [if_pos hw]; exact ⟨h1, h2, h3, h4⟩
  · rw [if_neg hw]
    refine ⟨h1, ?_, h3, ?_⟩
    · rw [List.nodup_append]
      refine ⟨h2, List.nodup_singleton w, ?_⟩
      intro a ha hb
      simp only [List.mem_singleton] at hb
      subst hb
      exact hw (h4 a ha)
    · intro x hx
      simp only [List.mem_append, List.mem_singleton] at hx ⊢
      rcases hx with hx | hx
      · exact Or.inl (h4 x hx)
      · exact Or.inr hx

lemma presInv_pure {α : Type} (a : α) : PresInv (pure a : TM α) :=
  fun _ h => h

lemma presInv_throw {α : Type} (e : PyExc) : PresInv (throw e : TM α) :=
  fun _ h => h

lemma presInv_get : PresInv (get : TM GenState) := fun _ h => h

lemma presInv_modify (f : GenState → GenState)
    (hf : ∀ st, Inv st → Inv (f st)) : PresInv (modify f) :=
  fun st h => hf st h

lemma presInv_bind {α β : Type} {m : TM α} {k : α → TM β}
    (hm : PresInv m) (hk : ∀ a, PresInv (k a)) : PresInv (m >>= k) := by
  intro st h
  show InvR ((m >>= k) st)
  change InvR (EStateM.bind m k st)
  unfold EStateM.bind
  cases hm' : m st with
  | ok a st1 =>
      have h1 := hm st h
      rw [hm'] at h1
      exact hk a st1 h1
  | error e st1 =>
      have h1 := hm st h
      rw [hm'] at h1
      exact h1

lemma presInv_tryCatch {α : Type} {x : TM α} {hnd : PyExc → TM α}
    (hx : PresInv x) (hh : ∀ e, PresInv (hnd e)) :
    PresInv (tryCatch x hnd) := by
  intro st h
  change InvR (EStateM.tryCatch x hnd st)
  unfold EStateM.tryCatch
  cases hx' : x st with
  | ok a st1 =>
      have h1 := hx st h
      rw [hx'] at h1
      exact h1
  | error e st1 =>
      have h1 := hx st h
      rw [hx'] at h1
      exact hh e st1 h1

lemma presInv_liftEx {α : Type} (r : Except PyExc α) :
    PresInv (liftEx r) := by
  cases r with
  | ok a => exact presInv_pure a
  | error e => exact presInv_throw e

lemma presInv_ite {α : Type} (c : Prop) [Decidable c] {a b : TM α}
    (ha : PresInv a) (hb : PresInv b) : PresInv (if c then a else b) := by
  split
  · exact ha
  · exact hb

/-- `modify` with a record update that leaves the four tracked fields
unchanged. -/
lemma presInv_modify_id (f : GenState → GenState)
    (hf : ∀ st, (f st).warnings = st.warnings ∧
      (f st).warningsSet = st.warningsSet ∧
      (f st).reviewItems = st.reviewItems ∧
      (f st).reviewSet = st.reviewSet) : PresInv (modify f) := by
  refine presInv_modify f (fun st h => ?_)
  obtain ⟨h1, h2, h3, h4⟩ := h
  obtain ⟨e1, e2, e3, e4⟩ := hf st
  exact ⟨e1 ▸ h1, e3 ▸ h2, fun w hw => e2 ▸ h3 w (e1 ▸ hw),
    fun w hw => e4 ▸ h4 w (e3 ▸ hw)⟩

/-- Every function of the statement-translation mutual block preserves
the de-duplication invariant: all their state writes go through
`addWarning`/`addReviewItem` or touch unrelated fields. -/
lemma presInv_mutual : ∀ fuel,
    (∀ stmt, PresInv (translateStatement fuel stmt)) ∧
    (∀ stmt, PresInv (tryForeach fuel stmt)) ∧
    (∀ stmts idx, PresInv (forEachInner fuel stmts idx)) ∧
    (∀ stmt, PresInv (tryConditional fuel stmt)) ∧
    (∀ stmt bi, PresInv (parseFullConditional fuel stmt bi)) ∧
    (∀ rem bi lines, PresInv (parseCondLoop fuel rem bi lines)) ∧
    (∀ body il, PresInv (parseBlockBody fuel body il)) ∧
    (∀ stmts il, PresInv (blockStmtsFold fuel stmts il)) := by
  intro fuel
  induction fuel with
  | zero =>
      refine ⟨fun _ => presInv_throw _, fun _ => presInv_throw _,
        fun _ _ => presInv_throw _, ?_, fun _ _ => presInv_throw _,
        fun _ _ _ => presInv_throw _, fun _ _ => presInv_throw _,
        fun _ _ => presInv_throw _⟩
      intro stmt
      unfold tryConditional
      cases parseIfHeadLead stmt with
      | none => exact presInv_pure _
      | some k =>
          exact presInv_bind
            (presInv_modify _ (fun st h => inv_addReviewItem _ h))
            (fun _ => presInv_bind
              (presInv_modify _ (fun st h => inv_addReviewItem _ h))
              (fun _ => presInv_pure _))
  | succ fuel ih =>
      obtain ⟨ihTS, ihTF, ihFE, ihTC, ihPF, ihPL, ihPB, ihBF⟩ := ih
      refine ⟨?_, ?_, ?_, ?_, ?_, ?_, ?_, ?_⟩
      · -- translateStatement
        intro stmt0
        unfold translateStatement
        refine presInv_ite _ (presInv_pure _) ?_
        try simp only []
        refine presInv_ite _ (presInv_pure _) ?_
        refine presInv_bind presInv_get (fun st => ?_)
        cases trySolveOrder (strip (rstripSemi stmt0)) with
        | some r => exact presInv_pure _
        | none =>
        cases trySoft st (strip (rstripSemi stmt0)) with
        | some r => exact presInv_pure _
        | none =>
        cases tryUnique (strip (rstripSemi stmt0)) with
        | some r => exact presInv_pure _
        | none =>
        refine presInv_bind (ihTF _) (fun fr => ?_)
        cases fr with
        | some r => exact presInv_pure _
        | none =>
        cases tryDistribution (strip (rstripSemi stmt0)) with
        | some r => exact presInv_pure _
        | none =>
        cases tryInside (strip (rstripSemi stmt0)) with
        | some r => exact presInv_pure _
        | none =>
        cases tryNegatedInside (strip (rstripSemi stmt0)) with
        | some r => exact presInv_pure _
        | none =>
        cases tryImplInside st (strip (rstripSemi stmt0)) with
        | some r => exact presInv_pure _
        | none =>
        cases tryImplication st (strip (rstripSemi stmt0)) with
        | some r => exact presInv_pure _
        | none =>
        refine presInv_bind (ihTC _) (fun cr => ?_)
        cases cr with
        | some r => exact presInv_pure _
        | none =>
        refine presInv_bind presInv_get (fun st2 => ?_)
        cases tryArraySize st2 (strip (rstripSemi stmt0)) with
        | some r => exact presInv_pure _
        | none =>
        cases tryRangeConstraint (strip (rstripSemi stmt0)) with
        | some r => exact presInv_pure _
        | none => exact presInv_pure _
      · -- tryForeach
        intro stmt
        unfold tryForeach
        cases foreachHead stmt with
        | none => exact presInv_pure _
        | some t =>
            obtain ⟨arr, idx, content⟩ := t
            try simp only []
            refine presInv_bind
              (presInv_modify_id _ (fun st => ⟨rfl, rfl, rfl, rfl⟩))
              (fun _ => ?_)
            refine presInv_bind (ihFE _ _) (fun pr => ?_)
            obtain ⟨innerLines, hasContent⟩ := pr
            try simp only []
            exact presInv_bind
              (presInv_modify_id _ (fun st => ⟨rfl, rfl, rfl, rfl⟩))
              (fun _ => presInv_pure _)
      · -- forEachInner
        intro stmts idx
        cases stmts with
        | nil => exact presInv_pure _
        | cons inner0 rest =>
            unfold forEachInner
            try simp only []
            refine presInv_ite _ (ihFE _ _) ?_
            cases arrInsideMatch idx (strip (rstripSemi (strip inner0))) with
            | some t =>
                obtain ⟨arr2, insideBody⟩ := t
                try simp only []
                refine presInv_bind (ihFE _ _) (fun pr => ?_)
                obtain ⟨ls, hc⟩ := pr
                exact presInv_pure _
            | none =>
                refine presInv_bind (ihTS _) (fun tls => ?_)
                try simp only []
                refine presInv_bind (ihFE _ _) (fun pr => ?_)
                obtain ⟨ls, hc⟩ := pr
                exact presInv_pure _
      · -- tryConditional
        intro stmt
        unfold tryConditional
        cases parseIfHeadLead stmt with
        | none => exact presInv_pure _
        | some k =>
            refine presInv_bind
              (presInv_modify _ (fun st h => inv_addReviewItem _ h))
              (fun _ => ?_)
            refine presInv_tryCatch
              (presInv_bind (ihPF _ _) (fun l => presInv_pure _))
              (fun e => presInv_bind
                (presInv_modify _ (fun st h => inv_addReviewItem _ h))
                (fun _ => presInv_pure _))
      · -- parseFullConditional
        intro stmt bi
        unfold parseFullConditional
        try simp only []
        refine presInv_bind (presInv_liftEx _) (fun ifRes => ?_)
        cases ifRes with
        | none => exact presInv_pure _
        | some t =>
            obtain ⟨cond, body, rem⟩ := t
            try simp only []
            refine presInv_bind presInv_get (fun st => ?_)
            refine presInv_bind (ihPB _ _) (fun bodyLines => ?_)
            try simp only []
            exact ihPL _ _ _
      · -- parseCondLoop
        intro rem bi lines
        unfold parseCondLoop
        refine presInv_ite _ (presInv_pure _) ?_
        try simp only []
        refine presInv_bind (presInv_liftEx _) (fun elifRes => ?_)
        cases elifRes with
        | some t =>
            obtain ⟨cond, body, rem2⟩ := t
            try simp only []
            refine presInv_bind presInv_get (fun st => ?_)
            refine presInv_bind (ihPB _ _) (fun bodyLines => ?_)
            try simp only []
            exact ihPL _ _ _
        | none =>
            refine presInv_bind (presInv_liftEx _) (fun elseRes => ?_)
            cases elseRes with
            | some t =>
                obtain ⟨body, rem2⟩ := t
                try simp only []
                refine presInv_bind (ihPB _ _) (fun bodyLines => ?_)
                try simp only []
                exact ihPL _ _ _
            | none => exact presInv_pure _
      · -- parseBlockBody
        intro body il
        unfold parseBlockBody
        try simp only []
        refine presInv_ite _ (presInv_pure _) ?_
        refine presInv_ite _ ?_ (ihBF _ _)
        refine presInv_bind (presInv_liftEx _) (fun condEnd => ?_)
        try simp only []
        refine presInv_bind (ihPF _ _) (fun nested => ?_)
        refine presInv_ite _ (presInv_pure _) ?_
        refine presInv_bind (ihBF _ _) (fun more => ?_)
        exact presInv_pure _
      · -- blockStmtsFold
        intro stmts il
        cases stmts with
        | nil => exact presInv_pure _
        | cons stmt0 rest =>
            unfold blockStmtsFold
            try simp only []
            refine presInv_ite _ (ihBF _ _) ?_
            refine presInv_ite _ ?_ ?_
            · refine presInv_bind (ihPF _ _) (fun nested => ?_)
              refine presInv_bind (ihBF _ _) (fun more => ?_)
              exact presInv_pure _
            · refine presInv_bind (ihTS _) (fun tls => ?_)
              try simp only []
              refine presInv_bind (ihBF _ _) (fun more => ?_)
              exact presInv_pure _

lemma presInv_translateStatement (fuel : Nat) (stmt : Str) :
    PresInv (translateStatement fuel stmt) := (presInv_mutual fuel).1 stmt

lemma presInv_tcbFold (fuel : Nat) (stmts : List Str) :
    ∀ sAcc oAcc, PresInv (tcbFold fuel stmts sAcc oAcc) := by
  induction stmts with
  | nil => intro sAcc oAcc; exact presInv_pure _
  | cons stmt rest ih =>
      intro sAcc oAcc
      unfold tcbFold
      refine presInv_ite _ (ih _ _) ?_
      exact presInv_bind (presInv_translateStatement fuel _)
        (fun tls => ih _ _)

lemma presInv_translateConstraintBody (fuel : Nat) (body : Str) :
    PresInv (translateConstraintBody fuel body) := by
  unfold translateConstraintBody
  refine presInv_bind (presInv_tcbFold fuel _ _ _) (fun pr => ?_)
  obtain ⟨s, o⟩ := pr
  exact presInv_pure _

lemma presInv_generateConstraint (fuel : Nat) (c : SVConstraint) :
    PresInv (generateConstraint fuel c) := by
  unfold generateConstraint
  try simp only []
  refine presInv_bind (presInv_translateConstraintBody fuel _)
    (fun bodyLines => ?_)
  try simp only []
  refine presInv_bind
    (presInv_ite _ (presInv_modify _ (fun st h => inv_addWarning _ h))
      (presInv_pure _)) (fun _ => ?_)
  refine presInv_bind
    (presInv_ite _ (presInv_modify _ (fun st h => inv_addWarning _ h))
      (presInv_pure _)) (fun _ => ?_)
  refine presInv_ite _ (presInv_pure _) ?_
  exact presInv_bind (presInv_modify _ (fun st h => inv_addReviewItem _ h))
    (fun _ => presInv_pure _)

lemma presInv_warnFold (ws : List Str) :
    PresInv (genClassConstraints.warnFold ws) := by
  induction ws with
  | nil => exact presInv_pure _
  | cons w rest ih =>
      unfold genClassConstraints.warnFold
      exact presInv_bind (presInv_modify _ (fun st h => inv_addWarning _ h))
        (fun _ => ih)

lemma presInv_genClassConstraints (fuel : Nat) (cs : List SVConstraint) :
    PresInv (genClassConstraints fuel cs) := by
  induction cs with
  | nil => exact presInv_pure _
  | cons c rest ih =>
      unfold genClassConstraints
      refine presInv_bind (presInv_generateConstraint fuel c) (fun cls => ?_)
      refine presInv_bind
        (presInv_modify_id _ (fun st => ⟨rfl, rfl, rfl, rfl⟩)) (fun _ => ?_)
      refine presInv_bind (presInv_warnFold _) (fun _ => ?_)
      exact presInv_bind ih (fun more => presInv_pure _)

lemma presInv_generateHook (name body : Str) :
    PresInv (generateHook name body) := by
  unfold generateHook
  refine presInv_bind (presInv_modify _ (fun st h => inv_addReviewItem _ h))
    (fun _ => ?_)
  try simp only []
  exact presInv_pure _

lemma presInv_generateClass (fuel : Nat) (cls : SVClass) :
    PresInv (generateClass fuel cls) := by
  unfold generateClass
  try simp only []
  refine presInv_bind
    (presInv_ite _ (presInv_modify_id _ (fun st => ⟨rfl, rfl, rfl, rfl⟩))
      (presInv_pure _)) (fun _ => ?_)
  refine presInv_bind presInv_get (fun st => ?_)
  try simp only []
  refine presInv_bind
    (presInv_modify_id _ (fun st => ⟨rfl, rfl, rfl, rfl⟩)) (fun _ => ?_)
  try simp only []
  refine presInv_bind
    (presInv_ite _ (presInv_modify_id _ (fun st => ⟨rfl, rfl, rfl, rfl⟩))
      (presInv_pure _)) (fun _ => ?_)
  refine presInv_bind (presInv_genClassConstraints fuel _)
    (fun constraintLines => ?_)
  try simp only []
  refine presInv_bind ?_ (fun lines2 => ?_)
  · cases cls.preRandomize with
    | some b =>
        exact presInv_bind (presInv_generateHook _ _)
          (fun hl => presInv_pure _)
    | none => exact presInv_pure _
  · refine presInv_bind ?_ (fun lines3 => presInv_pure _)
    cases cls.postRandomize with
    | some b =>
        exact presInv_bind (presInv_generateHook _ _)
          (fun hl => presInv_pure _)
    | none => exact presInv_pure _

lemma presInv_generateEnum (enum : SVEnum) :
    PresInv (generateEnum enum) := by
  unfold generateEnum
  try simp only []
  exact presInv_bind
    (presInv_modify_id _ (fun st => ⟨rfl, rfl, rfl, rfl⟩))
    (fun _ => presInv_pure _)

lemma presInv_enumMapFold (className : Str) (values : List (Str × Option Int)) :
    PresInv (enumMapFold className values) := by
  induction values with
  | nil => exact presInv_pure _
  | cons p rest ih =>
      obtain ⟨vn, v⟩ := p
      unfold enumMapFold
      refine presInv_bind presInv_get (fun st => ?_)
      cases lookupA st.enumValueMap vn with
      | some existing =>
          refine presInv_ite _ ?_ ?_
          · exact presInv_bind
              (presInv_modify _ (fun st h => inv_addWarning _ h))
              (fun _ => ih)
          · exact presInv_bind
              (presInv_modify_id _ (fun st => ⟨rfl, rfl, rfl, rfl⟩))
              (fun _ => ih)
      | none =>
          exact presInv_bind
            (presInv_modify_id _ (fun st => ⟨rfl, rfl, rfl, rfl⟩))
            (fun _ => ih)

lemma presInv_enumMapClassFold (enums : List SVEnum) :
    PresInv (enumMapClassFold enums) := by
  induction enums with
  | nil => exact presInv_pure _
  | cons enum rest ih =>
      unfold enumMapClassFold
      try simp only []
      refine presInv_bind
        (presInv_modify_id _ (fun st => ⟨rfl, rfl, rfl, rfl⟩)) (fun _ => ?_)
      exact presInv_bind (presInv_enumMapFold _ _) (fun _ => ih)

lemma presInv_enumMapBuild (classes : List SVClass) :
    PresInv (enumMapBuild classes) := by
  induction classes with
  | nil => exact presInv_pure _
  | cons cls rest ih =>
      unfold enumMapBuild
      exact presInv_bind (presInv_enumMapClassFold _) (fun _ => ih)

lemma presInv_genEnumsInner (enums : List SVEnum) :
    ∀ seen, PresInv (genEnumsInner enums seen) := by
  induction enums with
  | nil => intro seen; exact presInv_pure _
  | cons enum rest ih =>
      intro seen
      unfold genEnumsInner
      refine presInv_ite _ (ih _) ?_
      refine presInv_bind (presInv_generateEnum enum) (fun code => ?_)
      refine presInv_bind
        (presInv_modify_id _ (fun st => ⟨rfl, rfl, rfl, rfl⟩)) (fun _ => ?_)
      refine presInv_bind (ih _) (fun pr => ?_)
      obtain ⟨parts, seen2⟩ := pr
      exact presInv_pure _

lemma presInv_genEnums (classes : List SVClass) :
    ∀ seen, PresInv (genEnums classes seen) := by
  induction classes with
  | nil => intro seen; exact presInv_pure _
  | cons cls rest ih =>
      intro seen
      unfold genEnums
      refine presInv_bind (presInv_genEnumsInner _ _) (fun pr => ?_)
      obtain ⟨parts1, seen1⟩ := pr
      refine presInv_bind (ih _) (fun pr2 => ?_)
      obtain ⟨parts2, seen2⟩ := pr2
      exact presInv_pure _

lemma presInv_stubsFold (parents : List Str) :
    PresInv (stubsFold parents) := by
  induction parents with
  | nil => exact presInv_pure _
  | cons parent rest ih =>
      unfold stubsFold
      try simp only []
      refine presInv_bind
        (presInv_modify _ (fun st h => inv_addReviewItem _ h)) (fun _ => ?_)
      refine presInv_bind
        (presInv_modify_id _ (fun st => ⟨rfl, rfl, rfl, rfl⟩)) (fun _ => ?_)
      exact presInv_bind ih (fun more => presInv_pure _)

lemma presInv_generateBaseClassStubs (parents : List Str) :
    PresInv (generateBaseClassStubs parents) := by
  unfold generateBaseClassStubs
  exact presInv_bind (presInv_stubsFold _) (fun pl => presInv_pure _)

lemma presInv_addWarnings (ws : List Str) : PresInv (addWarnings ws) := by
  induction ws with
  | nil => exact presInv_pure _
  | cons w rest ih =>
      unfold addWarnings
      exact presInv_bind (presInv_modify _ (fun st h => inv_addWarning _ h))
        (fun _ => ih)

lemma presInv_genClassesFold (fuel : Nat) (classes : List SVClass) :
    PresInv (genClassesFold fuel classes) := by
  induction classes with
  | nil => exact presInv_pure _
  | cons cls rest ih =>
      unfold genClassesFold
      refine presInv_bind (presInv_generateClass fuel cls)
        (fun classCode => ?_)
      refine presInv_bind (presInv_addWarnings _) (fun _ => ?_)
      refine presInv_bind
        (presInv_modify_id _ (fun st => ⟨rfl, rfl, rfl, rfl⟩)) (fun _ => ?_)
      exact presInv_bind ih (fun more => presInv_pure _)

set_option maxRecDepth 100000 in
lemma presInv_generate (fuel : Nat) (classes : List SVClass) :
    PresInv (generate fuel classes) := by
  unfold generate
  refine presInv_bind (presInv_modify _ (fun st _ => inv_resetState _))
    (fun _ => ?_)
  refine presInv_bind (presInv_enumMapBuild _) (fun _ => ?_)
  refine presInv_bind (presInv_genEnums _ _) (fun pr => ?_)
  obtain ⟨enumParts, seenF⟩ := pr
  try simp only []
  refine presInv_bind
    (presInv_ite _ (presInv_pure _)
      (presInv_bind (presInv_generateBaseClassStubs _)
        (fun sc => presInv_pure _))) (fun stubParts => ?_)
  refine presInv_bind (presInv_genClassesFold fuel _) (fun classParts => ?_)
  try simp only []
  refine presInv_bind (presInv_addWarnings _) (fun _ => ?_)
  exact presInv_bind presInv_get (fun st => presInv_pure _)

/-- C10.  Whatever state the generator is in when `generate` is called
(it resets the warning/review lists and their companion de-duplication
sets first), a completed call returns a result whose warnings list and
manual-review-items list are duplicate-free: every add goes through
`_add_warning`/`_add_review_item`, which consult the per-invocation
sets. -/
theorem c10_no_duplicate_messages (fuel : Nat) (classes : List SVClass)
    (st : GenState) (r : TranslationResult) (st' : GenState)
    (h : generate fuel classes st = EStateM.Result.ok r st') :
    r.warnings.Nodup ∧ r.manualReviewItems.Nodup := by
  have hi : InvR (generate fuel classes st) :=
    presInv_generate fuel classes (resetState st.verbose)
      (inv_resetState st.verbose)
  rw [h] at hi
  have hinv : Inv st' := hi
  unfold generate at h
  obtain ⟨u0, s1, _, h⟩ := tm_bind_ok h
  obtain ⟨u1, s2, _, h⟩ := tm_bind_ok h
  obtain ⟨pr, s3, _, h⟩ := tm_bind_ok h
  obtain ⟨enumParts, seenF⟩ := pr
  obtain ⟨stubParts, s4, _, h⟩ := tm_bind_ok h
  obtain ⟨classParts, s5, _, h⟩ := tm_bind_ok h
  obtain ⟨u2, s6, _, h⟩ := tm_bind_ok h
  obtain ⟨stG, s7, hg, h⟩ := tm_bind_ok h
  have hg' : EStateM.Result.ok (ε := PyExc) s6 s6 =
      EStateM.Result.ok stG s7 := hg
  injection hg' with e1 e2
  subst e1
  subst e2
  have h' : EStateM.Result.ok (ε := PyExc) _ s6 =
      EStateM.Result.ok r st' := h
  injection h' with hR hS
  subst hS
  constructor
  · rw [← hR]
    exact hinv.1
  · rw [← hR]
    exact hinv.2.1

/-- Source for the witness: two enums that share the value name `A`, and
two classes — building the enum map for the second class retries the
duplicate-enum-value warning, which the set makes a no-op. -/
def c10Src : Str :=
  lit "typedef enum \x7bA, X1\x7d e1_e;\ntypedef enum \x7bA, X2\x7d e2_e;\nclass c1;\n  rand bit [3:0] f1;\nendclass\nclass c2;\n  rand bit [3:0] f2;\nendclass\n"

def c10Classes : List SVClass := (svParse c10Src).getD []

def c10Res : TranslationResult :=
  match generate 80 c10Classes stInit with
  | EStateM.Result.ok r _ => r
  | EStateM.Result.error _ _ => zeroClassResult

def c10St : GenState :=
  match generate 80 c10Classes stInit with
  | EStateM.Result.ok _ s => s
  | EStateM.Result.error _ s => s

set_option maxRecDepth 400000 in
/-- C10 witness: the theorem at a concrete run in which the
multiple-enums warning is attempted once per class but appears exactly
once. -/
theorem c10_no_duplicate_messages_witness :
    c10Res.warnings.Nodup ∧ c10Res.manualReviewItems.Nodup ∧
    List.count (lit "Enum value " ++ [sq] ++ lit "A" ++ [sq] ++
      lit " appears in multiple enums; using " ++ [sq] ++ lit "E1" ++ [sq])
      c10Res.warnings = 1 := by
  refine ⟨?_, ?_, by decide⟩
  · exact (c10_no_duplicate_messages 80 c10Classes stInit c10Res c10St rfl).1
  · exact (c10_no_duplicate_messages 80 c10Classes stInit c10Res c10St rfl).2

end SvToPyvsc
